import Mathlib

/-! usda-importer: field mapping, unit normalisation and the batched import pipeline.

A shallow embedding of `mapper/mapper.go`, `usda/*.go` and `models/food.go`.

* Go `float64` values are embedded as `F64`: IEEE-754 binary64 with a single NaN,
  signed infinities and signed finite values `m * 2^e`; multiplication and division
  round to nearest, ties to even.
* Go pointers (`*float64`, `*time.Time`, `*BrandInfo`, ...) are embedded as `Option`.
* Go `int` values are embedded as `Int` (source data) or `Nat` (the run-local counters,
  which only count documents of a finite cursor).
-/

namespace UsdaImporter

/-! ## float64 -/

/-- Go `float64`: NaN, a signed infinity, or the signed finite value `m * 2^e`. -/
inductive F64 where
  | nan : F64
  | inf (neg : Bool) : F64
  | fin (neg : Bool) (m : Nat) (e : Int) : F64
  deriving DecidableEq, Repr

namespace F64

/-- Exponent of the least significant bit of a subnormal binary64 value. -/
def minExp : Int := -1074

/-- Largest exponent of the least significant bit of a finite binary64 value. -/
def maxExp : Int := 971

/-- Position of the leading one bit of `n`, computed with `fuel` halving steps. -/
def log2Fuel : Nat → Nat → Nat
  | 0, _ => 0
  | fuel + 1, n => if n < 2 then 0 else log2Fuel fuel (n / 2) + 1

/-- Position of the leading one bit of `n` (and `0` for `n = 0`). -/
def log2 (n : Nat) : Nat := log2Fuel n n

/-- Round the exact value `m * 2^e` to binary64, to nearest with ties to even. -/
def round (neg : Bool) (m : Nat) (e : Int) : F64 :=
  if m = 0 then fin neg 0 minExp
  else
    let l : Int := (log2 m : Nat)
    let e1 : Int := max (e + l - 52) minExp
    let s : Int := e1 - e
    if s ≤ 0 then
      let m1 := m * 2 ^ (-s).toNat
      if e1 > maxExp then inf neg else fin neg m1 e1
    else
      let k := s.toNat
      let q := m / 2 ^ k
      let r := m % 2 ^ k
      let half := 2 ^ (k - 1)
      let up : Bool := decide (r > half) || (decide (r = half) && decide (q % 2 = 1))
      let q1 := if up then q + 1 else q
      let m2 := if q1 = 2 ^ 53 then 2 ^ 52 else q1
      let e2 := if q1 = 2 ^ 53 then e1 + 1 else e1
      if e2 > maxExp then inf neg else fin neg m2 e2

/-- The float64 value of a natural-number constant. -/
def ofNat (n : Nat) : F64 := round false n 0

/-- The float64 constant `0`. -/
def zero : F64 := fin false 0 minExp

/-- The float64 constant `1.0`. -/
def one : F64 := ofNat 1

/-- The float64 constant `100.0`. -/
def hundred : F64 := ofNat 100

/-- Go `x * y` on float64. -/
def mul : F64 → F64 → F64
  | nan, _ => nan
  | _, nan => nan
  | inf a, inf b => inf (xor a b)
  | inf a, fin b m _ => if m = 0 then nan else inf (xor a b)
  | fin a m _, inf b => if m = 0 then nan else inf (xor a b)
  | fin a m1 e1, fin b m2 e2 => round (xor a b) (m1 * m2) (e1 + e2)

/-- Go `x / y` on float64. -/
def div : F64 → F64 → F64
  | nan, _ => nan
  | _, nan => nan
  | inf _, inf _ => nan
  | inf a, fin b _ _ => inf (xor a b)
  | fin a _ _, inf b => fin (xor a b) 0 minExp
  | fin a m1 e1, fin b m2 e2 =>
    if m2 = 0 then
      if m1 = 0 then nan else inf (xor a b)
    else
      let k := log2 m2 + 64
      let q := (m1 * 2 ^ k) / m2
      let r := (m1 * 2 ^ k) % m2
      let sticky := if r = 0 then 0 else 1
      round (xor a b) (2 * q + sticky) (e1 - e2 - (k : Int) - 1)

/-- Go `x > 0` on float64. -/
def gtZero : F64 → Bool
  | nan => false
  | inf neg => !neg
  | fin neg m _ => !neg && decide (m ≠ 0)

/-- Go `x == 0` on float64 (true for both signed zeros). -/
def isZero : F64 → Bool
  | fin _ m _ => decide (m = 0)
  | _ => false

/-- The value is neither NaN nor an infinity. -/
def isFinite : F64 → Bool
  | fin _ _ _ => true
  | _ => false

end F64

/-! ## time.Time and `time.Parse` with the layout "1/2/2006" -/

/-- Go `time.Time`, as far as this program observes it: a calendar date and the
nanoseconds elapsed within that day (UTC). -/
structure Time where
  year : Nat
  month : Nat
  day : Nat
  nsec : Nat
  deriving DecidableEq, Repr

/-- Go `isDigit(s, 0)` on the head of the remaining input. -/
def isDigit (c : Char) : Bool := decide ('0' ≤ c) && decide (c ≤ '9')

/-- Numeric value of an ASCII digit. -/
def digitVal (c : Char) : Nat := c.toNat - '0'.toNat

/-- Go `getnum(s, false)`: one or two leading digits. -/
def getnum : List Char → Option (Nat × List Char)
  | [] => none
  | c :: rest =>
    if isDigit c then
      match rest with
      | d :: rest2 =>
        if isDigit d then some (digitVal c * 10 + digitVal d, rest2)
        else some (digitVal c, rest)
      | [] => some (digitVal c, rest)
    else none

/-- Go `skip(value, "/")`. -/
def skipSlash : List Char → Option (List Char)
  | c :: rest => if c = '/' then some rest else none
  | [] => none

/-- The `stdLongYear` chunk: exactly four characters, all of them digits. -/
def getYear : List Char → Option (Nat × List Char)
  | a :: b :: c :: d :: rest =>
    if isDigit a && isDigit b && isDigit c && isDigit d then
      some (digitVal a * 1000 + digitVal b * 100 + digitVal c * 10 + digitVal d, rest)
    else none
  | _ => none

/-- Go `isLeap`. -/
def isLeap (year : Nat) : Bool :=
  decide (year % 4 = 0) && (decide (year % 100 ≠ 0) || decide (year % 400 = 0))

/-- Go `daysIn`. -/
def daysIn (month year : Nat) : Nat :=
  if month = 2 then (if isLeap year then 29 else 28)
  else if month = 4 ∨ month = 6 ∨ month = 9 ∨ month = 11 then 30
  else 31

/-- Go `time.Parse("1/2/2006", value)`; `none` stands for a non-nil error. -/
def timeParse (value : String) : Option Time :=
  match getnum value.toList with
  | none => none
  | some (month, v1) =>
    match skipSlash v1 with
    | none => none
    | some v2 =>
      match getnum v2 with
      | none => none
      | some (day, v3) =>
        match skipSlash v3 with
        | none => none
        | some v4 =>
          match getYear v4 with
          | none => none
          | some (year, v5) =>
            if month = 0 ∨ 12 < month then none
            else if v5 ≠ [] then none
            else if day < 1 ∨ day > daysIn month year then none
            else some ⟨year, month, day, 0⟩

/-! ## package usda -/

/-- Go `usda.Nutrient`. -/
structure Nutrient where
  ID : Int
  Number : String
  Name : String
  Rank : Int
  UnitName : String
  deriving DecidableEq, Repr

/-- Go `usda.FoodNutrient`. -/
structure FoodNutrient where
  Type_ : String
  ID : Int
  Nutrient : Nutrient
  Amount : F64
  deriving DecidableEq, Repr

/-- Go `usda.FoodPortion`. -/
structure FoodPortion where
  ID : Int
  GramWeight : F64
  PortionDescription : String
  SequenceNumber : Int
  deriving DecidableEq, Repr

/-- Go `usda.SurveyFood`. -/
structure SurveyFood where
  FdcID : Int
  Description : String
  FoodClass : String
  DataType : String
  FoodCode : String
  PublicationDate : String
  FoodNutrients : List FoodNutrient
  FoodPortions : List FoodPortion
  deriving DecidableEq, Repr

/-- Go `usda.BrandedFood`. -/
structure BrandedFood where
  FdcID : Int
  Description : String
  FoodClass : String
  DataType : String
  PublicationDate : String
  BrandOwner : String
  GtinUpc : String
  Ingredients : String
  ServingSize : F64
  ServingSizeUnit : String
  HouseholdServingFullText : String
  BrandedFoodCategory : String
  FoodNutrients : List FoodNutrient
  deriving DecidableEq, Repr

/-! ## package models -/

/-- Go `models.FoodTypeBrand`. -/
def FoodTypeBrand : String := "brand"

/-- Go `models.FoodTypeWhole`. -/
def FoodTypeWhole : String := "whole"

/-- Go `models.VerifiedTypeUSDAsurvey`. -/
def VerifiedTypeUSDAsurvey : String := "USDAsurvey"

/-- Go `models.VerifiedTypeUSDAbrand`. -/
def VerifiedTypeUSDAbrand : String := "USDAbrand"

/-- Go `models.NutritionFactsStatusCompleted`. -/
def NutritionFactsStatusCompleted : String := "completed"

/-- Go `models.BrandInfo`. -/
structure BrandInfo where
  Manufacturer : String := ""
  ParentCompany : String := ""
  OfficialSites : List String := []
  NutritionSiteCandidates : List String := []
  ProductImageSiteCandidates : List String := []
  ProductLine : String := ""
  deriving DecidableEq, Repr

/-- Go `models.RecipeIngredient`. -/
structure RecipeIngredient where
  Name : String
  Quantity : F64
  Unit : String
  Preparation : String
  Amount : F64
  WeightG : F64
  Calories : F64
  TotalFatG : F64
  ProteinG : F64
  CarbsG : F64
  deriving DecidableEq, Repr

/-- Go `models.Recipe`. -/
structure Recipe where
  Name : String
  Description : String
  TotalWeightG : F64
  Servings : Int
  Ingredients : List RecipeIngredient
  Instructions : String
  deriving DecidableEq, Repr

/-- Go `models.NutritionFacts`; the defaults are Go's zero values. -/
structure NutritionFacts where
  FoodName : String := ""
  ServingSizeHousehold : String := ""
  ServingSizeG : F64 := F64.zero
  ServingsPerContainer : Int := 0
  Calories : F64 := F64.zero
  TotalFatG : F64 := F64.zero
  SaturatedFatG : F64 := F64.zero
  TransFatG : Option F64 := none
  CholesterolMG : F64 := F64.zero
  SodiumMG : F64 := F64.zero
  TotalCarbohydrateG : F64 := F64.zero
  DietaryFiberG : F64 := F64.zero
  TotalSugarsG : F64 := F64.zero
  AddedSugarsG : Option F64 := none
  ProteinG : F64 := F64.zero
  VitaminDMcg : F64 := F64.zero
  CalciumMG : F64 := F64.zero
  IronMG : F64 := F64.zero
  PotassiumMG : F64 := F64.zero
  Ingredients : List String := []
  deriving DecidableEq, Repr

/-- Go `models.Food`; the defaults are Go's zero values. -/
structure Food where
  ID : Nat := 0
  Description : String := ""
  FoodRequestType : String := ""
  ANDIscore : F64 := F64.zero
  GlycemicIndex : F64 := F64.zero
  NutritionFacts : Option NutritionFacts := none
  ServingSizeMultiplicand : F64 := F64.zero
  DataSource : String := ""
  EnhancedAt : Option Time := none
  VerifiedType : String := ""
  VerifiedDate : Option Time := none
  VerifiedBy : String := ""
  FoodImage : String := ""
  FoodImageThumbnail : String := ""
  NutritionFactsImage : String := ""
  NutritionFactsImagePending : String := ""
  NutritionFactsStatus : String := ""
  TokensUsed : Option Int := none
  EstimatedCost : Option F64 := none
  BrandInfo : Option BrandInfo := none
  Recipe : Option Recipe := none
  deriving DecidableEq, Repr

/-! ## package mapper: the record mapper -/

/-- Go `mapNutrient`: route one amount to the field selected by the nutrient id. -/
def mapNutrient (nf : NutritionFacts) (nutrientID : Int) (amount : F64) : NutritionFacts :=
  if nutrientID = 1008 then { nf with Calories := amount }
  else if nutrientID = 1003 then { nf with ProteinG := amount }
  else if nutrientID = 1004 then { nf with TotalFatG := amount }
  else if nutrientID = 1258 then { nf with SaturatedFatG := amount }
  else if nutrientID = 1257 then { nf with TransFatG := some amount }
  else if nutrientID = 1253 then { nf with CholesterolMG := amount }
  else if nutrientID = 1093 then { nf with SodiumMG := amount }
  else if nutrientID = 1005 then { nf with TotalCarbohydrateG := amount }
  else if nutrientID = 1079 then { nf with DietaryFiberG := amount }
  else if nutrientID = 2000 then { nf with TotalSugarsG := amount }
  else if nutrientID = 1114 then { nf with VitaminDMcg := amount }
  else if nutrientID = 1087 then { nf with CalciumMG := amount }
  else if nutrientID = 1089 then { nf with IronMG := amount }
  else if nutrientID = 1092 then { nf with PotassiumMG := amount }
  else nf

/-- Go `parseDate`. -/
def parseDate (dateStr : String) : Option Time :=
  if dateStr = "" then none
  else
    match timeParse dateStr with
    | none => none
    | some t => some t

/-- The portion loop of `mapSurveyNutritionFacts`: the first portion whose sequence
number is 1 sets the serving size fields, and the loop stops there. -/
def portionLoop (nf : NutritionFacts) : List FoodPortion → NutritionFacts
  | [] => nf
  | portion :: rest =>
    if portion.SequenceNumber = 1 then
      { nf with ServingSizeG := portion.GramWeight,
                ServingSizeHousehold := portion.PortionDescription }
    else portionLoop nf rest

/-- The nutrient loop of `mapSurveyNutritionFacts`. -/
def surveyNutrientLoop (nf : NutritionFacts) : List FoodNutrient → NutritionFacts
  | [] => nf
  | nutrient :: rest =>
    surveyNutrientLoop (mapNutrient nf nutrient.Nutrient.ID nutrient.Amount) rest

/-- Go `mapSurveyNutritionFacts`. -/
def mapSurveyNutritionFacts (usda : SurveyFood) : NutritionFacts :=
  let nf : NutritionFacts := { FoodName := usda.Description, Ingredients := [] }
  let nf := portionLoop nf usda.FoodPortions
  let nf := { nf with ServingsPerContainer := 1 }
  surveyNutrientLoop nf usda.FoodNutrients

/-- The nutrient loop of `mapBrandedNutritionFacts`. -/
def brandedNutrientLoop (conversionFactor : F64) (nf : NutritionFacts) :
    List FoodNutrient → NutritionFacts
  | [] => nf
  | nutrient :: rest =>
    let amountPer100g := F64.mul nutrient.Amount conversionFactor
    brandedNutrientLoop conversionFactor
      (mapNutrient nf nutrient.Nutrient.ID amountPer100g) rest

/-- Go `mapBrandedNutritionFacts`. -/
def mapBrandedNutritionFacts (usda : BrandedFood) : NutritionFacts :=
  let nf : NutritionFacts :=
    { FoodName := usda.Description,
      ServingSizeG := usda.ServingSize,
      ServingSizeHousehold := usda.HouseholdServingFullText,
      ServingsPerContainer := 1,
      Ingredients := [] }
  let nf := if usda.Ingredients ≠ "" then { nf with Ingredients := [usda.Ingredients] } else nf
  let conversionFactor := F64.div F64.hundred usda.ServingSize
  brandedNutrientLoop conversionFactor nf usda.FoodNutrients

/-- Go `MapSurveyFood`; `now` is the value `time.Now()` returns during the call. -/
def MapSurveyFood (usda : SurveyFood) (id : Nat) (now : Time) : Food :=
  let pubDate := parseDate usda.PublicationDate
  let food : Food :=
    { ID := id,
      Description := usda.Description,
      FoodRequestType := FoodTypeWhole,
      ANDIscore := F64.zero,
      GlycemicIndex := F64.zero,
      ServingSizeMultiplicand := F64.one,
      DataSource := "USDA-FNDDS",
      EnhancedAt := some now,
      VerifiedType := VerifiedTypeUSDAsurvey,
      VerifiedDate := pubDate,
      VerifiedBy := "USDA-Import",
      FoodImage := "",
      FoodImageThumbnail := "",
      NutritionFactsImage := "",
      NutritionFactsImagePending := "",
      NutritionFactsStatus := NutritionFactsStatusCompleted,
      BrandInfo := none,
      Recipe := none }
  { food with NutritionFacts := some (mapSurveyNutritionFacts usda) }

/-- Go `MapBrandedFood`; `now` is the value `time.Now()` returns during the call. -/
def MapBrandedFood (usda : BrandedFood) (id : Nat) (now : Time) : Food :=
  let pubDate := parseDate usda.PublicationDate
  let servingSizeMultiplicand :=
    if F64.gtZero usda.ServingSize then F64.div usda.ServingSize F64.hundred else F64.one
  let food : Food :=
    { ID := id,
      Description := usda.Description,
      FoodRequestType := FoodTypeBrand,
      ANDIscore := F64.zero,
      GlycemicIndex := F64.zero,
      ServingSizeMultiplicand := servingSizeMultiplicand,
      DataSource := "USDA-Branded",
      EnhancedAt := some now,
      VerifiedType := VerifiedTypeUSDAbrand,
      VerifiedDate := pubDate,
      VerifiedBy := "USDA-Import",
      FoodImage := "",
      FoodImageThumbnail := "",
      NutritionFactsImage := "",
      NutritionFactsImagePending := "",
      NutritionFactsStatus := NutritionFactsStatusCompleted,
      Recipe := none }
  let food :=
    if usda.BrandOwner ≠ "" then
      { food with BrandInfo := some { Manufacturer := usda.BrandOwner } }
    else food
  { food with NutritionFacts := some (mapBrandedNutritionFacts usda) }

/-! ## package mapper: the import pipeline -/

/-- The source collection as the import functions see it: `usdaColl.Find` either fails
with an error, or yields a cursor over finitely many documents, each of which either
decodes (`some`) or fails to decode (`none`). -/
abbrev Source (α : Type) := Except String (List (Option α))

/-- The target collection as the import functions see it: the outcome of the bulk write
`foodColl.InsertMany`, given how many bulk writes came before and the batch; `none` is
a nil error. -/
abbrev Sink := Nat → List Food → Option String

/-- The local variables of an import function, together with a record of its calls to
its collaborators: the batches handed to `InsertMany` so far and the number of documents
taken from the cursor. -/
structure LoopState where
  imported : Nat
  skipped : Nat
  nextID : Nat
  batch : List Food
  calls : List (List Food)
  pulled : Nat
  deriving DecidableEq, Repr

/-- What an import function returns, `(imported, skipped, err)`, together with the
batches it handed to `InsertMany`, in call order, and the number of documents it took
from the cursor. -/
structure Run where
  imported : Nat
  skipped : Nat
  err : Option String
  calls : List (List Food)
  pulled : Nat
  deriving DecidableEq, Repr

/-- The local constant `batchSize` of both import functions. -/
def batchSize : Nat := 1000

/-- The initial values of the local variables of an import function. -/
def LoopState.init : LoopState :=
  { imported := 0, skipped := 0, nextID := 1, batch := [], calls := [], pulled := 0 }

/-- The code after the cursor loop of both import functions: "Insert remaining batch". -/
def drain (foodColl : Sink) (st : LoopState) : Run :=
  if st.batch.length > 0 then
    match foodColl st.calls.length st.batch with
    | some err =>
      { imported := st.imported, skipped := st.skipped,
        err := some ("failed to insert final batch: " ++ err),
        calls := st.calls ++ [st.batch], pulled := st.pulled }
    | none =>
      { imported := st.imported + st.batch.length, skipped := st.skipped, err := none,
        calls := st.calls ++ [st.batch], pulled := st.pulled }
  else
    { imported := st.imported, skipped := st.skipped, err := none,
      calls := st.calls, pulled := st.pulled }

/-- The cursor loop of `ImportSurveyFoods`, followed by the final insert. -/
def surveyLoop (foodColl : Sink) (clock : Nat → Time) :
    List (Option SurveyFood) → LoopState → Run
  | [], st => drain foodColl st
  | none :: rest, st => surveyLoop foodColl clock rest { st with pulled := st.pulled + 1 }
  | some surveyFood :: rest, st =>
    if surveyFood.FoodNutrients.length = 0 then
      surveyLoop foodColl clock rest
        { st with skipped := st.skipped + 1, pulled := st.pulled + 1 }
    else
      let food := MapSurveyFood surveyFood st.nextID (clock st.nextID)
      let batch := st.batch ++ [food]
      let nextID := st.nextID + 1
      if batch.length ≥ batchSize then
        match foodColl st.calls.length batch with
        | some err =>
          { imported := st.imported, skipped := st.skipped,
            err := some ("failed to insert batch: " ++ err),
            calls := st.calls ++ [batch], pulled := st.pulled + 1 }
        | none =>
          surveyLoop foodColl clock rest
            { st with imported := st.imported + batch.length, nextID := nextID,
                      batch := [], calls := st.calls ++ [batch], pulled := st.pulled + 1 }
      else
        surveyLoop foodColl clock rest
          { st with nextID := nextID, batch := batch, pulled := st.pulled + 1 }

/-- Go `ImportSurveyFoods`; `clock id` is the value of `time.Now()` while the record
with identifier `id` is mapped. -/
def ImportSurveyFoods (usdaColl : Source SurveyFood) (foodColl : Sink)
    (clock : Nat → Time) : Run :=
  match usdaColl with
  | .error err =>
    { imported := 0, skipped := 0,
      err := some ("failed to query USDA survey foods: " ++ err), calls := [], pulled := 0 }
  | .ok cursor => surveyLoop foodColl clock cursor LoopState.init

/-- The cursor loop of `ImportBrandedFoods`, followed by the final insert. -/
def brandedLoop (foodColl : Sink) (clock : Nat → Time) :
    List (Option BrandedFood) → LoopState → Run
  | [], st => drain foodColl st
  | none :: rest, st => brandedLoop foodColl clock rest { st with pulled := st.pulled + 1 }
  | some brandedFood :: rest, st =>
    if brandedFood.FoodNutrients.length = 0 then
      brandedLoop foodColl clock rest
        { st with skipped := st.skipped + 1, pulled := st.pulled + 1 }
    else
      let food := MapBrandedFood brandedFood st.nextID (clock st.nextID)
      let batch := st.batch ++ [food]
      let nextID := st.nextID + 1
      if batch.length ≥ batchSize then
        match foodColl st.calls.length batch with
        | some err =>
          { imported := st.imported, skipped := st.skipped,
            err := some ("failed to insert batch: " ++ err),
            calls := st.calls ++ [batch], pulled := st.pulled + 1 }
        | none =>
          brandedLoop foodColl clock rest
            { st with imported := st.imported + batch.length, nextID := nextID,
                      batch := [], calls := st.calls ++ [batch], pulled := st.pulled + 1 }
      else
        brandedLoop foodColl clock rest
          { st with nextID := nextID, batch := batch, pulled := st.pulled + 1 }

/-- Go `ImportBrandedFoods`; `clock id` is the value of `time.Now()` while the record
with identifier `id` is mapped. -/
def ImportBrandedFoods (usdaColl : Source BrandedFood) (foodColl : Sink)
    (clock : Nat → Time) : Run :=
  match usdaColl with
  | .error err =>
    { imported := 0, skipped := 0,
      err := some ("failed to query USDA branded foods: " ++ err), calls := [], pulled := 0 }
  | .ok cursor => brandedLoop foodColl clock cursor LoopState.init

/-! ## Vocabulary of the specification -/

/-- The 14 codes of the nutrient code table, in the order of the `switch` of
`mapNutrient`. -/
def nutrientCodes : List Int :=
  [1008, 1003, 1004, 1258, 1257, 1253, 1093, 1005, 1079, 2000, 1114, 1087, 1089, 1092]

/-- The field of a Nutrition Facts block that the nutrient code table assigns to a
code: `none` for a code outside the table and for an absent (nil) trans fat. -/
def nutrientField (nf : NutritionFacts) (code : Int) : Option F64 :=
  if code = 1008 then some nf.Calories
  else if code = 1003 then some nf.ProteinG
  else if code = 1004 then some nf.TotalFatG
  else if code = 1258 then some nf.SaturatedFatG
  else if code = 1257 then nf.TransFatG
  else if code = 1253 then some nf.CholesterolMG
  else if code = 1093 then some nf.SodiumMG
  else if code = 1005 then some nf.TotalCarbohydrateG
  else if code = 1079 then some nf.DietaryFiberG
  else if code = 2000 then some nf.TotalSugarsG
  else if code = 1114 then some nf.VitaminDMcg
  else if code = 1087 then some nf.CalciumMG
  else if code = 1089 then some nf.IronMG
  else if code = 1092 then some nf.PotassiumMG
  else none

/-- The field of the Nutrition Facts block of an output record selected by a code. -/
def Food.field (food : Food) (code : Int) : Option F64 :=
  match food.NutritionFacts with
  | some nf => nutrientField nf code
  | none => none

/-- The trans-fat field of an output record (`none` when it is nil). -/
def Food.transFat (food : Food) : Option F64 :=
  match food.NutritionFacts with
  | some nf => nf.TransFatG
  | none => none

/-- The nutrient loop of both mappers, with the normalisation `norm` applied to each
amount before it is routed. -/
def routeAll (norm : F64 → F64) (nf : NutritionFacts) : List FoodNutrient → NutritionFacts
  | [] => nf
  | nutrient :: rest =>
    routeAll norm (mapNutrient nf nutrient.Nutrient.ID (norm nutrient.Amount)) rest

/-- The cursor loop shared by `ImportSurveyFoods` and `ImportBrandedFoods`, over the
nutrient list accessor and the record mapper of the variant. -/
def importLoop {α : Type} (nutrients : α → List FoodNutrient)
    (mapFood : α → Nat → Time → Food) (foodColl : Sink) (clock : Nat → Time) :
    List (Option α) → LoopState → Run
  | [], st => drain foodColl st
  | none :: rest, st =>
    importLoop nutrients mapFood foodColl clock rest { st with pulled := st.pulled + 1 }
  | some record :: rest, st =>
    if (nutrients record).length = 0 then
      importLoop nutrients mapFood foodColl clock rest
        { st with skipped := st.skipped + 1, pulled := st.pulled + 1 }
    else
      let food := mapFood record st.nextID (clock st.nextID)
      let batch := st.batch ++ [food]
      let nextID := st.nextID + 1
      if batch.length ≥ batchSize then
        match foodColl st.calls.length batch with
        | some err =>
          { imported := st.imported, skipped := st.skipped,
            err := some ("failed to insert batch: " ++ err),
            calls := st.calls ++ [batch], pulled := st.pulled + 1 }
        | none =>
          importLoop nutrients mapFood foodColl clock rest
            { st with imported := st.imported + batch.length, nextID := nextID,
                      batch := [], calls := st.calls ++ [batch], pulled := st.pulled + 1 }
      else
        importLoop nutrients mapFood foodColl clock rest
          { st with nextID := nextID, batch := batch, pulled := st.pulled + 1 }

/-- The qualifying records of a source, in source order: the documents that decode and
have a non-empty nutrient list. -/
def qualifying {α : Type} (nutrients : α → List FoodNutrient) :
    List (Option α) → List α
  | [] => []
  | none :: rest => qualifying nutrients rest
  | some record :: rest =>
    if (nutrients record).length = 0 then qualifying nutrients rest
    else record :: qualifying nutrients rest

/-- The number of documents of a source that decode and have an empty nutrient list. -/
def countEmpty {α : Type} (nutrients : α → List FoodNutrient) : List (Option α) → Nat
  | [] => 0
  | none :: rest => countEmpty nutrients rest
  | some record :: rest =>
    if (nutrients record).length = 0 then countEmpty nutrients rest + 1
    else countEmpty nutrients rest

/-- The number of documents of a source that fail to decode. -/
def countUndecodable {α : Type} : List (Option α) → Nat
  | [] => 0
  | none :: rest => countUndecodable rest + 1
  | some _ :: rest => countUndecodable rest

/-- The output records of a list of records mapped in order with the consecutive
identifiers `id`, `id + 1`, ... -/
def mapFrom {α : Type} (mapFood : α → Nat → Time → Food) (clock : Nat → Time) :
    Nat → List α → List Food
  | _, [] => []
  | id, record :: rest => mapFood record id (clock id) :: mapFrom mapFood clock (id + 1) rest

/-- The sizes of the bulk writes that carry `n` records in batches of `batchSize`:
`n / batchSize` full batches, then the remainder when it is not zero. -/
def batchSizes (n : Nat) : List Nat :=
  List.replicate (n / batchSize) batchSize ++
    (if n % batchSize = 0 then [] else [n % batchSize])

/-- A sink whose every bulk write succeeds. -/
def sinkOk : Sink := fun _ _ => none

/-- The nutrient fields of a block all hold Go's zero value: every amount is `0` and
trans fat is nil. -/
def nutrientsDefault (nf : NutritionFacts) : Prop :=
  nf.Calories = F64.zero ∧ nf.ProteinG = F64.zero ∧ nf.TotalFatG = F64.zero ∧
  nf.SaturatedFatG = F64.zero ∧ nf.TransFatG = none ∧ nf.CholesterolMG = F64.zero ∧
  nf.SodiumMG = F64.zero ∧ nf.TotalCarbohydrateG = F64.zero ∧
  nf.DietaryFiberG = F64.zero ∧ nf.TotalSugarsG = F64.zero ∧ nf.VitaminDMcg = F64.zero ∧
  nf.CalciumMG = F64.zero ∧ nf.IronMG = F64.zero ∧ nf.PotassiumMG = F64.zero

/-! ## Sample records -/

/-- A wall-clock reading. -/
def sampleTime : Time := ⟨2024, 11, 5, 0⟩

/-- A nutrient pair with the given nutrient code and amount. -/
def sampleNutrient (code : Int) (amount : F64) : FoodNutrient :=
  { Type_ := "FoodNutrient", ID := 0,
    Nutrient := { ID := code, Number := "", Name := "", Rank := 0, UnitName := "" },
    Amount := amount }

/-- A branded record with the given serving size and nutrient pairs. -/
def sampleBranded (servingSize : F64) (ns : List FoodNutrient) : BrandedFood :=
  { FdcID := 1, Description := "GRANOLA BAR", FoodClass := "Branded", DataType := "Branded",
    PublicationDate := "10/31/2024", BrandOwner := "Acme", GtinUpc := "", Ingredients := "OATS",
    ServingSize := servingSize, ServingSizeUnit := "g", HouseholdServingFullText := "1 bar",
    BrandedFoodCategory := "", FoodNutrients := ns }

/-- A survey record with the given nutrient pairs and portions. -/
def sampleSurvey (ns : List FoodNutrient) (ps : List FoodPortion) : SurveyFood :=
  { FdcID := 2, Description := "Milk, whole", FoodClass := "Survey", DataType := "Survey",
    FoodCode := "11111000", PublicationDate := "10/31/2024", FoodNutrients := ns,
    FoodPortions := ps }

/-- The smallest positive float64, `2^-1074` (about `4.9e-324`). -/
def F64.tiny : F64 := F64.fin false 1 F64.minExp

/-- The loop invariant of the cursor loop, after the documents `pre` were consumed:
what the local variables and the record of bulk writes hold. -/
structure LoopInv {α : Type} (nutrients : α → List FoodNutrient)
    (mapFood : α → Nat → Time → Food) (foodColl : Sink) (clock : Nat → Time)
    (pre : List (Option α)) (st : LoopState) : Prop where
  pulled : st.pulled = pre.length
  skipped : st.skipped = countEmpty nutrients pre
  nextID : st.nextID = (qualifying nutrients pre).length + 1
  joined : st.calls.flatten ++ st.batch = mapFrom mapFood clock 1 (qualifying nutrients pre)
  full : ∀ b ∈ st.calls, b.length = batchSize
  small : st.batch.length < batchSize
  imported : st.imported = st.calls.flatten.length
  written : ∀ k b, st.calls[k]? = some b → foodColl k b = none

/-- What a run over the documents `all` satisfies, whatever the sink does. -/
structure RunSpec {α : Type} (nutrients : α → List FoodNutrient)
    (mapFood : α → Nat → Time → Food) (foodColl : Sink) (clock : Nat → Time)
    (all : List (Option α)) (r : Run) : Prop where
  pulled_le : r.pulled ≤ all.length
  skipped : r.skipped = countEmpty nutrients (all.take r.pulled)
  joined : r.calls.flatten
    = mapFrom mapFood clock 1 (qualifying nutrients (all.take r.pulled))
  sizes : r.calls.map List.length = batchSizes r.calls.flatten.length
  ok : r.err = none →
    r.pulled = all.length ∧ r.imported = r.calls.flatten.length ∧
      ∀ k b, r.calls[k]? = some b → foodColl k b = none
  failed : r.err ≠ none →
    ∃ done last, r.calls = done ++ [last] ∧ foodColl done.length last ≠ none ∧
      (∀ k b, done[k]? = some b → foodColl k b = none) ∧
      r.imported = done.flatten.length

/-- What a run reports and does to the sink: the returned triple and the batches handed
to `InsertMany`. -/
def Run.outcome (r : Run) : Nat × Nat × Option String × List (List Food) :=
  (r.imported, r.skipped, r.err, r.calls)

/-- The documents of a source that decode, in source order. -/
def decodable {α : Type} (docs : List (Option α)) : List (Option α) :=
  docs.filter Option.isSome

/-- A sink whose every bulk write fails. -/
def sinkFail : Sink := fun _ _ => some "write error"

/-- A sink whose bulk write number `k` (counted from 0) fails, and that accepts every
other bulk write. -/
def sinkFailAt (k : Nat) : Sink := fun i _ => if i = k then some "write error" else none

/-- A clock that always reads the same time. -/
def sampleClock : Nat → Time := fun _ => sampleTime

/-- A survey record with one nutrient pair. -/
def surveyRecord : SurveyFood := sampleSurvey [sampleNutrient 1008 (F64.ofNat 61)] []

/-- A survey record with an empty nutrient list. -/
def surveyEmpty : SurveyFood := sampleSurvey [] []

/-- A branded record with one nutrient pair. -/
def brandedRecord : BrandedFood :=
  sampleBranded (F64.ofNat 50) [sampleNutrient 1008 (F64.ofNat 10)]

/-- A branded record with an empty nutrient list. -/
def brandedEmpty : BrandedFood := sampleBranded (F64.ofNat 50) []

/-- A source with `n` qualifying records, followed by an undecodable document and a
record with an empty nutrient list. -/
def sampleSource {α : Type} (record empty : α) (n : Nat) : List (Option α) :=
  List.replicate n (some record) ++ [none, some empty]

/-- A short source: three qualifying records with an undecodable document and a record
with an empty nutrient list in between. -/
def mixedSource {α : Type} (record empty : α) : List (Option α) :=
  [none, some record, some empty, some record, none, some record]

/-- A source that opens with `batchSize` qualifying records, followed by a record with an
empty nutrient list, one more qualifying record, an undecodable document and another
record with an empty nutrient list. -/
def stoppedSource {α : Type} (record empty : α) : List (Option α) :=
  List.replicate batchSize (some record) ++ [some empty, some record, none, some empty]

/-- The shape month/day/4-digit-year of the specification: one or two digits, a slash,
one or two digits, a slash, and exactly four digits, with nothing before or after. -/
def MatchesLayout (s : String) : Prop :=
  ∃ m d y : List Char,
    s.toList = m ++ '/' :: (d ++ '/' :: y) ∧
    (m.length = 1 ∨ m.length = 2) ∧ (∀ c ∈ m, isDigit c = true) ∧
    (d.length = 1 ∨ d.length = 2) ∧ (∀ c ∈ d, isDigit c = true) ∧
    y.length = 4 ∧ (∀ c ∈ y, isDigit c = true)

/-- What the pipeline distinguishes about a source document: it fails to decode, it
decodes with an empty nutrient list, or it decodes with a non-empty nutrient list. -/
inductive DocKind where
  | undecodable : DocKind
  | empty : DocKind
  | qualifying : DocKind
  deriving DecidableEq, Repr

/-- The kind of a source document. -/
def docKind {α : Type} (nutrients : α → List FoodNutrient) : Option α → DocKind
  | none => DocKind.undecodable
  | some record =>
    if (nutrients record).length = 0 then DocKind.empty else DocKind.qualifying

/-- Two loop states agree up to the mapped records: same counters, and the same
identifiers at the same positions of the pending batch and of the written batches. -/
structure StateSim (s t : LoopState) : Prop where
  imported : s.imported = t.imported
  skipped : s.skipped = t.skipped
  nextID : s.nextID = t.nextID
  batch : s.batch.map Food.ID = t.batch.map Food.ID
  calls : s.calls.map (List.map Food.ID) = t.calls.map (List.map Food.ID)
  pulled : s.pulled = t.pulled

/-- Two runs agree up to the mapped records: same counts, same error status, and the
same identifiers at the same positions of the batches handed to the sink. -/
structure RunSim (r s : Run) : Prop where
  imported : r.imported = s.imported
  skipped : r.skipped = s.skipped
  err : r.err = none ↔ s.err = none
  calls : r.calls.map (List.map Food.ID) = s.calls.map (List.map Food.ID)
  pulled : r.pulled = s.pulled

/-- The exact value of a finite float64 as a rational number (0 for NaN and the
infinities, which have no value). -/
def F64.toRat : F64 → ℚ
  | F64.fin neg m e => (if neg then -1 else 1) * (m : ℚ) * (2 : ℚ) ^ e
  | _ => 0

/-- The float64 is finite with a full 53-bit significand (`2^52 ≤ m`), as every normal
number is. -/
def F64.isNormal : F64 → Bool
  | F64.fin _ m _ => decide (2 ^ 52 ≤ m)
  | _ => false

/-- Go's zero value of the field that the nutrient code table assigns to a code: nil for
trans fat (code 1257) and the amount 0 for every other code. -/
def defaultField (code : Int) : Option F64 :=
  if code = 1257 then none else some F64.zero

/-! ## The nutrient code table: what `mapNutrient` writes -/

/-- Outside the 14 codes of the table, `mapNutrient` returns the block unchanged. -/
theorem mapNutrient_of_not_mem (nf : NutritionFacts) (c : Int) (a : F64)
    (h : c ∉ nutrientCodes) : mapNutrient nf c a = nf := by
  simp only [nutrientCodes, List.mem_cons, List.mem_singleton, List.not_mem_nil, or_false,
    not_or] at h
  obtain ⟨h1, h2, h3, h4, h5, h6, h7, h8, h9, h10, h11, h12, h13, h14⟩ := h
  unfold mapNutrient
  rw [if_neg h1, if_neg h2, if_neg h3, if_neg h4, if_neg h5, if_neg h6, if_neg h7, if_neg h8,
    if_neg h9, if_neg h10, if_neg h11, if_neg h12, if_neg h13, if_neg h14]

/-- What `mapNutrient` leaves in the field `Calories`. -/
theorem mapNutrient_Calories (nf : NutritionFacts) (c : Int) (a : F64) :
    (mapNutrient nf c a).Calories = if c = 1008 then a else nf.Calories := by
  by_cases h1 : c = 1008
  · subst h1; rfl
  by_cases h2 : c = 1003
  · subst h2; rfl
  by_cases h3 : c = 1004
  · subst h3; rfl
  by_cases h4 : c = 1258
  · subst h4; rfl
  by_cases h5 : c = 1257
  · subst h5; rfl
  by_cases h6 : c = 1253
  · subst h6; rfl
  by_cases h7 : c = 1093
  · subst h7; rfl
  by_cases h8 : c = 1005
  · subst h8; rfl
  by_cases h9 : c = 1079
  · subst h9; rfl
  by_cases h10 : c = 2000
  · subst h10; rfl
  by_cases h11 : c = 1114
  · subst h11; rfl
  by_cases h12 : c = 1087
  · subst h12; rfl
  by_cases h13 : c = 1089
  · subst h13; rfl
  by_cases h14 : c = 1092
  · subst h14; rfl
  rw [mapNutrient_of_not_mem nf c a (by
    simp only [nutrientCodes, List.mem_cons, List.mem_singleton, List.not_mem_nil,
      or_false, not_or]
    exact ⟨h1, h2, h3, h4, h5, h6, h7, h8, h9, h10, h11, h12, h13, h14⟩),
    if_neg h1]

/-- What `mapNutrient` leaves in the field `ProteinG`. -/
theorem mapNutrient_ProteinG (nf : NutritionFacts) (c : Int) (a : F64) :
    (mapNutrient nf c a).ProteinG = if c = 1003 then a else nf.ProteinG := by
  by_cases h1 : c = 1008
  · subst h1; rfl
  by_cases h2 : c = 1003
  · subst h2; rfl
  by_cases h3 : c = 1004
  · subst h3; rfl
  by_cases h4 : c = 1258
  · subst h4; rfl
  by_cases h5 : c = 1257
  · subst h5; rfl
  by_cases h6 : c = 1253
  · subst h6; rfl
  by_cases h7 : c = 1093
  · subst h7; rfl
  by_cases h8 : c = 1005
  · subst h8; rfl
  by_cases h9 : c = 1079
  · subst h9; rfl
  by_cases h10 : c = 2000
  · subst h10; rfl
  by_cases h11 : c = 1114
  · subst h11; rfl
  by_cases h12 : c = 1087
  · subst h12; rfl
  by_cases h13 : c = 1089
  · subst h13; rfl
  by_cases h14 : c = 1092
  · subst h14; rfl
  rw [mapNutrient_of_not_mem nf c a (by
    simp only [nutrientCodes, List.mem_cons, List.mem_singleton, List.not_mem_nil,
      or_false, not_or]
    exact ⟨h1, h2, h3, h4, h5, h6, h7, h8, h9, h10, h11, h12, h13, h14⟩),
    if_neg h2]

/-- What `mapNutrient` leaves in the field `TotalFatG`. -/
theorem mapNutrient_TotalFatG (nf : NutritionFacts) (c : Int) (a : F64) :
    (mapNutrient nf c a).TotalFatG = if c = 1004 then a else nf.TotalFatG := by
  by_cases h1 : c = 1008
  · subst h1; rfl
  by_cases h2 : c = 1003
  · subst h2; rfl
  by_cases h3 : c = 1004
  · subst h3; rfl
  by_cases h4 : c = 1258
  · subst h4; rfl
  by_cases h5 : c = 1257
  · subst h5; rfl
  by_cases h6 : c = 1253
  · subst h6; rfl
  by_cases h7 : c = 1093
  · subst h7; rfl
  by_cases h8 : c = 1005
  · subst h8; rfl
  by_cases h9 : c = 1079
  · subst h9; rfl
  by_cases h10 : c = 2000
  · subst h10; rfl
  by_cases h11 : c = 1114
  · subst h11; rfl
  by_cases h12 : c = 1087
  · subst h12; rfl
  by_cases h13 : c = 1089
  · subst h13; rfl
  by_cases h14 : c = 1092
  · subst h14; rfl
  rw [mapNutrient_of_not_mem nf c a (by
    simp only [nutrientCodes, List.mem_cons, List.mem_singleton, List.not_mem_nil,
      or_false, not_or]
    exact ⟨h1, h2, h3, h4, h5, h6, h7, h8, h9, h10, h11, h12, h13, h14⟩),
    if_neg h3]

/-- What `mapNutrient` leaves in the field `SaturatedFatG`. -/
theorem mapNutrient_SaturatedFatG (nf : NutritionFacts) (c : Int) (a : F64) :
    (mapNutrient nf c a).SaturatedFatG = if c = 1258 then a else nf.SaturatedFatG := by
  by_cases h1 : c = 1008
  · subst h1; rfl
  by_cases h2 : c = 1003
  · subst h2; rfl
  by_cases h3 : c = 1004
  · subst h3; rfl
  by_cases h4 : c = 1258
  · subst h4; rfl
  by_cases h5 : c = 1257
  · subst h5; rfl
  by_cases h6 : c = 1253
  · subst h6; rfl
  by_cases h7 : c = 1093
  · subst h7; rfl
  by_cases h8 : c = 1005
  · subst h8; rfl
  by_cases h9 : c = 1079
  · subst h9; rfl
  by_cases h10 : c = 2000
  · subst h10; rfl
  by_cases h11 : c = 1114
  · subst h11; rfl
  by_cases h12 : c = 1087
  · subst h12; rfl
  by_cases h13 : c = 1089
  · subst h13; rfl
  by_cases h14 : c = 1092
  · subst h14; rfl
  rw [mapNutrient_of_not_mem nf c a (by
    simp only [nutrientCodes, List.mem_cons, List.mem_singleton, List.not_mem_nil,
      or_false, not_or]
    exact ⟨h1, h2, h3, h4, h5, h6, h7, h8, h9, h10, h11, h12, h13, h14⟩),
    if_neg h4]

/-- What `mapNutrient` leaves in the field `TransFatG`. -/
theorem mapNutrient_TransFatG (nf : NutritionFacts) (c : Int) (a : F64) :
    (mapNutrient nf c a).TransFatG = if c = 1257 then some a else nf.TransFatG := by
  by_cases h1 : c = 1008
  · subst h1; rfl
  by_cases h2 : c = 1003
  · subst h2; rfl
  by_cases h3 : c = 1004
  · subst h3; rfl
  by_cases h4 : c = 1258
  · subst h4; rfl
  by_cases h5 : c = 1257
  · subst h5; rfl
  by_cases h6 : c = 1253
  · subst h6; rfl
  by_cases h7 : c = 1093
  · subst h7; rfl
  by_cases h8 : c = 1005
  · subst h8; rfl
  by_cases h9 : c = 1079
  · subst h9; rfl
  by_cases h10 : c = 2000
  · subst h10; rfl
  by_cases h11 : c = 1114
  · subst h11; rfl
  by_cases h12 : c = 1087
  · subst h12; rfl
  by_cases h13 : c = 1089
  · subst h13; rfl
  by_cases h14 : c = 1092
  · subst h14; rfl
  rw [mapNutrient_of_not_mem nf c a (by
    simp only [nutrientCodes, List.mem_cons, List.mem_singleton, List.not_mem_nil,
      or_false, not_or]
    exact ⟨h1, h2, h3, h4, h5, h6, h7, h8, h9, h10, h11, h12, h13, h14⟩),
    if_neg h5]

/-- What `mapNutrient` leaves in the field `CholesterolMG`. -/
theorem mapNutrient_CholesterolMG (nf : NutritionFacts) (c : Int) (a : F64) :
    (mapNutrient nf c a).CholesterolMG = if c = 1253 then a else nf.CholesterolMG := by
  by_cases h1 : c = 1008
  · subst h1; rfl
  by_cases h2 : c = 1003
  · subst h2; rfl
  by_cases h3 : c = 1004
  · subst h3; rfl
  by_cases h4 : c = 1258
  · subst h4; rfl
  by_cases h5 : c = 1257
  · subst h5; rfl
  by_cases h6 : c = 1253
  · subst h6; rfl
  by_cases h7 : c = 1093
  · subst h7; rfl
  by_cases h8 : c = 1005
  · subst h8; rfl
  by_cases h9 : c = 1079
  · subst h9; rfl
  by_cases h10 : c = 2000
  · subst h10; rfl
  by_cases h11 : c = 1114
  · subst h11; rfl
  by_cases h12 : c = 1087
  · subst h12; rfl
  by_cases h13 : c = 1089
  · subst h13; rfl
  by_cases h14 : c = 1092
  · subst h14; rfl
  rw [mapNutrient_of_not_mem nf c a (by
    simp only [nutrientCodes, List.mem_cons, List.mem_singleton, List.not_mem_nil,
      or_false, not_or]
    exact ⟨h1, h2, h3, h4, h5, h6, h7, h8, h9, h10, h11, h12, h13, h14⟩),
    if_neg h6]

/-- What `mapNutrient` leaves in the field `SodiumMG`. -/
theorem mapNutrient_SodiumMG (nf : NutritionFacts) (c : Int) (a : F64) :
    (mapNutrient nf c a).SodiumMG = if c = 1093 then a else nf.SodiumMG := by
  by_cases h1 : c = 1008
  · subst h1; rfl
  by_cases h2 : c = 1003
  · subst h2; rfl
  by_cases h3 : c = 1004
  · subst h3; rfl
  by_cases h4 : c = 1258
  · subst h4; rfl
  by_cases h5 : c = 1257
  · subst h5; rfl
  by_cases h6 : c = 1253
  · subst h6; rfl
  by_cases h7 : c = 1093
  · subst h7; rfl
  by_cases h8 : c = 1005
  · subst h8; rfl
  by_cases h9 : c = 1079
  · subst h9; rfl
  by_cases h10 : c = 2000
  · subst h10; rfl
  by_cases h11 : c = 1114
  · subst h11; rfl
  by_cases h12 : c = 1087
  · subst h12; rfl
  by_cases h13 : c = 1089
  · subst h13; rfl
  by_cases h14 : c = 1092
  · subst h14; rfl
  rw [mapNutrient_of_not_mem nf c a (by
    simp only [nutrientCodes, List.mem_cons, List.mem_singleton, List.not_mem_nil,
      or_false, not_or]
    exact ⟨h1, h2, h3, h4, h5, h6, h7, h8, h9, h10, h11, h12, h13, h14⟩),
    if_neg h7]

/-- What `mapNutrient` leaves in the field `TotalCarbohydrateG`. -/
theorem mapNutrient_TotalCarbohydrateG (nf : NutritionFacts) (c : Int) (a : F64) :
    (mapNutrient nf c a).TotalCarbohydrateG = if c = 1005 then a else nf.TotalCarbohydrateG := by
  by_cases h1 : c = 1008
  · subst h1; rfl
  by_cases h2 : c = 1003
  · subst h2; rfl
  by_cases h3 : c = 1004
  · subst h3; rfl
  by_cases h4 : c = 1258
  · subst h4; rfl
  by_cases h5 : c = 1257
  · subst h5; rfl
  by_cases h6 : c = 1253
  · subst h6; rfl
  by_cases h7 : c = 1093
  · subst h7; rfl
  by_cases h8 : c = 1005
  · subst h8; rfl
  by_cases h9 : c = 1079
  · subst h9; rfl
  by_cases h10 : c = 2000
  · subst h10; rfl
  by_cases h11 : c = 1114
  · subst h11; rfl
  by_cases h12 : c = 1087
  · subst h12; rfl
  by_cases h13 : c = 1089
  · subst h13; rfl
  by_cases h14 : c = 1092
  · subst h14; rfl
  rw [mapNutrient_of_not_mem nf c a (by
    simp only [nutrientCodes, List.mem_cons, List.mem_singleton, List.not_mem_nil,
      or_false, not_or]
    exact ⟨h1, h2, h3, h4, h5, h6, h7, h8, h9, h10, h11, h12, h13, h14⟩),
    if_neg h8]

/-- What `mapNutrient` leaves in the field `DietaryFiberG`. -/
theorem mapNutrient_DietaryFiberG (nf : NutritionFacts) (c : Int) (a : F64) :
    (mapNutrient nf c a).DietaryFiberG = if c = 1079 then a else nf.DietaryFiberG := by
  by_cases h1 : c = 1008
  · subst h1; rfl
  by_cases h2 : c = 1003
  · subst h2; rfl
  by_cases h3 : c = 1004
  · subst h3; rfl
  by_cases h4 : c = 1258
  · subst h4; rfl
  by_cases h5 : c = 1257
  · subst h5; rfl
  by_cases h6 : c = 1253
  · subst h6; rfl
  by_cases h7 : c = 1093
  · subst h7; rfl
  by_cases h8 : c = 1005
  · subst h8; rfl
  by_cases h9 : c = 1079
  · subst h9; rfl
  by_cases h10 : c = 2000
  · subst h10; rfl
  by_cases h11 : c = 1114
  · subst h11; rfl
  by_cases h12 : c = 1087
  · subst h12; rfl
  by_cases h13 : c = 1089
  · subst h13; rfl
  by_cases h14 : c = 1092
  · subst h14; rfl
  rw [mapNutrient_of_not_mem nf c a (by
    simp only [nutrientCodes, List.mem_cons, List.mem_singleton, List.not_mem_nil,
      or_false, not_or]
    exact ⟨h1, h2, h3, h4, h5, h6, h7, h8, h9, h10, h11, h12, h13, h14⟩),
    if_neg h9]

/-- What `mapNutrient` leaves in the field `TotalSugarsG`. -/
theorem mapNutrient_TotalSugarsG (nf : NutritionFacts) (c : Int) (a : F64) :
    (mapNutrient nf c a).TotalSugarsG = if c = 2000 then a else nf.TotalSugarsG := by
  by_cases h1 : c = 1008
  · subst h1; rfl
  by_cases h2 : c = 1003
  · subst h2; rfl
  by_cases h3 : c = 1004
  · subst h3; rfl
  by_cases h4 : c = 1258
  · subst h4; rfl
  by_cases h5 : c = 1257
  · subst h5; rfl
  by_cases h6 : c = 1253
  · subst h6; rfl
  by_cases h7 : c = 1093
  · subst h7; rfl
  by_cases h8 : c = 1005
  · subst h8; rfl
  by_cases h9 : c = 1079
  · subst h9; rfl
  by_cases h10 : c = 2000
  · subst h10; rfl
  by_cases h11 : c = 1114
  · subst h11; rfl
  by_cases h12 : c = 1087
  · subst h12; rfl
  by_cases h13 : c = 1089
  · subst h13; rfl
  by_cases h14 : c = 1092
  · subst h14; rfl
  rw [mapNutrient_of_not_mem nf c a (by
    simp only [nutrientCodes, List.mem_cons, List.mem_singleton, List.not_mem_nil,
      or_false, not_or]
    exact ⟨h1, h2, h3, h4, h5, h6, h7, h8, h9, h10, h11, h12, h13, h14⟩),
    if_neg h10]

/-- What `mapNutrient` leaves in the field `VitaminDMcg`. -/
theorem mapNutrient_VitaminDMcg (nf : NutritionFacts) (c : Int) (a : F64) :
    (mapNutrient nf c a).VitaminDMcg = if c = 1114 then a else nf.VitaminDMcg := by
  by_cases h1 : c = 1008
  · subst h1; rfl
  by_cases h2 : c = 1003
  · subst h2; rfl
  by_cases h3 : c = 1004
  · subst h3; rfl
  by_cases h4 : c = 1258
  · subst h4; rfl
  by_cases h5 : c = 1257
  · subst h5; rfl
  by_cases h6 : c = 1253
  · subst h6; rfl
  by_cases h7 : c = 1093
  · subst h7; rfl
  by_cases h8 : c = 1005
  · subst h8; rfl
  by_cases h9 : c = 1079
  · subst h9; rfl
  by_cases h10 : c = 2000
  · subst h10; rfl
  by_cases h11 : c = 1114
  · subst h11; rfl
  by_cases h12 : c = 1087
  · subst h12; rfl
  by_cases h13 : c = 1089
  · subst h13; rfl
  by_cases h14 : c = 1092
  · subst h14; rfl
  rw [mapNutrient_of_not_mem nf c a (by
    simp only [nutrientCodes, List.mem_cons, List.mem_singleton, List.not_mem_nil,
      or_false, not_or]
    exact ⟨h1, h2, h3, h4, h5, h6, h7, h8, h9, h10, h11, h12, h13, h14⟩),
    if_neg h11]

/-- What `mapNutrient` leaves in the field `CalciumMG`. -/
theorem mapNutrient_CalciumMG (nf : NutritionFacts) (c : Int) (a : F64) :
    (mapNutrient nf c a).CalciumMG = if c = 1087 then a else nf.CalciumMG := by
  by_cases h1 : c = 1008
  · subst h1; rfl
  by_cases h2 : c = 1003
  · subst h2; rfl
  by_cases h3 : c = 1004
  · subst h3; rfl
  by_cases h4 : c = 1258
  · subst h4; rfl
  by_cases h5 : c = 1257
  · subst h5; rfl
  by_cases h6 : c = 1253
  · subst h6; rfl
  by_cases h7 : c = 1093
  · subst h7; rfl
  by_cases h8 : c = 1005
  · subst h8; rfl
  by_cases h9 : c = 1079
  · subst h9; rfl
  by_cases h10 : c = 2000
  · subst h10; rfl
  by_cases h11 : c = 1114
  · subst h11; rfl
  by_cases h12 : c = 1087
  · subst h12; rfl
  by_cases h13 : c = 1089
  · subst h13; rfl
  by_cases h14 : c = 1092
  · subst h14; rfl
  rw [mapNutrient_of_not_mem nf c a (by
    simp only [nutrientCodes, List.mem_cons, List.mem_singleton, List.not_mem_nil,
      or_false, not_or]
    exact ⟨h1, h2, h3, h4, h5, h6, h7, h8, h9, h10, h11, h12, h13, h14⟩),
    if_neg h12]

/-- What `mapNutrient` leaves in the field `IronMG`. -/
theorem mapNutrient_IronMG (nf : NutritionFacts) (c : Int) (a : F64) :
    (mapNutrient nf c a).IronMG = if c = 1089 then a else nf.IronMG := by
  by_cases h1 : c = 1008
  · subst h1; rfl
  by_cases h2 : c = 1003
  · subst h2; rfl
  by_cases h3 : c = 1004
  · subst h3; rfl
  by_cases h4 : c = 1258
  · subst h4; rfl
  by_cases h5 : c = 1257
  · subst h5; rfl
  by_cases h6 : c = 1253
  · subst h6; rfl
  by_cases h7 : c = 1093
  · subst h7; rfl
  by_cases h8 : c = 1005
  · subst h8; rfl
  by_cases h9 : c = 1079
  · subst h9; rfl
  by_cases h10 : c = 2000
  · subst h10; rfl
  by_cases h11 : c = 1114
  · subst h11; rfl
  by_cases h12 : c = 1087
  · subst h12; rfl
  by_cases h13 : c = 1089
  · subst h13; rfl
  by_cases h14 : c = 1092
  · subst h14; rfl
  rw [mapNutrient_of_not_mem nf c a (by
    simp only [nutrientCodes, List.mem_cons, List.mem_singleton, List.not_mem_nil,
      or_false, not_or]
    exact ⟨h1, h2, h3, h4, h5, h6, h7, h8, h9, h10, h11, h12, h13, h14⟩),
    if_neg h13]

/-- What `mapNutrient` leaves in the field `PotassiumMG`. -/
theorem mapNutrient_PotassiumMG (nf : NutritionFacts) (c : Int) (a : F64) :
    (mapNutrient nf c a).PotassiumMG = if c = 1092 then a else nf.PotassiumMG := by
  by_cases h1 : c = 1008
  · subst h1; rfl
  by_cases h2 : c = 1003
  · subst h2; rfl
  by_cases h3 : c = 1004
  · subst h3; rfl
  by_cases h4 : c = 1258
  · subst h4; rfl
  by_cases h5 : c = 1257
  · subst h5; rfl
  by_cases h6 : c = 1253
  · subst h6; rfl
  by_cases h7 : c = 1093
  · subst h7; rfl
  by_cases h8 : c = 1005
  · subst h8; rfl
  by_cases h9 : c = 1079
  · subst h9; rfl
  by_cases h10 : c = 2000
  · subst h10; rfl
  by_cases h11 : c = 1114
  · subst h11; rfl
  by_cases h12 : c = 1087
  · subst h12; rfl
  by_cases h13 : c = 1089
  · subst h13; rfl
  by_cases h14 : c = 1092
  · subst h14; rfl
  rw [mapNutrient_of_not_mem nf c a (by
    simp only [nutrientCodes, List.mem_cons, List.mem_singleton, List.not_mem_nil,
      or_false, not_or]
    exact ⟨h1, h2, h3, h4, h5, h6, h7, h8, h9, h10, h11, h12, h13, h14⟩),
    if_neg h14]

/-- Routing one amount: the field of a table code holds the amount when the code is the
routed one, and keeps its value otherwise. -/
theorem nutrientField_mapNutrient (nf : NutritionFacts) (c d : Int) (a : F64)
    (h : d ∈ nutrientCodes) :
    nutrientField (mapNutrient nf c a) d = if c = d then some a else nutrientField nf d := by
  simp only [nutrientCodes, List.mem_cons, List.mem_singleton, List.not_mem_nil, or_false] at h
  rcases h with h|h|h|h|h|h|h|h|h|h|h|h|h|h <;> subst h
  · show some (mapNutrient nf c a).Calories = if c = 1008 then some a else some nf.Calories
    rw [mapNutrient_Calories]; split <;> rfl
  · show some (mapNutrient nf c a).ProteinG = if c = 1003 then some a else some nf.ProteinG
    rw [mapNutrient_ProteinG]; split <;> rfl
  · show some (mapNutrient nf c a).TotalFatG = if c = 1004 then some a else some nf.TotalFatG
    rw [mapNutrient_TotalFatG]; split <;> rfl
  · show some (mapNutrient nf c a).SaturatedFatG = if c = 1258 then some a else some nf.SaturatedFatG
    rw [mapNutrient_SaturatedFatG]; split <;> rfl
  · exact mapNutrient_TransFatG nf c a
  · show some (mapNutrient nf c a).CholesterolMG = if c = 1253 then some a else some nf.CholesterolMG
    rw [mapNutrient_CholesterolMG]; split <;> rfl
  · show some (mapNutrient nf c a).SodiumMG = if c = 1093 then some a else some nf.SodiumMG
    rw [mapNutrient_SodiumMG]; split <;> rfl
  · show some (mapNutrient nf c a).TotalCarbohydrateG = if c = 1005 then some a else some nf.TotalCarbohydrateG
    rw [mapNutrient_TotalCarbohydrateG]; split <;> rfl
  · show some (mapNutrient nf c a).DietaryFiberG = if c = 1079 then some a else some nf.DietaryFiberG
    rw [mapNutrient_DietaryFiberG]; split <;> rfl
  · show some (mapNutrient nf c a).TotalSugarsG = if c = 2000 then some a else some nf.TotalSugarsG
    rw [mapNutrient_TotalSugarsG]; split <;> rfl
  · show some (mapNutrient nf c a).VitaminDMcg = if c = 1114 then some a else some nf.VitaminDMcg
    rw [mapNutrient_VitaminDMcg]; split <;> rfl
  · show some (mapNutrient nf c a).CalciumMG = if c = 1087 then some a else some nf.CalciumMG
    rw [mapNutrient_CalciumMG]; split <;> rfl
  · show some (mapNutrient nf c a).IronMG = if c = 1089 then some a else some nf.IronMG
    rw [mapNutrient_IronMG]; split <;> rfl
  · show some (mapNutrient nf c a).PotassiumMG = if c = 1092 then some a else some nf.PotassiumMG
    rw [mapNutrient_PotassiumMG]; split <;> rfl

/-! ## The nutrient loops: the last pair of a code decides its field -/

/-- A field of a table code is not touched by pairs of other codes. -/
theorem nutrientField_routeAll_of_not_mem (norm : F64 → F64) (c : Int)
    (hc : c ∈ nutrientCodes) :
    ∀ (ns : List FoodNutrient) (nf : NutritionFacts),
      (∀ n ∈ ns, n.Nutrient.ID ≠ c) →
      nutrientField (routeAll norm nf ns) c = nutrientField nf c
  | [], _, _ => rfl
  | n :: rest, nf, h => by
    have hn : n.Nutrient.ID ≠ c := h n (List.mem_cons_self _ _)
    have hr : ∀ m ∈ rest, m.Nutrient.ID ≠ c := fun m hm => h m (List.mem_cons_of_mem _ hm)
    rw [routeAll, nutrientField_routeAll_of_not_mem norm c hc rest _ hr,
      nutrientField_mapNutrient _ _ _ _ hc, if_neg hn]

/-- Routing a concatenation routes the first list, then the second. -/
theorem routeAll_append (norm : F64 → F64) :
    ∀ (xs ys : List FoodNutrient) (nf : NutritionFacts),
      routeAll norm nf (xs ++ ys) = routeAll norm (routeAll norm nf xs) ys
  | [], _, _ => rfl
  | x :: xs, ys, nf => by
    simp only [List.cons_append, routeAll]
    exact routeAll_append norm xs ys _

/-- Last write wins: the field of a table code holds the normalised amount of the last
pair with that code. -/
theorem nutrientField_routeAll_last (norm : F64 → F64) (nf : NutritionFacts)
    (pre post : List FoodNutrient) (n : FoodNutrient)
    (hc : n.Nutrient.ID ∈ nutrientCodes)
    (hlast : ∀ m ∈ post, m.Nutrient.ID ≠ n.Nutrient.ID) :
    nutrientField (routeAll norm nf (pre ++ n :: post)) n.Nutrient.ID
      = some (norm n.Amount) := by
  rw [routeAll_append, routeAll, nutrientField_routeAll_of_not_mem norm _ hc post _ hlast,
    nutrientField_mapNutrient _ _ _ _ hc, if_pos rfl]

/-- Pairs whose codes are all outside the table leave the block unchanged. -/
theorem routeAll_of_not_mem (norm : F64 → F64) :
    ∀ (ns : List FoodNutrient) (nf : NutritionFacts),
      (∀ n ∈ ns, n.Nutrient.ID ∉ nutrientCodes) → routeAll norm nf ns = nf
  | [], _, _ => rfl
  | n :: rest, nf, h => by
    rw [routeAll, mapNutrient_of_not_mem nf _ _ (h n (List.mem_cons_self _ _))]
    exact routeAll_of_not_mem norm rest nf (fun m hm => h m (List.mem_cons_of_mem _ hm))

/-- The trans-fat field is present after the loop exactly when it was present before or
some pair has code 1257. -/
theorem transFat_routeAll_isSome (norm : F64 → F64) :
    ∀ (ns : List FoodNutrient) (nf : NutritionFacts),
      (routeAll norm nf ns).TransFatG.isSome = true ↔
        (nf.TransFatG.isSome = true ∨ ∃ n ∈ ns, n.Nutrient.ID = 1257)
  | [], nf => by simp [routeAll]
  | n :: rest, nf => by
    rw [routeAll, transFat_routeAll_isSome norm rest, mapNutrient_TransFatG]
    by_cases h : n.Nutrient.ID = 1257
    · rw [if_pos h]
      constructor
      · intro _; exact Or.inr ⟨n, List.mem_cons_self _ _, h⟩
      · intro _; exact Or.inl rfl
    · rw [if_neg h]
      constructor
      · rintro (h1 | ⟨m, hm, h2⟩)
        · exact Or.inl h1
        · exact Or.inr ⟨m, List.mem_cons_of_mem _ hm, h2⟩
      · rintro (h1 | ⟨m, hm, h2⟩)
        · exact Or.inl h1
        · rcases List.mem_cons.mp hm with rfl | hm2
          · exact absurd h2 h
          · exact Or.inr ⟨m, hm2, h2⟩

/-- The nutrient loop of the survey mapper routes every amount as it is. -/
theorem surveyNutrientLoop_eq : ∀ (ns : List FoodNutrient) (nf : NutritionFacts),
    surveyNutrientLoop nf ns = routeAll (fun a => a) nf ns
  | [], _ => rfl
  | n :: rest, nf => by
    rw [surveyNutrientLoop, routeAll]
    exact surveyNutrientLoop_eq rest _

/-- The nutrient loop of the branded mapper routes every amount times the factor. -/
theorem brandedNutrientLoop_eq (cf : F64) :
    ∀ (ns : List FoodNutrient) (nf : NutritionFacts),
      brandedNutrientLoop cf nf ns = routeAll (fun a => F64.mul a cf) nf ns
  | [], _ => rfl
  | n :: rest, nf => by
    rw [brandedNutrientLoop, routeAll]
    exact brandedNutrientLoop_eq cf rest _

/-- The portion loop writes the two serving size fields and nothing else. -/
theorem portionLoop_frame (nf : NutritionFacts) :
    ∀ ps : List FoodPortion, ∃ g h,
      portionLoop nf ps = { nf with ServingSizeG := g, ServingSizeHousehold := h }
  | [] => ⟨nf.ServingSizeG, nf.ServingSizeHousehold, rfl⟩
  | p :: rest => by
    unfold portionLoop
    split
    · exact ⟨_, _, rfl⟩
    · exact portionLoop_frame nf rest

/-- The Nutrition Facts block of a survey output record. -/
theorem MapSurveyFood_NutritionFacts (usda : SurveyFood) (id : Nat) (now : Time) :
    (MapSurveyFood usda id now).NutritionFacts = some (mapSurveyNutritionFacts usda) := rfl

/-- The Nutrition Facts block of a branded output record. -/
theorem MapBrandedFood_NutritionFacts (usda : BrandedFood) (id : Nat) (now : Time) :
    (MapBrandedFood usda id now).NutritionFacts = some (mapBrandedNutritionFacts usda) := rfl

/-- The identifier of a survey output record is the one passed in. -/
theorem MapSurveyFood_ID (usda : SurveyFood) (id : Nat) (now : Time) :
    (MapSurveyFood usda id now).ID = id := rfl

/-- The identifier of a branded output record is the one passed in. -/
theorem MapBrandedFood_ID (usda : BrandedFood) (id : Nat) (now : Time) :
    (MapBrandedFood usda id now).ID = id := by
  unfold MapBrandedFood
  split_ifs <;> rfl

/-- A zero amount times a finite factor is a zero. -/
theorem F64.isZero_mul_of_isFinite (a b : F64) (ha : F64.isZero a = true)
    (hb : F64.isFinite b = true) : F64.isZero (F64.mul a b) = true := by
  cases a with
  | nan => simp [F64.isZero] at ha
  | inf s => simp [F64.isZero] at ha
  | fin s m e =>
    cases b with
    | nan => simp [F64.isFinite] at hb
    | inf t => simp [F64.isFinite] at hb
    | fin t k f =>
      have hm : m = 0 := by simpa [F64.isZero] using ha
      subst hm
      simp [F64.mul, F64.round, F64.isZero]

/-! ## Claims about the record mapper -/

set_option maxRecDepth 8192 in
/-- C1. For a branded record with serving size `s > 0`, the field selected by a table
code holds `amount * (100 / s)` (float64 product and quotient) for the last pair with
that code; with serving size 50 and raw amount 10 the stored amount is 20. -/
theorem branded_scale_correct (usda : BrandedFood) (id : Nat) (now : Time)
    (pre post : List FoodNutrient) (n : FoodNutrient)
    (_hs : F64.gtZero usda.ServingSize = true)
    (hlist : usda.FoodNutrients = pre ++ n :: post)
    (hc : n.Nutrient.ID ∈ nutrientCodes)
    (hlast : ∀ m ∈ post, m.Nutrient.ID ≠ n.Nutrient.ID) :
    (MapBrandedFood usda id now).field n.Nutrient.ID
        = some (F64.mul n.Amount (F64.div F64.hundred usda.ServingSize)) ∧
      (usda.ServingSize = F64.ofNat 50 → n.Amount = F64.ofNat 10 →
        (MapBrandedFood usda id now).field n.Nutrient.ID = some (F64.ofNat 20)) := by
  have key : (MapBrandedFood usda id now).field n.Nutrient.ID
      = some (F64.mul n.Amount (F64.div F64.hundred usda.ServingSize)) := by
    unfold Food.field
    rw [MapBrandedFood_NutritionFacts]
    show nutrientField (mapBrandedNutritionFacts usda) n.Nutrient.ID = _
    unfold mapBrandedNutritionFacts
    simp only []
    rw [brandedNutrientLoop_eq, hlist]
    exact nutrientField_routeAll_last
      (fun a => F64.mul a (F64.div F64.hundred usda.ServingSize)) _ pre post n hc hlast
  refine ⟨key, fun h50 h10 => ?_⟩
  rw [key, h50, h10]
  decide

set_option maxRecDepth 8192 in
/-- C1, at serving size 50 and raw amount 10 for the calories code 1008. -/
theorem branded_scale_correct_witness :
    F64.gtZero (F64.ofNat 50) = true ∧
      (MapBrandedFood (sampleBranded (F64.ofNat 50) [sampleNutrient 1008 (F64.ofNat 10)])
        1 sampleTime).field 1008 = some (F64.ofNat 20) :=
  ⟨by decide,
    (branded_scale_correct
      (sampleBranded (F64.ofNat 50) [sampleNutrient 1008 (F64.ofNat 10)]) 1 sampleTime
      [] [] (sampleNutrient 1008 (F64.ofNat 10)) (by decide) rfl (by decide)
      (by simp)).2 rfl rfl⟩

/-- C2 (as amended). The output `servingSizeMultiplicand` of a branded record is
`servingSize / 100.0` when the serving size is greater than zero, and `1.0` otherwise
(zero, missing, negative or NaN). -/
theorem branded_multiplicand (usda : BrandedFood) (id : Nat) (now : Time) :
    (F64.gtZero usda.ServingSize = true →
      (MapBrandedFood usda id now).ServingSizeMultiplicand
        = F64.div usda.ServingSize F64.hundred) ∧
    (F64.gtZero usda.ServingSize = false →
      (MapBrandedFood usda id now).ServingSizeMultiplicand = F64.one) := by
  constructor
  · intro h
    unfold MapBrandedFood
    simp only [h, if_true]
    split_ifs <;> rfl
  · intro h
    unfold MapBrandedFood
    simp only [h, Bool.false_eq_true, if_false]
    split_ifs <;> rfl

set_option maxRecDepth 8192 in
/-- C2 (as amended), at serving size 50 (the multiplicand is 0.5) and at serving size 0
(the multiplicand is 1.0). -/
theorem branded_multiplicand_witness :
    (MapBrandedFood (sampleBranded (F64.ofNat 50) []) 1 sampleTime).ServingSizeMultiplicand
        = F64.fin false (2 ^ 52) (-53) ∧
      (MapBrandedFood (sampleBranded F64.zero []) 1 sampleTime).ServingSizeMultiplicand
        = F64.one :=
  ⟨((branded_multiplicand (sampleBranded (F64.ofNat 50) []) 1 sampleTime).1
      (by decide)).trans (by decide),
    (branded_multiplicand (sampleBranded F64.zero []) 1 sampleTime).2 (by decide)⟩

set_option maxRecDepth 8192 in
/-- C2 fails as stated: for a branded record whose serving size is zero the output
multiplicand is `1.0`; it is neither `servingSize / 100.0` (which is `0`) nor zero. -/
theorem branded_multiplicand_zero_counterexample :
    (MapBrandedFood (sampleBranded F64.zero []) 1 sampleTime).ServingSizeMultiplicand
        = F64.one ∧
      F64.div (sampleBranded F64.zero []).ServingSize F64.hundred = F64.zero ∧
      (MapBrandedFood (sampleBranded F64.zero []) 1 sampleTime).ServingSizeMultiplicand
        ≠ F64.div (sampleBranded F64.zero []).ServingSize F64.hundred ∧
      F64.isZero
        (MapBrandedFood (sampleBranded F64.zero []) 1 sampleTime).ServingSizeMultiplicand
        = false := by
  decide

/-- C3. For a survey record the field selected by a table code holds exactly the source
amount of the last pair with that code, whatever the portions of the record are. -/
theorem survey_normalization_identity (usda : SurveyFood) (id : Nat) (now : Time)
    (pre post : List FoodNutrient) (n : FoodNutrient)
    (hlist : usda.FoodNutrients = pre ++ n :: post)
    (hc : n.Nutrient.ID ∈ nutrientCodes)
    (hlast : ∀ m ∈ post, m.Nutrient.ID ≠ n.Nutrient.ID) :
    (MapSurveyFood usda id now).field n.Nutrient.ID = some n.Amount := by
  unfold Food.field
  rw [MapSurveyFood_NutritionFacts]
  show nutrientField (mapSurveyNutritionFacts usda) n.Nutrient.ID = _
  unfold mapSurveyNutritionFacts
  simp only []
  rw [surveyNutrientLoop_eq, hlist]
  exact nutrientField_routeAll_last (fun a => a) _ pre post n hc hlast

set_option maxRecDepth 8192 in
/-- C3, at a record with a 244 g portion: the protein pair `(1003, 8)` that follows an
earlier protein pair and an unrelated pair is stored as `8`. -/
theorem survey_normalization_identity_witness :
    (MapSurveyFood
      (sampleSurvey
        [sampleNutrient 1003 (F64.ofNat 3), sampleNutrient 1008 (F64.ofNat 61),
          sampleNutrient 1003 (F64.ofNat 8), sampleNutrient 1004 (F64.ofNat 3)]
        [⟨7, F64.ofNat 244, "1 cup", 1⟩])
      1 sampleTime).field 1003 = some (F64.ofNat 8) :=
  survey_normalization_identity
    (sampleSurvey
      [sampleNutrient 1003 (F64.ofNat 3), sampleNutrient 1008 (F64.ofNat 61),
        sampleNutrient 1003 (F64.ofNat 8), sampleNutrient 1004 (F64.ofNat 3)]
      [⟨7, F64.ofNat 244, "1 cup", 1⟩])
    1 sampleTime
    [sampleNutrient 1003 (F64.ofNat 3), sampleNutrient 1008 (F64.ofNat 61)]
    [sampleNutrient 1004 (F64.ofNat 3)] (sampleNutrient 1003 (F64.ofNat 8))
    rfl (by decide) (by decide)


/-- The trans-fat field of a survey output record, after the nutrient loop. -/
theorem MapSurveyFood_transFat (usda : SurveyFood) (id : Nat) (now : Time) :
    (MapSurveyFood usda id now).transFat
      = nutrientField (mapSurveyNutritionFacts usda) 1257 := rfl

/-- The trans-fat field of a branded output record, after the nutrient loop. -/
theorem MapBrandedFood_transFat (usda : BrandedFood) (id : Nat) (now : Time) :
    (MapBrandedFood usda id now).transFat
      = nutrientField (mapBrandedNutritionFacts usda) 1257 := rfl

/-- The survey mapper starts its nutrient loop with a nil trans fat. -/
theorem mapSurveyNutritionFacts_transFat_isSome (usda : SurveyFood) :
    (mapSurveyNutritionFacts usda).TransFatG.isSome = true ↔
      ∃ n ∈ usda.FoodNutrients, n.Nutrient.ID = 1257 := by
  unfold mapSurveyNutritionFacts
  simp only []
  rw [surveyNutrientLoop_eq, transFat_routeAll_isSome]
  obtain ⟨g, h, e⟩ := portionLoop_frame
    ({ FoodName := usda.Description, Ingredients := [] } : NutritionFacts) usda.FoodPortions
  rw [e]
  simp

/-- The branded mapper starts its nutrient loop with a nil trans fat. -/
theorem mapBrandedNutritionFacts_transFat_isSome (usda : BrandedFood) :
    (mapBrandedNutritionFacts usda).TransFatG.isSome = true ↔
      ∃ n ∈ usda.FoodNutrients, n.Nutrient.ID = 1257 := by
  unfold mapBrandedNutritionFacts
  simp only []
  rw [brandedNutrientLoop_eq, transFat_routeAll_isSome]
  split_ifs <;> simp

/-- C9 (as amended). The trans-fat field of an output record (survey, or branded with a
positive serving size) is present exactly when some pair of the record has code 1257,
and nil when none has. A survey record stores the amount of its last code-1257 pair as
it is, so amount 0 gives a present 0. A branded record whose last code-1257 pair has
amount 0 gives a present 0 when the factor `100 / servingSize` is finite. -/
theorem transFat_nullability :
    (∀ (usda : SurveyFood) (id : Nat) (now : Time),
      ((MapSurveyFood usda id now).transFat.isSome = true ↔
        ∃ n ∈ usda.FoodNutrients, n.Nutrient.ID = 1257) ∧
      ((∀ n ∈ usda.FoodNutrients, n.Nutrient.ID ≠ 1257) →
        (MapSurveyFood usda id now).transFat = none) ∧
      (∀ (pre post : List FoodNutrient) (n : FoodNutrient),
        usda.FoodNutrients = pre ++ n :: post → n.Nutrient.ID = 1257 →
        (∀ m ∈ post, m.Nutrient.ID ≠ 1257) →
        (MapSurveyFood usda id now).transFat = some n.Amount)) ∧
    (∀ (usda : BrandedFood) (id : Nat) (now : Time),
      F64.gtZero usda.ServingSize = true →
      ((MapBrandedFood usda id now).transFat.isSome = true ↔
        ∃ n ∈ usda.FoodNutrients, n.Nutrient.ID = 1257) ∧
      ((∀ n ∈ usda.FoodNutrients, n.Nutrient.ID ≠ 1257) →
        (MapBrandedFood usda id now).transFat = none) ∧
      (∀ (pre post : List FoodNutrient) (n : FoodNutrient),
        usda.FoodNutrients = pre ++ n :: post → n.Nutrient.ID = 1257 →
        (∀ m ∈ post, m.Nutrient.ID ≠ 1257) →
        F64.isZero n.Amount = true →
        F64.isFinite (F64.div F64.hundred usda.ServingSize) = true →
        ∃ z, (MapBrandedFood usda id now).transFat = some z ∧ F64.isZero z = true)) := by
  have hmem : (1257 : Int) ∈ nutrientCodes := by decide
  refine ⟨fun usda id now => ⟨?_, ?_, ?_⟩, fun usda id now _ => ⟨?_, ?_, ?_⟩⟩
  · rw [MapSurveyFood_transFat]
    exact mapSurveyNutritionFacts_transFat_isSome usda
  · intro hno
    have h := (mapSurveyNutritionFacts_transFat_isSome usda).not.mpr
      (fun ⟨n, hn, h⟩ => hno n hn h)
    rw [MapSurveyFood_transFat]
    show (mapSurveyNutritionFacts usda).TransFatG = none
    simpa using h
  · intro pre post n hlist hn hlast
    rw [MapSurveyFood_transFat]
    unfold mapSurveyNutritionFacts
    simp only []
    rw [surveyNutrientLoop_eq, hlist, ← hn]
    exact nutrientField_routeAll_last (fun a => a) _ pre post n (hn ▸ hmem)
      (fun m hm => hn ▸ hlast m hm)
  · rw [MapBrandedFood_transFat]
    exact mapBrandedNutritionFacts_transFat_isSome usda
  · intro hno
    have h := (mapBrandedNutritionFacts_transFat_isSome usda).not.mpr
      (fun ⟨n, hn, h⟩ => hno n hn h)
    rw [MapBrandedFood_transFat]
    show (mapBrandedNutritionFacts usda).TransFatG = none
    simpa using h
  · intro pre post n hlist hn hlast hzero hfin
    refine ⟨F64.mul n.Amount (F64.div F64.hundred usda.ServingSize), ?_,
      F64.isZero_mul_of_isFinite _ _ hzero hfin⟩
    rw [MapBrandedFood_transFat]
    unfold mapBrandedNutritionFacts
    simp only []
    rw [brandedNutrientLoop_eq, hlist, ← hn]
    exact nutrientField_routeAll_last
      (fun a => F64.mul a (F64.div F64.hundred usda.ServingSize)) _ pre post n (hn ▸ hmem)
      (fun m hm => hn ▸ hlast m hm)

set_option maxRecDepth 8192 in
/-- C9 (as amended), at a survey record without code 1257 (nil), at a survey record with
the pair `(1257, 0)` (present 0), and at a branded record with serving size 50 and the
pair `(1257, 0)` (present 0). -/
theorem transFat_nullability_witness :
    (MapSurveyFood (sampleSurvey [sampleNutrient 1008 (F64.ofNat 61)] []) 1
        sampleTime).transFat = none ∧
      (MapSurveyFood (sampleSurvey [sampleNutrient 1257 F64.zero] []) 1
        sampleTime).transFat = some F64.zero ∧
      ∃ z, (MapBrandedFood (sampleBranded (F64.ofNat 50) [sampleNutrient 1257 F64.zero]) 1
        sampleTime).transFat = some z ∧ F64.isZero z = true :=
  ⟨(transFat_nullability.1 (sampleSurvey [sampleNutrient 1008 (F64.ofNat 61)] []) 1
      sampleTime).2.1 (by decide),
    (transFat_nullability.1 (sampleSurvey [sampleNutrient 1257 F64.zero] []) 1
      sampleTime).2.2 [] [] (sampleNutrient 1257 F64.zero) rfl rfl (by simp),
    (transFat_nullability.2 (sampleBranded (F64.ofNat 50) [sampleNutrient 1257 F64.zero]) 1
      sampleTime (by decide)).2.2 [] [] (sampleNutrient 1257 F64.zero) rfl rfl (by simp)
      (by decide) (by decide)⟩

set_option maxRecDepth 8192 in
/-- C9 fails as stated: a branded record with the positive serving size `2^-1074` and
the single pair `(1257, 0)` has a present trans-fat field that holds NaN, not 0, because
`100 / servingSize` overflows to `+Inf` and `0 * +Inf` is NaN. -/
theorem transFat_zero_overflow_counterexample :
    F64.gtZero F64.tiny = true ∧
      F64.div F64.hundred F64.tiny = F64.inf false ∧
      (MapBrandedFood (sampleBranded F64.tiny [sampleNutrient 1257 F64.zero]) 1
        sampleTime).transFat = some F64.nan ∧
      F64.isZero F64.nan = false := by
  decide

/-- C10. For a code outside the table `mapNutrient` leaves the block unchanged for every
amount; so a record (survey or branded, with any serving size) whose pairs all carry
codes outside the table, such as a single pair with code 9999, is mapped to an output
record whose nutrient fields are all 0 and whose trans fat is nil. -/
theorem unknown_codes_dropped :
    (∀ (nf : NutritionFacts) (c : Int) (a : F64),
      c ∉ nutrientCodes → mapNutrient nf c a = nf) ∧
    (∀ (usda : SurveyFood) (id : Nat) (now : Time),
      (∀ n ∈ usda.FoodNutrients, n.Nutrient.ID ∉ nutrientCodes) →
      ∃ nf, (MapSurveyFood usda id now).NutritionFacts = some nf ∧ nutrientsDefault nf) ∧
    (∀ (usda : BrandedFood) (id : Nat) (now : Time),
      (∀ n ∈ usda.FoodNutrients, n.Nutrient.ID ∉ nutrientCodes) →
      ∃ nf, (MapBrandedFood usda id now).NutritionFacts = some nf ∧ nutrientsDefault nf) := by
  refine ⟨mapNutrient_of_not_mem, fun usda id now h => ?_, fun usda id now h => ?_⟩
  · refine ⟨_, MapSurveyFood_NutritionFacts usda id now, ?_⟩
    unfold mapSurveyNutritionFacts
    simp only []
    rw [surveyNutrientLoop_eq, routeAll_of_not_mem _ _ _ h]
    obtain ⟨g, k, e⟩ := portionLoop_frame
      ({ FoodName := usda.Description, Ingredients := [] } : NutritionFacts)
      usda.FoodPortions
    rw [e]
    exact ⟨rfl, rfl, rfl, rfl, rfl, rfl, rfl, rfl, rfl, rfl, rfl, rfl, rfl, rfl⟩
  · refine ⟨_, MapBrandedFood_NutritionFacts usda id now, ?_⟩
    unfold mapBrandedNutritionFacts
    simp only []
    rw [brandedNutrientLoop_eq, routeAll_of_not_mem _ _ _ h]
    split_ifs <;> exact ⟨rfl, rfl, rfl, rfl, rfl, rfl, rfl, rfl, rfl, rfl, rfl, rfl, rfl, rfl⟩

/-- C10, at the code 9999: `mapNutrient` returns the block it was given, and a survey
record and a branded record with the single pair `(9999, 7)` have default nutrients. -/
theorem unknown_codes_dropped_witness :
    mapNutrient {} 9999 (F64.ofNat 7) = {} ∧
      (∃ nf, (MapSurveyFood (sampleSurvey [sampleNutrient 9999 (F64.ofNat 7)] []) 1
        sampleTime).NutritionFacts = some nf ∧ nutrientsDefault nf) ∧
      (∃ nf, (MapBrandedFood (sampleBranded F64.zero [sampleNutrient 9999 (F64.ofNat 7)]) 1
        sampleTime).NutritionFacts = some nf ∧ nutrientsDefault nf) :=
  ⟨unknown_codes_dropped.1 {} 9999 (F64.ofNat 7) (by decide),
    unknown_codes_dropped.2.1 (sampleSurvey [sampleNutrient 9999 (F64.ofNat 7)] []) 1
      sampleTime (by decide),
    unknown_codes_dropped.2.2 (sampleBranded F64.zero [sampleNutrient 9999 (F64.ofNat 7)]) 1
      sampleTime (by decide)⟩

/-! ## The import pipeline: helper lemmas -/

/-- The qualifying records of a concatenation. -/
theorem qualifying_append {α : Type} (nutrients : α → List FoodNutrient) :
    ∀ xs ys : List (Option α),
      qualifying nutrients (xs ++ ys) = qualifying nutrients xs ++ qualifying nutrients ys
  | [], _ => rfl
  | none :: xs, ys => by
    simp only [List.cons_append, qualifying, List.append_eq]
    exact qualifying_append nutrients xs ys
  | some r :: xs, ys => by
    simp only [List.cons_append, qualifying, List.append_eq]
    split
    · exact qualifying_append nutrients xs ys
    · rw [qualifying_append nutrients xs ys, List.cons_append]

/-- The empty-nutrient count of a concatenation. -/
theorem countEmpty_append {α : Type} (nutrients : α → List FoodNutrient) :
    ∀ xs ys : List (Option α),
      countEmpty nutrients (xs ++ ys) = countEmpty nutrients xs + countEmpty nutrients ys
  | [], _ => by simp [countEmpty]
  | none :: xs, ys => by
    simp only [List.cons_append, countEmpty, List.append_eq]
    exact countEmpty_append nutrients xs ys
  | some r :: xs, ys => by
    simp only [List.cons_append, countEmpty, List.append_eq]
    split
    · rw [countEmpty_append nutrients xs ys]; omega
    · exact countEmpty_append nutrients xs ys

/-- Every document is undecodable, has an empty nutrient list, or qualifies. -/
theorem length_eq_counts {α : Type} (nutrients : α → List FoodNutrient) :
    ∀ xs : List (Option α),
      xs.length
        = countUndecodable xs + countEmpty nutrients xs + (qualifying nutrients xs).length
  | [] => rfl
  | none :: xs => by
    simp only [List.length_cons, countUndecodable, countEmpty, qualifying]
    rw [length_eq_counts nutrients xs]; omega
  | some r :: xs => by
    simp only [List.length_cons, countUndecodable, countEmpty, qualifying]
    split
    · rw [length_eq_counts nutrients xs]; omega
    · rw [length_eq_counts nutrients xs, List.length_cons]; omega

/-- Mapping a concatenation continues the identifiers. -/
theorem mapFrom_append {α : Type} (mapFood : α → Nat → Time → Food) (clock : Nat → Time) :
    ∀ (xs ys : List α) (id : Nat),
      mapFrom mapFood clock id (xs ++ ys)
        = mapFrom mapFood clock id xs ++ mapFrom mapFood clock (id + xs.length) ys
  | [], _, _ => by simp [mapFrom]
  | x :: xs, ys, id => by
    simp only [List.cons_append, mapFrom, List.length_cons, List.append_eq]
    rw [mapFrom_append mapFood clock xs ys (id + 1)]
    congr 3
    omega

/-- Mapping keeps the number of records. -/
theorem mapFrom_length {α : Type} (mapFood : α → Nat → Time → Food) (clock : Nat → Time) :
    ∀ (xs : List α) (id : Nat), (mapFrom mapFood clock id xs).length = xs.length
  | [], _ => rfl
  | x :: xs, id => by
    simp only [mapFrom, List.length_cons]
    rw [mapFrom_length mapFood clock xs (id + 1)]

/-- A mapper that stores the identifier it is given yields consecutive identifiers. -/
theorem mapFrom_ids {α : Type} (mapFood : α → Nat → Time → Food) (clock : Nat → Time)
    (hid : ∀ r id now, (mapFood r id now).ID = id) :
    ∀ (xs : List α) (id : Nat),
      (mapFrom mapFood clock id xs).map Food.ID = List.range' id xs.length
  | [], _ => rfl
  | x :: xs, id => by
    simp only [mapFrom, List.map_cons, List.length_cons, List.range'_succ]
    rw [mapFrom_ids mapFood clock hid xs (id + 1), hid]

/-- Full batches only: their sizes and their total. -/
theorem full_batches {calls : List (List Food)} (h : ∀ b ∈ calls, b.length = batchSize) :
    calls.map List.length = List.replicate calls.length batchSize ∧
      calls.flatten.length = batchSize * calls.length := by
  induction calls with
  | nil => exact ⟨rfl, rfl⟩
  | cons c cs ih =>
    obtain ⟨h1, h2⟩ := ih (fun b hb => h b (List.mem_cons_of_mem _ hb))
    have hc : c.length = batchSize := h c (List.mem_cons_self _ _)
    refine ⟨?_, ?_⟩
    · simp only [List.map_cons, List.length_cons, List.replicate_succ, h1, hc]
    · simp only [List.flatten_cons, List.length_append, List.length_cons, h2, hc]
      rw [Nat.mul_succ]; omega

/-- The sizes of full batches alone agree with `batchSizes`. -/
theorem sizes_full {calls : List (List Food)} (h : ∀ b ∈ calls, b.length = batchSize) :
    calls.map List.length = batchSizes calls.flatten.length := by
  obtain ⟨h1, h2⟩ := full_batches h
  rw [h1, h2]
  unfold batchSizes batchSize
  have e1 : 1000 * calls.length / 1000 = calls.length := by omega
  have e2 : 1000 * calls.length % 1000 = 0 := by omega
  rw [e1, e2]
  simp

/-- The sizes of full batches followed by a partial one agree with `batchSizes`. -/
theorem sizes_with_remainder {calls : List (List Food)} {batch : List Food}
    (h : ∀ b ∈ calls, b.length = batchSize) (h0 : 0 < batch.length)
    (h1 : batch.length < batchSize) :
    (calls ++ [batch]).map List.length = batchSizes (calls ++ [batch]).flatten.length := by
  obtain ⟨e1, e2⟩ := full_batches h
  simp only [List.map_append, List.map_cons, List.map_nil, List.flatten_append,
    List.flatten_cons, List.flatten_nil, List.append_nil, List.length_append, e1, e2]
  unfold batchSizes
  unfold batchSize at h1 ⊢
  have e3 : (1000 * calls.length + batch.length) / 1000 = calls.length := by omega
  have e4 : (1000 * calls.length + batch.length) % 1000 = batch.length := by omega
  rw [e3, e4, if_neg (by omega)]

/-- The invariant holds before the first document. -/
theorem LoopInv.init {α : Type} (nutrients : α → List FoodNutrient)
    (mapFood : α → Nat → Time → Food) (foodColl : Sink) (clock : Nat → Time) :
    LoopInv nutrients mapFood foodColl clock [] LoopState.init where
  pulled := rfl
  skipped := rfl
  nextID := rfl
  joined := rfl
  full := fun _ hb => by simp [LoopState.init] at hb
  small := by decide
  imported := rfl
  written := fun k b h => by simp [LoopState.init] at h

/-- Successful bulk writes so far, and one more. -/
theorem written_concat {foodColl : Sink} {calls : List (List Food)} {batch : List Food}
    (h : ∀ k b, calls[k]? = some b → foodColl k b = none)
    (hb : foodColl calls.length batch = none) :
    ∀ k b, (calls ++ [batch])[k]? = some b → foodColl k b = none := by
  intro k b hk
  by_cases hlt : k < calls.length
  · rw [List.getElem?_append_left hlt] at hk
    exact h k b hk
  · have hle : calls.length ≤ k := Nat.le_of_not_lt hlt
    rw [List.getElem?_append_right hle] at hk
    by_cases he : k - calls.length = 0
    · have hk2 : k = calls.length := by omega
      rw [he] at hk
      simp only [List.getElem?_cons_zero, Option.some.injEq] at hk
      rw [hk2, ← hk]
      exact hb
    · obtain ⟨j, hj⟩ := Nat.exists_eq_succ_of_ne_zero he
      rw [hj] at hk
      simp at hk

/-- The final insert establishes the run specification. -/
theorem drain_spec {α : Type} (nutrients : α → List FoodNutrient)
    (mapFood : α → Nat → Time → Food) (foodColl : Sink) (clock : Nat → Time)
    (pre : List (Option α)) (st : LoopState)
    (inv : LoopInv nutrients mapFood foodColl clock pre st) :
    RunSpec nutrients mapFood foodColl clock pre (drain foodColl st) := by
  have htake : List.take st.pulled pre = pre := by rw [inv.pulled, List.take_length]
  unfold drain
  by_cases hb : st.batch.length > 0
  · rw [if_pos hb]
    cases hsink : foodColl st.calls.length st.batch with
    | none =>
      refine ⟨?_, ?_, ?_, ?_, ?_, ?_⟩
      · exact Nat.le_of_eq inv.pulled
      · show st.skipped = _
        rw [htake]; exact inv.skipped
      · show (st.calls ++ [st.batch]).flatten = _
        rw [htake, ← inv.joined]; simp
      · exact sizes_with_remainder inv.full hb inv.small
      · intro _
        refine ⟨inv.pulled, ?_, written_concat inv.written hsink⟩
        show st.imported + st.batch.length = (st.calls ++ [st.batch]).flatten.length
        rw [inv.imported]; simp
      · intro h; exact absurd rfl h
    | some e =>
      refine ⟨?_, ?_, ?_, ?_, ?_, ?_⟩
      · exact Nat.le_of_eq inv.pulled
      · show st.skipped = _
        rw [htake]; exact inv.skipped
      · show (st.calls ++ [st.batch]).flatten = _
        rw [htake, ← inv.joined]; simp
      · exact sizes_with_remainder inv.full hb inv.small
      · intro h; simp at h
      · intro _
        exact ⟨st.calls, st.batch, rfl, by rw [hsink]; simp, inv.written, inv.imported⟩
  · rw [if_neg hb]
    have hnil : st.batch = [] := List.length_eq_zero.mp (by omega)
    refine ⟨?_, ?_, ?_, ?_, ?_, ?_⟩
    · exact Nat.le_of_eq inv.pulled
    · show st.skipped = _
      rw [htake]; exact inv.skipped
    · show st.calls.flatten = _
      rw [htake, ← inv.joined, hnil, List.append_nil]
    · exact sizes_full inv.full
    · intro _
      exact ⟨inv.pulled, inv.imported, inv.written⟩
    · intro h; exact absurd rfl h


/-- The run specification is monotone in the list of documents consumed so far. -/
theorem importLoop_spec {α : Type} (nutrients : α → List FoodNutrient)
    (mapFood : α → Nat → Time → Food) (foodColl : Sink) (clock : Nat → Time) :
    ∀ (docs pre : List (Option α)) (st : LoopState),
      LoopInv nutrients mapFood foodColl clock pre st →
      RunSpec nutrients mapFood foodColl clock (pre ++ docs)
        (importLoop nutrients mapFood foodColl clock docs st) := by
  intro docs
  induction docs with
  | nil =>
    intro pre st inv
    rw [List.append_nil]
    exact drain_spec nutrients mapFood foodColl clock pre st inv
  | cons d rest ih =>
    intro pre st inv
    have happ : pre ++ d :: rest = (pre ++ [d]) ++ rest := by simp
    rw [happ]
    cases d with
    | none =>
      rw [importLoop]
      apply ih
      exact
        { pulled := by show st.pulled + 1 = _; rw [inv.pulled]; simp
          skipped := by
            show st.skipped = _
            rw [countEmpty_append, inv.skipped]; simp [countEmpty]
          nextID := by
            show st.nextID = _
            rw [qualifying_append, inv.nextID]; simp [qualifying]
          joined := by
            show st.calls.flatten ++ st.batch = _
            rw [qualifying_append, inv.joined]; simp [qualifying]
          full := inv.full
          small := inv.small
          imported := inv.imported
          written := inv.written }
    | some r =>
      rw [importLoop]
      by_cases he : (nutrients r).length = 0
      · rw [if_pos he]
        apply ih
        exact
          { pulled := by show st.pulled + 1 = _; rw [inv.pulled]; simp
            skipped := by
              show st.skipped + 1 = _
              rw [countEmpty_append, inv.skipped]; simp [countEmpty, he]
            nextID := by
              show st.nextID = _
              rw [qualifying_append, inv.nextID]; simp [qualifying, he]
            joined := by
              show st.calls.flatten ++ st.batch = _
              rw [qualifying_append, inv.joined]; simp [qualifying, he]
            full := inv.full
            small := inv.small
            imported := inv.imported
            written := inv.written }
      · rw [if_neg he]
        have hq : qualifying nutrients (pre ++ [some r]) = qualifying nutrients pre ++ [r] := by
          rw [qualifying_append]; simp [qualifying, he]
        have hjoin : st.calls.flatten ++ (st.batch ++ [mapFood r st.nextID (clock st.nextID)])
            = mapFrom mapFood clock 1 (qualifying nutrients (pre ++ [some r])) := by
          rw [hq, mapFrom_append, ← inv.joined, inv.nextID]
          simp [mapFrom, Nat.add_comm]
        have hce : countEmpty nutrients (pre ++ [some r]) = countEmpty nutrients pre := by
          rw [countEmpty_append]; simp [countEmpty, he]
        have hlen : (pre ++ [some r]).length = st.pulled + 1 := by
          rw [inv.pulled]; simp
        simp only []
        by_cases hfull : (st.batch ++ [mapFood r st.nextID (clock st.nextID)]).length ≥ batchSize
        · rw [if_pos hfull]
          have hexact : (st.batch ++ [mapFood r st.nextID (clock st.nextID)]).length
              = batchSize := by
            have := inv.small
            simp only [List.length_append, List.length_cons, List.length_nil] at hfull ⊢
            omega
          have hfull' : ∀ b ∈ st.calls ++ [st.batch ++ [mapFood r st.nextID (clock st.nextID)]],
              b.length = batchSize := by
            intro b hb
            rcases List.mem_append.mp hb with h1 | h1
            · exact inv.full b h1
            · rw [List.mem_singleton.mp h1]; exact hexact
          cases hsink : foodColl st.calls.length
              (st.batch ++ [mapFood r st.nextID (clock st.nextID)]) with
          | none =>
            simp only []
            apply ih
            exact
              { pulled := hlen.symm
                skipped := by show st.skipped = _; rw [hce]; exact inv.skipped
                nextID := by
                  show st.nextID + 1 = _
                  rw [hq, inv.nextID]; simp
                joined := by
                  show (st.calls ++ [st.batch ++ [mapFood r st.nextID (clock st.nextID)]]).flatten
                    ++ [] = _
                  rw [← hjoin]; simp
                full := hfull'
                small := by show ([] : List Food).length < batchSize; decide
                imported := by
                  show st.imported
                      + (st.batch ++ [mapFood r st.nextID (clock st.nextID)]).length
                    = (st.calls ++ [st.batch ++ [mapFood r st.nextID (clock st.nextID)]]).flatten.length
                  rw [inv.imported]; simp
                written := written_concat inv.written hsink }
          | some e =>
            simp only []
            have htake : List.take (st.pulled + 1) (pre ++ [some r] ++ rest)
                = pre ++ [some r] := List.take_left' hlen
            refine ⟨?_, ?_, ?_, ?_, ?_, ?_⟩
            · show st.pulled + 1 ≤ _
              rw [List.length_append, hlen]; omega
            · show st.skipped = _
              rw [htake, hce]; exact inv.skipped
            · show (st.calls ++ [st.batch ++ [mapFood r st.nextID (clock st.nextID)]]).flatten
                = _
              rw [htake, ← hjoin]; simp
            · exact sizes_full hfull'
            · intro h; simp at h
            · intro _
              exact ⟨st.calls, _, rfl, by rw [hsink]; simp, inv.written, inv.imported⟩
        · rw [if_neg hfull]
          apply ih
          exact
            { pulled := hlen.symm
              skipped := by show st.skipped = _; rw [hce]; exact inv.skipped
              nextID := by
                show st.nextID + 1 = _
                rw [hq, inv.nextID]; simp
              joined := hjoin
              full := inv.full
              small := Nat.lt_of_not_le hfull
              imported := inv.imported
              written := inv.written }


/-- The cursor loop of `ImportSurveyFoods` is the shared loop over the survey mapper. -/
theorem surveyLoop_eq (foodColl : Sink) (clock : Nat → Time) :
    ∀ (docs : List (Option SurveyFood)) (st : LoopState),
      surveyLoop foodColl clock docs st
        = importLoop SurveyFood.FoodNutrients MapSurveyFood foodColl clock docs st
  | [], _ => rfl
  | none :: rest, st => by
    rw [surveyLoop, importLoop]
    exact surveyLoop_eq foodColl clock rest _
  | some r :: rest, st => by
    rw [surveyLoop, importLoop]
    simp only [surveyLoop_eq foodColl clock rest]

/-- The cursor loop of `ImportBrandedFoods` is the shared loop over the branded mapper. -/
theorem brandedLoop_eq (foodColl : Sink) (clock : Nat → Time) :
    ∀ (docs : List (Option BrandedFood)) (st : LoopState),
      brandedLoop foodColl clock docs st
        = importLoop BrandedFood.FoodNutrients MapBrandedFood foodColl clock docs st
  | [], _ => rfl
  | none :: rest, st => by
    rw [brandedLoop, importLoop]
    exact brandedLoop_eq foodColl clock rest _
  | some r :: rest, st => by
    rw [brandedLoop, importLoop]
    simp only [brandedLoop_eq foodColl clock rest]

/-- A survey import over a cursor is the shared loop from the initial state. -/
theorem ImportSurveyFoods_ok (docs : List (Option SurveyFood)) (foodColl : Sink)
    (clock : Nat → Time) :
    ImportSurveyFoods (.ok docs) foodColl clock
      = importLoop SurveyFood.FoodNutrients MapSurveyFood foodColl clock docs
          LoopState.init :=
  surveyLoop_eq foodColl clock docs LoopState.init

/-- A branded import over a cursor is the shared loop from the initial state. -/
theorem ImportBrandedFoods_ok (docs : List (Option BrandedFood)) (foodColl : Sink)
    (clock : Nat → Time) :
    ImportBrandedFoods (.ok docs) foodColl clock
      = importLoop BrandedFood.FoodNutrients MapBrandedFood foodColl clock docs
          LoopState.init :=
  brandedLoop_eq foodColl clock docs LoopState.init

/-- Every run of the shared loop from the initial state meets the run specification. -/
theorem importLoop_init_spec {α : Type} (nutrients : α → List FoodNutrient)
    (mapFood : α → Nat → Time → Food) (foodColl : Sink) (clock : Nat → Time)
    (docs : List (Option α)) :
    RunSpec nutrients mapFood foodColl clock docs
      (importLoop nutrients mapFood foodColl clock docs LoopState.init) := by
  have h := importLoop_spec nutrients mapFood foodColl clock docs [] LoopState.init
    (LoopInv.init nutrients mapFood foodColl clock)
  simpa using h

/-- The loop never takes back a document it has pulled. -/
theorem importLoop_pulled_ge {α : Type} (nutrients : α → List FoodNutrient)
    (mapFood : α → Nat → Time → Food) (foodColl : Sink) (clock : Nat → Time) :
    ∀ (docs : List (Option α)) (st : LoopState),
      st.pulled ≤ (importLoop nutrients mapFood foodColl clock docs st).pulled := by
  intro docs
  induction docs with
  | nil =>
    intro st
    rw [importLoop]
    unfold drain
    split
    · split <;> exact Nat.le_refl _
    · exact Nat.le_refl _
  | cons d rest ih =>
    intro st
    cases d with
    | none =>
      rw [importLoop]
      (refine Nat.le_trans ?_ (ih _); exact Nat.le_succ _)
    | some r =>
      rw [importLoop]
      split
      · (refine Nat.le_trans ?_ (ih _); exact Nat.le_succ _)
      · simp only []
        split
        · split
          · exact Nat.le_succ _
          · (refine Nat.le_trans ?_ (ih _); exact Nat.le_succ _)
        · (refine Nat.le_trans ?_ (ih _); exact Nat.le_succ _)

/-- A run that stops before the cursor is exhausted does not depend on the documents it
has not pulled. -/
theorem importLoop_unpulled {α : Type} (nutrients : α → List FoodNutrient)
    (mapFood : α → Nat → Time → Food) (foodColl : Sink) (clock : Nat → Time) :
    ∀ (docs : List (Option α)) (st : LoopState),
      (importLoop nutrients mapFood foodColl clock docs st).pulled
        < st.pulled + docs.length →
      ∀ other : List (Option α),
        importLoop nutrients mapFood foodColl clock
          (docs.take ((importLoop nutrients mapFood foodColl clock docs st).pulled
            - st.pulled) ++ other) st
        = importLoop nutrients mapFood foodColl clock docs st := by
  intro docs
  induction docs with
  | nil =>
    intro st h other
    exfalso
    have hge := importLoop_pulled_ge nutrients mapFood foodColl clock [] st
    simp only [List.length_nil, Nat.add_zero] at h
    omega
  | cons d rest ih =>
    intro st h other
    have step : ∀ st1 : LoopState, st1.pulled = st.pulled + 1 →
        (importLoop nutrients mapFood foodColl clock rest st1).pulled
          < st.pulled + (d :: rest).length →
        (List.take ((importLoop nutrients mapFood foodColl clock rest st1).pulled
            - st.pulled) (d :: rest) ++ other
          = d :: (List.take ((importLoop nutrients mapFood foodColl clock rest st1).pulled
              - st1.pulled) rest ++ other)) ∧
        importLoop nutrients mapFood foodColl clock
          (List.take ((importLoop nutrients mapFood foodColl clock rest st1).pulled
              - st1.pulled) rest ++ other) st1
          = importLoop nutrients mapFood foodColl clock rest st1 := by
      intro st1 h1 h2
      have hge := importLoop_pulled_ge nutrients mapFood foodColl clock rest st1
      constructor
      · have e : (importLoop nutrients mapFood foodColl clock rest st1).pulled - st.pulled
            = ((importLoop nutrients mapFood foodColl clock rest st1).pulled - st1.pulled)
              + 1 := by omega
        rw [e, List.take_succ_cons, List.cons_append]
      · apply ih st1
        simp only [List.length_cons] at h2
        omega
    cases d with
    | none =>
      rw [importLoop] at h ⊢
      obtain ⟨e1, e2⟩ := step _ rfl h
      rw [e1, importLoop]
      exact e2
    | some r =>
      rw [importLoop] at h ⊢
      by_cases he : (nutrients r).length = 0
      · rw [if_pos he] at h ⊢
        obtain ⟨e1, e2⟩ := step _ rfl h
        rw [e1, importLoop, if_pos he]
        exact e2
      · rw [if_neg he] at h ⊢
        simp only [] at h ⊢
        by_cases hfull :
            (st.batch ++ [mapFood r st.nextID (clock st.nextID)]).length ≥ batchSize
        · rw [if_pos hfull] at h ⊢
          cases hsink : foodColl st.calls.length
              (st.batch ++ [mapFood r st.nextID (clock st.nextID)]) with
          | none =>
            rw [hsink] at h
            simp only [] at h ⊢
            obtain ⟨e1, e2⟩ := step _ rfl h
            rw [e1, importLoop, if_neg he]
            simp only []
            rw [if_pos hfull, hsink]
            exact e2
          | some e =>
            simp only []
            have e0 : st.pulled + 1 - st.pulled = 1 := by omega
            rw [e0, List.take_succ_cons, List.take_zero, List.cons_append, List.nil_append,
              importLoop, if_neg he]
            simp only []
            rw [if_pos hfull, hsink]
        · rw [if_neg hfull] at h ⊢
          obtain ⟨e1, e2⟩ := step _ rfl h
          rw [e1, importLoop, if_neg he]
          simp only []
          rw [if_neg hfull]
          exact e2


/-! ## The import pipeline: consequences of the run specification -/

/-- The qualifying records are the source documents that decode to a record with a
non-empty nutrient list. -/
theorem mem_qualifying {α : Type} (nutrients : α → List FoodNutrient) (r : α) :
    ∀ docs : List (Option α),
      r ∈ qualifying nutrients docs ↔ some r ∈ docs ∧ (nutrients r).length ≠ 0
  | [] => by simp [qualifying]
  | none :: rest => by
    rw [qualifying, mem_qualifying nutrients r rest]
    simp
  | some x :: rest => by
    rw [qualifying]
    split
    · rename_i hx
      rw [mem_qualifying nutrients r rest]
      constructor
      · rintro ⟨h1, h2⟩
        exact ⟨List.mem_cons_of_mem _ h1, h2⟩
      · rintro ⟨h1, h2⟩
        rcases List.mem_cons.mp h1 with h | h
        · have hrx : r = x := Option.some.inj h
          rw [hrx] at h2
          exact absurd hx h2
        · exact ⟨h, h2⟩
    · rename_i hx
      rw [List.mem_cons, mem_qualifying nutrients r rest]
      constructor
      · rintro (h | ⟨h1, h2⟩)
        · rw [h]; exact ⟨List.mem_cons_self _ _, hx⟩
        · exact ⟨List.mem_cons_of_mem _ h1, h2⟩
      · rintro ⟨h1, h2⟩
        rcases List.mem_cons.mp h1 with h | h
        · exact Or.inl (Option.some.inj h)
        · exact Or.inr ⟨h, h2⟩

/-- Every mapped record is the mapping of one of the given records. -/
theorem mem_mapFrom {α : Type} (mapFood : α → Nat → Time → Food) (clock : Nat → Time)
    (f : Food) :
    ∀ (xs : List α) (id : Nat), f ∈ mapFrom mapFood clock id xs →
      ∃ r ∈ xs, ∃ i, f = mapFood r i (clock i)
  | [], _, h => by simp [mapFrom] at h
  | x :: xs, id, h => by
    rw [mapFrom] at h
    rcases List.mem_cons.mp h with h1 | h1
    · exact ⟨x, List.mem_cons_self _ _, id, h1⟩
    · obtain ⟨r, hr, i, hi⟩ := mem_mapFrom mapFood clock f xs (id + 1) h1
      exact ⟨r, List.mem_cons_of_mem _ hr, i, hi⟩

/-- A source of `n` copies of a record with nutrients has `n` qualifying records. -/
theorem qualifying_sampleSource {α : Type} (nutrients : α → List FoodNutrient)
    (record empty : α) (hr : (nutrients record).length ≠ 0)
    (he : (nutrients empty).length = 0) (n : Nat) :
    (qualifying nutrients (sampleSource record empty n)).length = n := by
  unfold sampleSource
  rw [qualifying_append]
  have h1 : ∀ k, qualifying nutrients (List.replicate k (some record))
      = List.replicate k record := by
    intro k
    induction k with
    | zero => rfl
    | succ k ih => rw [List.replicate_succ, qualifying, if_neg hr, ih, List.replicate_succ]
  rw [h1]
  simp [qualifying, he]

/-- A run without error has handed every qualifying record of the source to the sink. -/
theorem RunSpec.flatten_of_ok {α : Type} {nutrients : α → List FoodNutrient}
    {mapFood : α → Nat → Time → Food} {foodColl : Sink} {clock : Nat → Time}
    {all : List (Option α)} {r : Run}
    (spec : RunSpec nutrients mapFood foodColl clock all r) (h : r.err = none) :
    r.calls.flatten = mapFrom mapFood clock 1 (qualifying nutrients all) ∧
      r.calls.flatten.length = (qualifying nutrients all).length ∧
      r.skipped = countEmpty nutrients all := by
  have hp := (spec.ok h).1
  have e1 := spec.joined
  have e2 := spec.skipped
  rw [hp, List.take_length] at e1 e2
  exact ⟨e1, by rw [e1, mapFrom_length], e2⟩

/-- A run against a sink that accepts every bulk write returns no error. -/
theorem RunSpec.err_of_sinkOk {α : Type} {nutrients : α → List FoodNutrient}
    {mapFood : α → Nat → Time → Food} {foodColl : Sink} {clock : Nat → Time}
    {all : List (Option α)} {r : Run}
    (spec : RunSpec nutrients mapFood foodColl clock all r)
    (hs : ∀ k b, foodColl k b = none) : r.err = none := by
  by_contra h
  obtain ⟨done, last, _, hfail, _⟩ := spec.failed h
  exact hfail (hs _ _)

/-- A failed bulk write is the last bulk write of the run, the run returns an error, and
`imported` counts the batches written before it. -/
theorem RunSpec.of_failed_write {α : Type} {nutrients : α → List FoodNutrient}
    {mapFood : α → Nat → Time → Food} {foodColl : Sink} {clock : Nat → Time}
    {all : List (Option α)} {r : Run}
    (spec : RunSpec nutrients mapFood foodColl clock all r)
    (k : Nat) (b : List Food) (hk : r.calls[k]? = some b) (hb : foodColl k b ≠ none) :
    r.err ≠ none ∧ k + 1 = r.calls.length ∧
      r.imported = (r.calls.take k).flatten.length ∧
      (∀ j c, (r.calls.take k)[j]? = some c → foodColl j c = none) := by
  have herr : r.err ≠ none := fun h => hb ((spec.ok h).2.2 k b hk)
  obtain ⟨done, last, hcalls, _, hdone, himp⟩ := spec.failed herr
  have hklt : k < r.calls.length := by
    by_contra hge
    rw [List.getElem?_eq_none (Nat.le_of_not_lt hge)] at hk
    exact Option.noConfusion hk
  have hkeq : k = done.length := by
    by_contra hne
    have hlt : k < done.length := by
      rw [hcalls, List.length_append, List.length_singleton] at hklt
      omega
    rw [hcalls, List.getElem?_append_left hlt] at hk
    exact hb (hdone k b hk)
  have htake : r.calls.take k = done := by
    rw [hcalls]; exact List.take_left' hkeq.symm
  refine ⟨herr, ?_, ?_, ?_⟩
  · rw [hcalls, List.length_append, List.length_singleton, hkeq]
  · rw [htake]; exact himp
  · rw [htake]; exact hdone

/-- The outcome of the loop does not depend on the count of pulled documents. -/
theorem importLoop_outcome_pulled {α : Type} (nutrients : α → List FoodNutrient)
    (mapFood : α → Nat → Time → Food) (foodColl : Sink) (clock : Nat → Time) :
    ∀ (docs : List (Option α)) (st : LoopState) (p : Nat),
      (importLoop nutrients mapFood foodColl clock docs { st with pulled := p }).outcome
        = (importLoop nutrients mapFood foodColl clock docs st).outcome := by
  intro docs
  induction docs with
  | nil =>
    intro st p
    rw [importLoop, importLoop]
    unfold drain
    simp only []
    split
    · split <;> rfl
    · rfl
  | cons d rest ih =>
    intro st p
    cases d with
    | none =>
      rw [importLoop, importLoop]
      exact (ih st (p + 1)).trans (ih st (st.pulled + 1)).symm
    | some r =>
      rw [importLoop, importLoop]
      simp only []
      split
      · exact (ih { st with skipped := st.skipped + 1 } (p + 1)).trans
          (ih { st with skipped := st.skipped + 1 } (st.pulled + 1)).symm
      · split
        · split
          · rfl
          · exact (ih { st with
                imported := st.imported
                  + (st.batch ++ [mapFood r st.nextID (clock st.nextID)]).length,
                nextID := st.nextID + 1, batch := [],
                calls := st.calls ++ [st.batch ++ [mapFood r st.nextID (clock st.nextID)]] }
              (p + 1)).trans
              (ih { st with
                imported := st.imported
                  + (st.batch ++ [mapFood r st.nextID (clock st.nextID)]).length,
                nextID := st.nextID + 1, batch := [],
                calls := st.calls ++ [st.batch ++ [mapFood r st.nextID (clock st.nextID)]] }
              (st.pulled + 1)).symm
        · exact (ih { st with
                nextID := st.nextID + 1,
                batch := st.batch ++ [mapFood r st.nextID (clock st.nextID)] }
              (p + 1)).trans
              (ih { st with
                nextID := st.nextID + 1,
                batch := st.batch ++ [mapFood r st.nextID (clock st.nextID)] }
              (st.pulled + 1)).symm

/-- Undecodable documents are transparent: the outcome of a run is the outcome of the
run over the decodable documents alone. -/
theorem importLoop_outcome_decodable {α : Type} (nutrients : α → List FoodNutrient)
    (mapFood : α → Nat → Time → Food) (foodColl : Sink) (clock : Nat → Time) :
    ∀ (docs : List (Option α)) (st : LoopState),
      (importLoop nutrients mapFood foodColl clock (decodable docs) st).outcome
        = (importLoop nutrients mapFood foodColl clock docs st).outcome := by
  intro docs
  induction docs with
  | nil => intro st; rfl
  | cons d rest ih =>
    intro st
    cases d with
    | none =>
      have e : decodable (none :: rest) = decodable rest := rfl
      rw [e, ih st, importLoop]
      exact (importLoop_outcome_pulled nutrients mapFood foodColl clock rest st
        (st.pulled + 1)).symm
    | some r =>
      have e : decodable (some r :: rest) = some r :: decodable rest := rfl
      rw [e, importLoop, importLoop]
      simp only []
      split
      · exact ih _
      · split
        · split
          · rfl
          · exact ih _
        · exact ih _


/-! ## Claims about the import pipeline -/

/-- Against a sink that accepts every bulk write, the shared loop returns no error, its
bulk writes have the sizes `batchSizes n` and it reports `n` imported records, where `n`
is the number of qualifying records. -/
theorem importLoop_of_sinkOk {α : Type} (nutrients : α → List FoodNutrient)
    (mapFood : α → Nat → Time → Food) (foodColl : Sink) (clock : Nat → Time)
    (docs : List (Option α)) (hs : ∀ k b, foodColl k b = none) :
    (importLoop nutrients mapFood foodColl clock docs LoopState.init).err = none ∧
      (importLoop nutrients mapFood foodColl clock docs LoopState.init).calls.map List.length
        = batchSizes (qualifying nutrients docs).length ∧
      (importLoop nutrients mapFood foodColl clock docs LoopState.init).imported
        = (qualifying nutrients docs).length := by
  have spec := importLoop_init_spec nutrients mapFood foodColl clock docs
  have herr := spec.err_of_sinkOk hs
  obtain ⟨_, hlen, _⟩ := spec.flatten_of_ok herr
  refine ⟨herr, ?_, ?_⟩
  · rw [spec.sizes, hlen]
  · rw [(spec.ok herr).2.1, hlen]

/-- C4. Over a source with `N` qualifying records and a sink that always succeeds,
both import functions make `N / 1000` bulk writes of size 1000 followed by one of size
`N mod 1000` when that is not zero, in that order, return no error and return
`imported = N`; for `N = 2500` the sizes are 1000, 1000, 500. -/
theorem batch_flush_boundary :
    (∀ (docs : List (Option SurveyFood)) (foodColl : Sink) (clock : Nat → Time),
      (∀ k b, foodColl k b = none) →
      (ImportSurveyFoods (.ok docs) foodColl clock).err = none ∧
        (ImportSurveyFoods (.ok docs) foodColl clock).calls.map List.length
          = batchSizes (qualifying SurveyFood.FoodNutrients docs).length ∧
        (ImportSurveyFoods (.ok docs) foodColl clock).imported
          = (qualifying SurveyFood.FoodNutrients docs).length) ∧
    (∀ (docs : List (Option BrandedFood)) (foodColl : Sink) (clock : Nat → Time),
      (∀ k b, foodColl k b = none) →
      (ImportBrandedFoods (.ok docs) foodColl clock).err = none ∧
        (ImportBrandedFoods (.ok docs) foodColl clock).calls.map List.length
          = batchSizes (qualifying BrandedFood.FoodNutrients docs).length ∧
        (ImportBrandedFoods (.ok docs) foodColl clock).imported
          = (qualifying BrandedFood.FoodNutrients docs).length) ∧
    batchSizes 2500 = [1000, 1000, 500] := by
  refine ⟨fun docs foodColl clock hs => ?_, fun docs foodColl clock hs => ?_, by decide⟩
  · rw [ImportSurveyFoods_ok]
    exact importLoop_of_sinkOk _ _ _ _ _ hs
  · rw [ImportBrandedFoods_ok]
    exact importLoop_of_sinkOk _ _ _ _ _ hs

set_option maxRecDepth 8192 in
/-- C4, at sources of 2500 qualifying records followed by an undecodable document and a
record without nutrients: three bulk writes of sizes 1000, 1000, 500 and
`imported = 2500`, for both import functions. -/
theorem batch_flush_boundary_witness :
    ((ImportSurveyFoods (.ok (sampleSource surveyRecord surveyEmpty 2500)) sinkOk
        sampleClock).calls.map List.length = [1000, 1000, 500] ∧
      (ImportSurveyFoods (.ok (sampleSource surveyRecord surveyEmpty 2500)) sinkOk
        sampleClock).imported = 2500) ∧
    ((ImportBrandedFoods (.ok (sampleSource brandedRecord brandedEmpty 2500)) sinkOk
        sampleClock).calls.map List.length = [1000, 1000, 500] ∧
      (ImportBrandedFoods (.ok (sampleSource brandedRecord brandedEmpty 2500)) sinkOk
        sampleClock).imported = 2500) := by
  have hs := batch_flush_boundary.1 (sampleSource surveyRecord surveyEmpty 2500) sinkOk
    sampleClock (fun _ _ => rfl)
  have hb := batch_flush_boundary.2.1 (sampleSource brandedRecord brandedEmpty 2500) sinkOk
    sampleClock (fun _ _ => rfl)
  rw [qualifying_sampleSource SurveyFood.FoodNutrients surveyRecord surveyEmpty
    (by decide) (by decide) 2500, batch_flush_boundary.2.2] at hs
  rw [qualifying_sampleSource BrandedFood.FoodNutrients brandedRecord brandedEmpty
    (by decide) (by decide) 2500, batch_flush_boundary.2.2] at hb
  exact ⟨⟨hs.2.1, hs.2.2⟩, ⟨hb.2.1, hb.2.2⟩⟩

/-- The identifiers of the records handed to the sink by the shared loop, for a mapper
that stores the identifier it is given. -/
theorem importLoop_ids {α : Type} (nutrients : α → List FoodNutrient)
    (mapFood : α → Nat → Time → Food) (foodColl : Sink) (clock : Nat → Time)
    (hid : ∀ r id now, (mapFood r id now).ID = id) (docs : List (Option α)) :
    (importLoop nutrients mapFood foodColl clock docs LoopState.init).calls.flatten.map
        Food.ID
      = List.range' 1
          (importLoop nutrients mapFood foodColl clock docs
            LoopState.init).calls.flatten.length ∧
    ((importLoop nutrients mapFood foodColl clock docs LoopState.init).err = none →
      (importLoop nutrients mapFood foodColl clock docs LoopState.init).calls.flatten.length
        = (qualifying nutrients docs).length) := by
  have spec := importLoop_init_spec nutrients mapFood foodColl clock docs
  refine ⟨?_, fun h => (spec.flatten_of_ok h).2.1⟩
  rw [spec.joined, mapFrom_ids mapFood clock hid, mapFrom_length]

/-- C5. In every run of either import function the identifiers of the output records,
read in the order in which the records are handed to the sink, are `1, 2, ..., n`, where
`n` is the number of records handed over; in a run without error `n` is the number of
qualifying records of the source, however many undecodable documents and records
without nutrients lie in between. -/
theorem sequential_identifiers :
    (∀ (docs : List (Option SurveyFood)) (foodColl : Sink) (clock : Nat → Time),
      (ImportSurveyFoods (.ok docs) foodColl clock).calls.flatten.map Food.ID
          = List.range' 1 (ImportSurveyFoods (.ok docs) foodColl clock).calls.flatten.length ∧
        ((ImportSurveyFoods (.ok docs) foodColl clock).err = none →
          (ImportSurveyFoods (.ok docs) foodColl clock).calls.flatten.length
            = (qualifying SurveyFood.FoodNutrients docs).length)) ∧
    (∀ (docs : List (Option BrandedFood)) (foodColl : Sink) (clock : Nat → Time),
      (ImportBrandedFoods (.ok docs) foodColl clock).calls.flatten.map Food.ID
          = List.range' 1
              (ImportBrandedFoods (.ok docs) foodColl clock).calls.flatten.length ∧
        ((ImportBrandedFoods (.ok docs) foodColl clock).err = none →
          (ImportBrandedFoods (.ok docs) foodColl clock).calls.flatten.length
            = (qualifying BrandedFood.FoodNutrients docs).length)) := by
  refine ⟨fun docs foodColl clock => ?_, fun docs foodColl clock => ?_⟩
  · rw [ImportSurveyFoods_ok]
    exact importLoop_ids _ _ _ _ MapSurveyFood_ID docs
  · rw [ImportBrandedFoods_ok]
    exact importLoop_ids _ _ _ _ MapBrandedFood_ID docs

set_option maxRecDepth 8192 in
/-- C5, at sources with three qualifying records, two undecodable documents and a record
without nutrients: the identifiers are 1, 2, 3 for both import functions. -/
theorem sequential_identifiers_witness :
    (ImportSurveyFoods (.ok (mixedSource surveyRecord surveyEmpty)) sinkOk
        sampleClock).calls.flatten.map Food.ID = [1, 2, 3] ∧
      (ImportBrandedFoods (.ok (mixedSource brandedRecord brandedEmpty)) sinkOk
        sampleClock).calls.flatten.map Food.ID = [1, 2, 3] :=
  ⟨((sequential_identifiers.1 (mixedSource surveyRecord surveyEmpty) sinkOk
      sampleClock).1).trans (by decide),
    ((sequential_identifiers.2 (mixedSource brandedRecord brandedEmpty) sinkOk
      sampleClock).1).trans (by decide)⟩


/-- Where a failed run stops. A failure of the final insert comes after every document
was pulled, and its batch is not full. A failure inside the cursor loop has a full
batch; the last document pulled is the qualifying record that filled it, and the
documents behind it have no influence on the run. -/
theorem importLoop_stop {α : Type} (nutrients : α → List FoodNutrient)
    (mapFood : α → Nat → Time → Food) (foodColl : Sink) (clock : Nat → Time) :
    ∀ (docs : List (Option α)) (st : LoopState), st.batch.length < batchSize →
      (importLoop nutrients mapFood foodColl clock docs st).err ≠ none →
      ∃ done last,
        (importLoop nutrients mapFood foodColl clock docs st).calls = done ++ [last] ∧
        ((last.length < batchSize ∧
            (importLoop nutrients mapFood foodColl clock docs st).pulled
              = st.pulled + docs.length) ∨
          (last.length = batchSize ∧
            st.pulled < (importLoop nutrients mapFood foodColl clock docs st).pulled ∧
            (∃ r, docs[(importLoop nutrients mapFood foodColl clock docs st).pulled
                  - st.pulled - 1]? = some (some r) ∧ (nutrients r).length ≠ 0) ∧
            ∀ other : List (Option α),
              importLoop nutrients mapFood foodColl clock
                (docs.take ((importLoop nutrients mapFood foodColl clock docs st).pulled
                  - st.pulled) ++ other) st
              = importLoop nutrients mapFood foodColl clock docs st)) := by
  intro docs
  induction docs with
  | nil =>
    intro st hsmall herr
    rw [importLoop] at herr ⊢
    unfold drain at herr ⊢
    by_cases hb : st.batch.length > 0
    · rw [if_pos hb] at herr ⊢
      cases hsink : foodColl st.calls.length st.batch with
      | none => rw [hsink] at herr; exact absurd rfl herr
      | some e => exact ⟨st.calls, st.batch, rfl, Or.inl ⟨hsmall, rfl⟩⟩
    · rw [if_neg hb] at herr
      exact absurd rfl herr
  | cons d rest ih =>
    intro st hsmall herr
    have cont : ∀ st1 : LoopState, st1.pulled = st.pulled + 1 →
        st1.batch.length < batchSize →
        (∀ docs1 : List (Option α),
          importLoop nutrients mapFood foodColl clock (d :: docs1) st
            = importLoop nutrients mapFood foodColl clock docs1 st1) →
        ∃ done last,
          (importLoop nutrients mapFood foodColl clock (d :: rest) st).calls
            = done ++ [last] ∧
          ((last.length < batchSize ∧
              (importLoop nutrients mapFood foodColl clock (d :: rest) st).pulled
                = st.pulled + (d :: rest).length) ∨
            (last.length = batchSize ∧
              st.pulled < (importLoop nutrients mapFood foodColl clock (d :: rest) st).pulled ∧
              (∃ r, (d :: rest)[(importLoop nutrients mapFood foodColl clock
                    (d :: rest) st).pulled - st.pulled - 1]? = some (some r) ∧
                (nutrients r).length ≠ 0) ∧
              ∀ other : List (Option α),
                importLoop nutrients mapFood foodColl clock
                  ((d :: rest).take ((importLoop nutrients mapFood foodColl clock
                    (d :: rest) st).pulled - st.pulled) ++ other) st
                = importLoop nutrients mapFood foodColl clock (d :: rest) st)) := by
      intro st1 hp hs1 hstep
      rw [hstep rest] at herr ⊢
      obtain ⟨done, last, hcalls, h⟩ := ih st1 hs1 herr
      refine ⟨done, last, hcalls, ?_⟩
      rcases h with ⟨h1, h2⟩ | ⟨h1, h2, ⟨r, h3, h4⟩, h5⟩
      · left
        refine ⟨h1, ?_⟩
        rw [h2, hp, List.length_cons]
        omega
      · right
        have e : (importLoop nutrients mapFood foodColl clock rest st1).pulled - st.pulled
            = ((importLoop nutrients mapFood foodColl clock rest st1).pulled - st1.pulled)
              + 1 := by omega
        have e2 : (importLoop nutrients mapFood foodColl clock rest st1).pulled
              - st.pulled - 1
            = ((importLoop nutrients mapFood foodColl clock rest st1).pulled
              - st1.pulled - 1) + 1 := by omega
        refine ⟨h1, by omega, ⟨r, ?_, h4⟩, fun other => ?_⟩
        · rw [e2, List.getElem?_cons_succ]
          exact h3
        · rw [e, List.take_succ_cons, List.cons_append, hstep]
          exact h5 other
    cases d with
    | none =>
      exact cont { st with pulled := st.pulled + 1 } rfl hsmall
        (fun docs1 => by rw [importLoop])
    | some r =>
      by_cases he : (nutrients r).length = 0
      · exact cont { st with skipped := st.skipped + 1, pulled := st.pulled + 1 } rfl hsmall
          (fun docs1 => by rw [importLoop, if_pos he])
      · by_cases hfull :
            (st.batch ++ [mapFood r st.nextID (clock st.nextID)]).length ≥ batchSize
        · cases hsink : foodColl st.calls.length
              (st.batch ++ [mapFood r st.nextID (clock st.nextID)]) with
          | none =>
            refine cont
              { st with
                imported := st.imported
                  + (st.batch ++ [mapFood r st.nextID (clock st.nextID)]).length,
                nextID := st.nextID + 1, batch := [],
                calls := st.calls ++ [st.batch ++ [mapFood r st.nextID (clock st.nextID)]],
                pulled := st.pulled + 1 }
              rfl (by show ([] : List Food).length < batchSize; decide) (fun docs1 => ?_)
            rw [importLoop, if_neg he]
            simp only []
            rw [if_pos hfull, hsink]
          | some e =>
            have hrun : ∀ docs1 : List (Option α),
                importLoop nutrients mapFood foodColl clock (some r :: docs1) st
                  = { imported := st.imported, skipped := st.skipped,
                      err := some ("failed to insert batch: " ++ e),
                      calls := st.calls ++ [st.batch ++ [mapFood r st.nextID (clock st.nextID)]],
                      pulled := st.pulled + 1 } := by
              intro docs1
              rw [importLoop, if_neg he]
              simp only []
              rw [if_pos hfull, hsink]
            rw [hrun rest]
            refine ⟨st.calls, _, rfl,
              Or.inr ⟨?_, Nat.lt_succ_self _, ⟨r, ?_, he⟩, fun other => ?_⟩⟩
            · simp only [List.length_append, List.length_cons, List.length_nil] at hfull ⊢
              omega
            · show (some r :: rest)[st.pulled + 1 - st.pulled - 1]? = some (some r)
              have e0 : st.pulled + 1 - st.pulled - 1 = 0 := by omega
              rw [e0, List.getElem?_cons_zero]
            · show importLoop nutrients mapFood foodColl clock
                (List.take (st.pulled + 1 - st.pulled) (some r :: rest) ++ other) st = _
              have e0 : st.pulled + 1 - st.pulled = 1 := by omega
              rw [e0, List.take_succ_cons, List.take_zero, List.cons_append, List.nil_append,
                hrun]
        · refine cont
            { st with
              nextID := st.nextID + 1,
              batch := st.batch ++ [mapFood r st.nextID (clock st.nextID)],
              pulled := st.pulled + 1 }
            rfl (Nat.lt_of_not_le hfull) (fun docs1 => ?_)
          rw [importLoop, if_neg he]
          simp only []
          rw [if_neg hfull]

/-- The qualifying records of copies of a record with nutrients. -/
theorem qualifying_replicate {α : Type} (nutrients : α → List FoodNutrient) (r : α)
    (hr : (nutrients r).length ≠ 0) :
    ∀ n, qualifying nutrients (List.replicate n (some r)) = List.replicate n r
  | 0 => rfl
  | n + 1 => by
    rw [List.replicate_succ, qualifying, if_neg hr, qualifying_replicate nutrients r hr n,
      List.replicate_succ]

/-- Copies of a record with nutrients hold no record without nutrients. -/
theorem countEmpty_replicate {α : Type} (nutrients : α → List FoodNutrient) (r : α)
    (hr : (nutrients r).length ≠ 0) :
    ∀ n, countEmpty nutrients (List.replicate n (some r)) = 0
  | 0 => rfl
  | n + 1 => by
    rw [List.replicate_succ, countEmpty, if_neg hr, countEmpty_replicate nutrients r hr n]

/-- A longer prefix of a source has at least as many qualifying records. -/
theorem qualifying_take_mono {α : Type} (nutrients : α → List FoodNutrient)
    (docs : List (Option α)) (p q : Nat) (h : p ≤ q) :
    (qualifying nutrients (docs.take p)).length
      ≤ (qualifying nutrients (docs.take q)).length := by
  have e := List.take_append_drop p (docs.take q)
  rw [List.take_take, Nat.min_eq_left h] at e
  rw [← e, qualifying_append, List.length_append]
  exact Nat.le_add_right _ _

/-- The documents before a qualifying record hold fewer qualifying records than the
documents up to and including it. -/
theorem qualifying_take_lt {α : Type} (nutrients : α → List FoodNutrient)
    (docs : List (Option α)) (n : Nat) (r : α) (hn : docs[n]? = some (some r))
    (hr : (nutrients r).length ≠ 0) (p : Nat) (hp : p < n + 1) :
    (qualifying nutrients (docs.take p)).length
      < (qualifying nutrients (docs.take (n + 1))).length := by
  have h1 := qualifying_take_mono nutrients docs p n (Nat.le_of_lt_succ hp)
  have h2 : qualifying nutrients (docs.take (n + 1))
      = qualifying nutrients (docs.take n) ++ [r] := by
    rw [List.take_succ, hn, qualifying_append]
    simp [qualifying, hr]
  rw [h2, List.length_append, List.length_singleton]
  omega

/-- Copies of a record with nutrients that do not fill the batch are mapped with
consecutive identifiers and held, without a bulk write. -/
theorem importLoop_replicate {α : Type} (nutrients : α → List FoodNutrient)
    (mapFood : α → Nat → Time → Food) (foodColl : Sink) (clock : Nat → Time) (r : α)
    (hr : (nutrients r).length ≠ 0) (rest : List (Option α)) :
    ∀ (n : Nat) (st : LoopState), st.batch.length + n < batchSize →
      importLoop nutrients mapFood foodColl clock (List.replicate n (some r) ++ rest) st
        = importLoop nutrients mapFood foodColl clock rest
            { st with
              nextID := st.nextID + n,
              batch := st.batch ++ mapFrom mapFood clock st.nextID (List.replicate n r),
              pulled := st.pulled + n }
  | 0, st, _ => by
    simp [mapFrom]
  | n + 1, st, h => by
    have hfull : ¬ (st.batch ++ [mapFood r st.nextID (clock st.nextID)]).length
        ≥ batchSize := by
      rw [List.length_append, List.length_singleton]
      omega
    rw [List.replicate_succ, List.cons_append, importLoop, if_neg hr]
    simp only []
    rw [if_neg hfull, importLoop_replicate nutrients mapFood foodColl clock r hr rest n]
    · simp only [List.replicate_succ, mapFrom, List.append_assoc, List.singleton_append,
        Nat.add_assoc, Nat.add_comm 1 n]
    · show (st.batch ++ [mapFood r st.nextID (clock st.nextID)]).length + n < batchSize
      rw [List.length_append, List.length_singleton]
      omega

/-- A source that opens with `batchSize` copies of a record with nutrients, against a
sink whose first bulk write fails: the run stops at the first flush, with the batch of
those records as its only bulk write, nothing imported, nothing skipped and exactly
`batchSize` documents pulled, whatever follows in the source. -/
theorem importLoop_stops_at_first_flush {α : Type} (nutrients : α → List FoodNutrient)
    (mapFood : α → Nat → Time → Food) (clock : Nat → Time) (r : α)
    (hr : (nutrients r).length ≠ 0) (rest : List (Option α)) :
    importLoop nutrients mapFood (sinkFailAt 0) clock
        (List.replicate batchSize (some r) ++ rest) LoopState.init
      = { imported := 0,
          skipped := 0,
          err := some ("failed to insert batch: " ++ "write error"),
          calls := [mapFrom mapFood clock 1 (List.replicate batchSize r)],
          pulled := batchSize } := by
  have e1 : List.replicate batchSize (some r) ++ rest
      = List.replicate 999 (some r) ++ (some r :: rest) := by
    show List.replicate (999 + 1) (some r) ++ rest = _
    rw [List.replicate_succ', List.append_assoc, List.singleton_append]
  have e2 : mapFrom mapFood clock 1 (List.replicate batchSize r)
      = mapFrom mapFood clock 1 (List.replicate 999 r) ++ [mapFood r 1000 (clock 1000)] := by
    show mapFrom mapFood clock 1 (List.replicate (999 + 1) r) = _
    rw [List.replicate_succ', mapFrom_append, List.length_replicate]
    rfl
  have hfull : (LoopState.init.batch
      ++ mapFrom mapFood clock LoopState.init.nextID (List.replicate 999 r)
      ++ [mapFood r (LoopState.init.nextID + 999) (clock (LoopState.init.nextID + 999))]).length
      ≥ batchSize := by
    rw [List.length_append, List.length_append, mapFrom_length, List.length_replicate,
      List.length_singleton]
    decide
  rw [e1, importLoop_replicate nutrients mapFood (sinkFailAt 0) clock r hr _ 999
    LoopState.init (by decide), importLoop, if_neg hr]
  simp only []
  rw [if_pos hfull, e2]
  rfl

/-- A run whose only bulk write is `b` has handed the sink as many records as `b`
holds. -/
theorem flatten_length_of_only (calls : List (List Food)) (b : List Food)
    (hk : calls[0]? = some b) (hlen : 0 + 1 = calls.length) :
    calls.flatten.length = b.length := by
  match calls, hk, hlen with
  | [c], hk, _ =>
    rw [List.getElem?_cons_zero] at hk
    rw [Option.some.inj hk]
    simp
  | [], _, hlen => simp at hlen
  | _ :: _ :: _, _, hlen => simp at hlen

/-- Over a source that opens with `batchSize` copies of a record with nutrients, the
only count of documents pulled that accounts for one bulk write of `batchSize` records,
and that no shorter prefix accounts for, is `batchSize`. -/
theorem pulled_of_first_flush {α : Type} (nutrients : α → List FoodNutrient) (r : α)
    (hr : (nutrients r).length ≠ 0) (rest : List (Option α)) (written pulled : Nat)
    (hw : written = batchSize)
    (hjoin : written
      = (qualifying nutrients
          ((List.replicate batchSize (some r) ++ rest).take pulled)).length)
    (hmin : ∀ p, p < pulled →
      (qualifying nutrients ((List.replicate batchSize (some r) ++ rest).take p)).length
        < written) :
    pulled = batchSize := by
  have hfirst : (qualifying nutrients
      ((List.replicate batchSize (some r) ++ rest).take batchSize)).length = batchSize := by
    rw [List.take_left' (List.length_replicate _ _), qualifying_replicate nutrients r hr,
      List.length_replicate]
  have hle : (qualifying nutrients
      ((List.replicate batchSize (some r) ++ rest).take pulled)).length ≤ pulled := by
    have h1 := length_eq_counts nutrients
      ((List.replicate batchSize (some r) ++ rest).take pulled)
    have h2 := List.length_take_le pulled (List.replicate batchSize (some r) ++ rest)
    omega
  rcases Nat.lt_trichotomy pulled batchSize with h | h | h
  · omega
  · exact h
  · have := hmin batchSize h
    omega

/-- What the shared loop does when a bulk write fails, and where it stops. -/
theorem importLoop_of_failed_write {α : Type} (nutrients : α → List FoodNutrient)
    (mapFood : α → Nat → Time → Food) (foodColl : Sink) (clock : Nat → Time)
    (docs : List (Option α)) (k : Nat) (b : List Food)
    (hk : (importLoop nutrients mapFood foodColl clock docs LoopState.init).calls[k]?
      = some b)
    (hb : foodColl k b ≠ none) :
    (importLoop nutrients mapFood foodColl clock docs LoopState.init).err ≠ none ∧
      k + 1 = (importLoop nutrients mapFood foodColl clock docs
        LoopState.init).calls.length ∧
      (importLoop nutrients mapFood foodColl clock docs LoopState.init).imported
        = ((importLoop nutrients mapFood foodColl clock docs
            LoopState.init).calls.take k).flatten.length ∧
      (∀ j c, ((importLoop nutrients mapFood foodColl clock docs
          LoopState.init).calls.take k)[j]? = some c → foodColl j c = none) ∧
      (importLoop nutrients mapFood foodColl clock docs LoopState.init).skipped
        = countEmpty nutrients (docs.take
            (importLoop nutrients mapFood foodColl clock docs LoopState.init).pulled) ∧
      ((importLoop nutrients mapFood foodColl clock docs LoopState.init).pulled
          < docs.length →
        ∀ other : List (Option α),
          importLoop nutrients mapFood foodColl clock
            (docs.take (importLoop nutrients mapFood foodColl clock docs
              LoopState.init).pulled ++ other) LoopState.init
          = importLoop nutrients mapFood foodColl clock docs LoopState.init) ∧
      (importLoop nutrients mapFood foodColl clock docs LoopState.init).calls.flatten
        = mapFrom mapFood clock 1 (qualifying nutrients (docs.take
            (importLoop nutrients mapFood foodColl clock docs LoopState.init).pulled)) ∧
      b.length ≤ batchSize ∧
      (b.length < batchSize →
        (importLoop nutrients mapFood foodColl clock docs LoopState.init).pulled
          = docs.length) ∧
      (b.length = batchSize →
        0 < (importLoop nutrients mapFood foodColl clock docs LoopState.init).pulled ∧
        (∃ r, docs[(importLoop nutrients mapFood foodColl clock docs
              LoopState.init).pulled - 1]? = some (some r) ∧
          (nutrients r).length ≠ 0) ∧
        (∀ p, p < (importLoop nutrients mapFood foodColl clock docs
              LoopState.init).pulled →
          (qualifying nutrients (docs.take p)).length
            < (importLoop nutrients mapFood foodColl clock docs
                LoopState.init).calls.flatten.length) ∧
        ∀ other : List (Option α),
          importLoop nutrients mapFood foodColl clock
            (docs.take (importLoop nutrients mapFood foodColl clock docs
              LoopState.init).pulled ++ other) LoopState.init
          = importLoop nutrients mapFood foodColl clock docs LoopState.init) := by
  have spec := importLoop_init_spec nutrients mapFood foodColl clock docs
  obtain ⟨h1, h2, h3, h4⟩ := spec.of_failed_write k b hk hb
  obtain ⟨done, last, hcalls, hstop⟩ :=
    importLoop_stop nutrients mapFood foodColl clock docs LoopState.init (by decide) h1
  have hlast : last = b := by
    rw [hcalls] at hk h2
    rw [List.length_append, List.length_singleton] at h2
    have hkd : k = done.length := by omega
    rw [hkd, List.getElem?_append_right (Nat.le_refl _), Nat.sub_self] at hk
    exact Option.some.inj hk
  rw [hlast] at hstop
  have h0 : LoopState.init.pulled = 0 := rfl
  rw [h0] at hstop
  simp only [Nat.zero_add, Nat.sub_zero] at hstop
  refine ⟨h1, h2, h3, h4, spec.skipped, fun hlt other => ?_, spec.joined, ?_, fun hlt => ?_,
    fun hfull => ?_⟩
  · have h := importLoop_unpulled nutrients mapFood foodColl clock docs LoopState.init
      (by simpa [LoopState.init] using hlt) other
    simpa [LoopState.init] using h
  · rcases hstop with ⟨h, _⟩ | ⟨h, _⟩
    · exact Nat.le_of_lt h
    · exact Nat.le_of_eq h
  · rcases hstop with ⟨_, h⟩ | ⟨h, _⟩
    · exact h
    · omega
  · rcases hstop with ⟨h, _⟩ | ⟨_, hpos, ⟨r, hr, hne⟩, hother⟩
    · omega
    · refine ⟨hpos, ⟨r, hr, hne⟩, fun p hp => ?_, hother⟩
      have hq := qualifying_take_lt nutrients docs
        ((importLoop nutrients mapFood foodColl clock docs LoopState.init).pulled - 1)
        r hr hne p (by omega)
      rw [Nat.sub_add_cancel hpos] at hq
      rw [spec.joined, mapFrom_length]
      exact hq

/-- C6. When a bulk write of either import function fails, the function returns a
non-nil error and the failed write is its last bulk write. `imported` is the total size
of the batches written before it, all of which succeeded, and `skipped` is the number
of records without nutrients among the documents pulled. The documents pulled are
exactly those whose records were handed to the sink: the bulk writes together hold the
mappings of the qualifying records among the documents pulled, with consecutive
identifiers from 1. A failed write of a batch below `batchSize` is the final insert,
which comes after every document was pulled. A failed write of a batch of `batchSize`
stops the cursor at the record that filled the batch: the last document pulled is a
qualifying record, no shorter prefix of the source holds as many qualifying records as
the bulk writes hold records, and the documents behind it have no influence on the
run. -/
theorem sink_failure_aborts :
    (∀ (docs : List (Option SurveyFood)) (foodColl : Sink) (clock : Nat → Time)
        (k : Nat) (b : List Food),
      (ImportSurveyFoods (.ok docs) foodColl clock).calls[k]? = some b →
      foodColl k b ≠ none →
      (ImportSurveyFoods (.ok docs) foodColl clock).err ≠ none ∧
        k + 1 = (ImportSurveyFoods (.ok docs) foodColl clock).calls.length ∧
        (ImportSurveyFoods (.ok docs) foodColl clock).imported
          = ((ImportSurveyFoods (.ok docs) foodColl clock).calls.take k).flatten.length ∧
        (∀ j c, ((ImportSurveyFoods (.ok docs) foodColl clock).calls.take k)[j]? = some c →
          foodColl j c = none) ∧
        (ImportSurveyFoods (.ok docs) foodColl clock).skipped
          = countEmpty SurveyFood.FoodNutrients
              (docs.take (ImportSurveyFoods (.ok docs) foodColl clock).pulled) ∧
        ((ImportSurveyFoods (.ok docs) foodColl clock).pulled < docs.length →
          ∀ other : List (Option SurveyFood),
            ImportSurveyFoods
              (.ok (docs.take (ImportSurveyFoods (.ok docs) foodColl clock).pulled ++ other))
              foodColl clock
            = ImportSurveyFoods (.ok docs) foodColl clock) ∧
        (ImportSurveyFoods (.ok docs) foodColl clock).calls.flatten
          = mapFrom MapSurveyFood clock 1 (qualifying SurveyFood.FoodNutrients
              (docs.take (ImportSurveyFoods (.ok docs) foodColl clock).pulled)) ∧
        b.length ≤ batchSize ∧
        (b.length < batchSize →
          (ImportSurveyFoods (.ok docs) foodColl clock).pulled = docs.length) ∧
        (b.length = batchSize →
          0 < (ImportSurveyFoods (.ok docs) foodColl clock).pulled ∧
          (∃ r, docs[(ImportSurveyFoods (.ok docs) foodColl clock).pulled - 1]?
              = some (some r) ∧
            (SurveyFood.FoodNutrients r).length ≠ 0) ∧
          (∀ p, p < (ImportSurveyFoods (.ok docs) foodColl clock).pulled →
            (qualifying SurveyFood.FoodNutrients (docs.take p)).length
              < (ImportSurveyFoods (.ok docs) foodColl clock).calls.flatten.length) ∧
          ∀ other : List (Option SurveyFood),
            ImportSurveyFoods
              (.ok (docs.take (ImportSurveyFoods (.ok docs) foodColl clock).pulled ++ other))
              foodColl clock
            = ImportSurveyFoods (.ok docs) foodColl clock)) ∧
    (∀ (docs : List (Option BrandedFood)) (foodColl : Sink) (clock : Nat → Time)
        (k : Nat) (b : List Food),
      (ImportBrandedFoods (.ok docs) foodColl clock).calls[k]? = some b →
      foodColl k b ≠ none →
      (ImportBrandedFoods (.ok docs) foodColl clock).err ≠ none ∧
        k + 1 = (ImportBrandedFoods (.ok docs) foodColl clock).calls.length ∧
        (ImportBrandedFoods (.ok docs) foodColl clock).imported
          = ((ImportBrandedFoods (.ok docs) foodColl clock).calls.take k).flatten.length ∧
        (∀ j c, ((ImportBrandedFoods (.ok docs) foodColl clock).calls.take k)[j]? = some c →
          foodColl j c = none) ∧
        (ImportBrandedFoods (.ok docs) foodColl clock).skipped
          = countEmpty BrandedFood.FoodNutrients
              (docs.take (ImportBrandedFoods (.ok docs) foodColl clock).pulled) ∧
        ((ImportBrandedFoods (.ok docs) foodColl clock).pulled < docs.length →
          ∀ other : List (Option BrandedFood),
            ImportBrandedFoods
              (.ok (docs.take (ImportBrandedFoods (.ok docs) foodColl clock).pulled ++ other))
              foodColl clock
            = ImportBrandedFoods (.ok docs) foodColl clock) ∧
        (ImportBrandedFoods (.ok docs) foodColl clock).calls.flatten
          = mapFrom MapBrandedFood clock 1 (qualifying BrandedFood.FoodNutrients
              (docs.take (ImportBrandedFoods (.ok docs) foodColl clock).pulled)) ∧
        b.length ≤ batchSize ∧
        (b.length < batchSize →
          (ImportBrandedFoods (.ok docs) foodColl clock).pulled = docs.length) ∧
        (b.length = batchSize →
          0 < (ImportBrandedFoods (.ok docs) foodColl clock).pulled ∧
          (∃ r, docs[(ImportBrandedFoods (.ok docs) foodColl clock).pulled - 1]?
              = some (some r) ∧
            (BrandedFood.FoodNutrients r).length ≠ 0) ∧
          (∀ p, p < (ImportBrandedFoods (.ok docs) foodColl clock).pulled →
            (qualifying BrandedFood.FoodNutrients (docs.take p)).length
              < (ImportBrandedFoods (.ok docs) foodColl clock).calls.flatten.length) ∧
          ∀ other : List (Option BrandedFood),
            ImportBrandedFoods
              (.ok (docs.take (ImportBrandedFoods (.ok docs) foodColl clock).pulled ++ other))
              foodColl clock
            = ImportBrandedFoods (.ok docs) foodColl clock)) := by
  refine ⟨fun docs foodColl clock k b => ?_, fun docs foodColl clock k b => ?_⟩
  · simp only [ImportSurveyFoods_ok]
    exact importLoop_of_failed_write _ _ _ _ docs k b
  · simp only [ImportBrandedFoods_ok]
    exact importLoop_of_failed_write _ _ _ _ docs k b

set_option maxRecDepth 8192 in
/-- C6, at a failure inside the cursor loop and at a failure of the final insert, for
both import functions. Over a source of 1004 documents that opens with 1000 qualifying
records, against a sink whose first bulk write fails, the run returns an error after
one bulk write with `imported = 0`, `skipped = 0` and exactly 1000 documents pulled:
the record without nutrients behind the failed batch is neither pulled nor counted.
Over a source of six documents with three qualifying records, against a sink whose
every bulk write fails, the only bulk write is the final one, after all six documents
were pulled, and the run returns an error with `imported = 0` and `skipped = 1`. -/
theorem sink_failure_aborts_witness :
    ((stoppedSource surveyRecord surveyEmpty).length = 1004 ∧
      (ImportSurveyFoods (.ok (stoppedSource surveyRecord surveyEmpty)) (sinkFailAt 0)
        sampleClock).err ≠ none ∧
      (ImportSurveyFoods (.ok (stoppedSource surveyRecord surveyEmpty)) (sinkFailAt 0)
        sampleClock).calls.length = 1 ∧
      (ImportSurveyFoods (.ok (stoppedSource surveyRecord surveyEmpty)) (sinkFailAt 0)
        sampleClock).imported = 0 ∧
      (ImportSurveyFoods (.ok (stoppedSource surveyRecord surveyEmpty)) (sinkFailAt 0)
        sampleClock).skipped = 0 ∧
      (ImportSurveyFoods (.ok (stoppedSource surveyRecord surveyEmpty)) (sinkFailAt 0)
        sampleClock).pulled = 1000) ∧
    ((stoppedSource brandedRecord brandedEmpty).length = 1004 ∧
      (ImportBrandedFoods (.ok (stoppedSource brandedRecord brandedEmpty)) (sinkFailAt 0)
        sampleClock).err ≠ none ∧
      (ImportBrandedFoods (.ok (stoppedSource brandedRecord brandedEmpty)) (sinkFailAt 0)
        sampleClock).calls.length = 1 ∧
      (ImportBrandedFoods (.ok (stoppedSource brandedRecord brandedEmpty)) (sinkFailAt 0)
        sampleClock).imported = 0 ∧
      (ImportBrandedFoods (.ok (stoppedSource brandedRecord brandedEmpty)) (sinkFailAt 0)
        sampleClock).skipped = 0 ∧
      (ImportBrandedFoods (.ok (stoppedSource brandedRecord brandedEmpty)) (sinkFailAt 0)
        sampleClock).pulled = 1000) ∧
    ((ImportSurveyFoods (.ok (mixedSource surveyRecord surveyEmpty)) sinkFail
        sampleClock).err ≠ none ∧
      (ImportSurveyFoods (.ok (mixedSource surveyRecord surveyEmpty)) sinkFail
        sampleClock).calls.length = 1 ∧
      (ImportSurveyFoods (.ok (mixedSource surveyRecord surveyEmpty)) sinkFail
        sampleClock).imported = 0 ∧
      (ImportSurveyFoods (.ok (mixedSource surveyRecord surveyEmpty)) sinkFail
        sampleClock).skipped = 1 ∧
      (ImportSurveyFoods (.ok (mixedSource surveyRecord surveyEmpty)) sinkFail
        sampleClock).pulled = 6) ∧
    ((ImportBrandedFoods (.ok (mixedSource brandedRecord brandedEmpty)) sinkFail
        sampleClock).err ≠ none ∧
      (ImportBrandedFoods (.ok (mixedSource brandedRecord brandedEmpty)) sinkFail
        sampleClock).calls.length = 1 ∧
      (ImportBrandedFoods (.ok (mixedSource brandedRecord brandedEmpty)) sinkFail
        sampleClock).imported = 0 ∧
      (ImportBrandedFoods (.ok (mixedSource brandedRecord brandedEmpty)) sinkFail
        sampleClock).skipped = 1 ∧
      (ImportBrandedFoods (.ok (mixedSource brandedRecord brandedEmpty)) sinkFail
        sampleClock).pulled = 6) := by
  have hs : (SurveyFood.FoodNutrients surveyRecord).length ≠ 0 := by decide
  have hbr : (BrandedFood.FoodNutrients brandedRecord).length ≠ 0 := by decide
  have hlen : ∀ {α : Type} (record empty : α),
      (stoppedSource record empty).length = 1004 := by
    intro α record empty
    rw [stoppedSource, List.length_append, List.length_replicate]
    rfl
  have hsk : ∀ {α : Type} (nutrients : α → List FoodNutrient) (record empty : α),
      (nutrients record).length ≠ 0 →
      countEmpty nutrients ((stoppedSource record empty).take batchSize) = 0 := by
    intro α nutrients record empty h
    rw [stoppedSource, List.take_left' (List.length_replicate _ _),
      countEmpty_replicate nutrients record h]
  have hkS : (ImportSurveyFoods (.ok (stoppedSource surveyRecord surveyEmpty)) (sinkFailAt 0)
      sampleClock).calls[0]?
      = some (mapFrom MapSurveyFood sampleClock 1 (List.replicate batchSize surveyRecord)) := by
    rw [ImportSurveyFoods_ok, stoppedSource, importLoop_stops_at_first_flush _ _ _ _ hs]
    rfl
  have hkB : (ImportBrandedFoods (.ok (stoppedSource brandedRecord brandedEmpty))
      (sinkFailAt 0) sampleClock).calls[0]?
      = some (mapFrom MapBrandedFood sampleClock 1
          (List.replicate batchSize brandedRecord)) := by
    rw [ImportBrandedFoods_ok, stoppedSource, importLoop_stops_at_first_flush _ _ _ _ hbr]
    rfl
  have hfS : (mapFrom MapSurveyFood sampleClock 1
      (List.replicate batchSize surveyRecord)).length = batchSize := by
    rw [mapFrom_length, List.length_replicate]
  have hfB : (mapFrom MapBrandedFood sampleClock 1
      (List.replicate batchSize brandedRecord)).length = batchSize := by
    rw [mapFrom_length, List.length_replicate]
  obtain ⟨f1, f2, f3, _, f5, _, f7, _, _, f10⟩ := sink_failure_aborts.1
    (stoppedSource surveyRecord surveyEmpty) (sinkFailAt 0) sampleClock 0
    (mapFrom MapSurveyFood sampleClock 1 (List.replicate batchSize surveyRecord))
    hkS (by simp [sinkFailAt])
  obtain ⟨g1, g2, g3, _, g5, _, g7, _, _, g10⟩ := sink_failure_aborts.2
    (stoppedSource brandedRecord brandedEmpty) (sinkFailAt 0) sampleClock 0
    (mapFrom MapBrandedFood sampleClock 1 (List.replicate batchSize brandedRecord))
    hkB (by simp [sinkFailAt])
  obtain ⟨s1, s2, s3, _, s5, _, _, _, s9, _⟩ := sink_failure_aborts.1
    (mixedSource surveyRecord surveyEmpty) sinkFail sampleClock 0
    (mapFrom MapSurveyFood sampleClock 1 [surveyRecord, surveyRecord, surveyRecord])
    (by decide) (by decide)
  obtain ⟨b1, b2, b3, _, b5, _, _, _, b9, _⟩ := sink_failure_aborts.2
    (mixedSource brandedRecord brandedEmpty) sinkFail sampleClock 0
    (mapFrom MapBrandedFood sampleClock 1 [brandedRecord, brandedRecord, brandedRecord])
    (by decide) (by decide)
  have fp : (ImportSurveyFoods (.ok (stoppedSource surveyRecord surveyEmpty)) (sinkFailAt 0)
      sampleClock).pulled = batchSize :=
    pulled_of_first_flush SurveyFood.FoodNutrients surveyRecord hs
      [some surveyEmpty, some surveyRecord, none, some surveyEmpty] _ _
      ((flatten_length_of_only _ _ hkS f2).trans hfS)
      ((congrArg List.length f7).trans (mapFrom_length _ _ _ _)) (f10 hfS).2.2.1
  have gp : (ImportBrandedFoods (.ok (stoppedSource brandedRecord brandedEmpty))
      (sinkFailAt 0) sampleClock).pulled = batchSize :=
    pulled_of_first_flush BrandedFood.FoodNutrients brandedRecord hbr
      [some brandedEmpty, some brandedRecord, none, some brandedEmpty] _ _
      ((flatten_length_of_only _ _ hkB g2).trans hfB)
      ((congrArg List.length g7).trans (mapFrom_length _ _ _ _)) (g10 hfB).2.2.1
  refine ⟨⟨hlen _ _, f1, f2.symm, f3.trans (by simp), f5.trans ?_, fp⟩,
    ⟨hlen _ _, g1, g2.symm, g3.trans (by simp), g5.trans ?_, gp⟩,
    ⟨s1, s2.symm, s3.trans (by simp), s5.trans (by decide), (s9 (by decide)).trans rfl⟩,
    ⟨b1, b2.symm, b3.trans (by simp), b5.trans (by decide), (b9 (by decide)).trans rfl⟩⟩
  · rw [fp]
    exact hsk _ _ _ hs
  · rw [gp]
    exact hsk _ _ _ hbr

/-- What the shared loop does with records without nutrients. -/
theorem importLoop_filter {α : Type} (nutrients : α → List FoodNutrient)
    (mapFood : α → Nat → Time → Food) (foodColl : Sink) (clock : Nat → Time)
    (docs : List (Option α)) :
    (importLoop nutrients mapFood foodColl clock docs LoopState.init).calls.flatten
        = mapFrom mapFood clock 1 (qualifying nutrients (docs.take
            (importLoop nutrients mapFood foodColl clock docs LoopState.init).pulled)) ∧
      (∀ f ∈ (importLoop nutrients mapFood foodColl clock docs
          LoopState.init).calls.flatten,
        ∃ r id, some r ∈ docs ∧ (nutrients r).length ≠ 0 ∧ f = mapFood r id (clock id)) ∧
      (importLoop nutrients mapFood foodColl clock docs LoopState.init).skipped
        = countEmpty nutrients (docs.take
            (importLoop nutrients mapFood foodColl clock docs LoopState.init).pulled) ∧
      ((importLoop nutrients mapFood foodColl clock docs LoopState.init).err = none →
        (importLoop nutrients mapFood foodColl clock docs LoopState.init).skipped
          = countEmpty nutrients docs) := by
  have spec := importLoop_init_spec nutrients mapFood foodColl clock docs
  refine ⟨spec.joined, fun f hf => ?_, spec.skipped, fun h => (spec.flatten_of_ok h).2.2⟩
  rw [spec.joined] at hf
  obtain ⟨r, hr, i, hi⟩ := mem_mapFrom mapFood clock f _ _ hf
  obtain ⟨h1, h2⟩ := (mem_qualifying nutrients r _).mp hr
  exact ⟨r, i, List.mem_of_mem_take h1, h2, hi⟩

/-- C7. In every run of either import function the records handed to the sink are the
mappings, with the identifiers 1, 2, ... in order, of the pulled documents that decode
to a record with a non-empty nutrient list, so a record without nutrients is never
mapped, is in no batch and takes no identifier; `skipped` is the number of records
without nutrients among the pulled documents, and in a run without error it is the
number of decodable records without nutrients of the whole source. -/
theorem empty_nutrient_filter :
    (∀ (docs : List (Option SurveyFood)) (foodColl : Sink) (clock : Nat → Time),
      (ImportSurveyFoods (.ok docs) foodColl clock).calls.flatten
          = mapFrom MapSurveyFood clock 1 (qualifying SurveyFood.FoodNutrients (docs.take
              (ImportSurveyFoods (.ok docs) foodColl clock).pulled)) ∧
        (∀ f ∈ (ImportSurveyFoods (.ok docs) foodColl clock).calls.flatten,
          ∃ r id, some r ∈ docs ∧ r.FoodNutrients.length ≠ 0 ∧
            f = MapSurveyFood r id (clock id)) ∧
        (ImportSurveyFoods (.ok docs) foodColl clock).skipped
          = countEmpty SurveyFood.FoodNutrients (docs.take
              (ImportSurveyFoods (.ok docs) foodColl clock).pulled) ∧
        ((ImportSurveyFoods (.ok docs) foodColl clock).err = none →
          (ImportSurveyFoods (.ok docs) foodColl clock).skipped
            = countEmpty SurveyFood.FoodNutrients docs)) ∧
    (∀ (docs : List (Option BrandedFood)) (foodColl : Sink) (clock : Nat → Time),
      (ImportBrandedFoods (.ok docs) foodColl clock).calls.flatten
          = mapFrom MapBrandedFood clock 1 (qualifying BrandedFood.FoodNutrients (docs.take
              (ImportBrandedFoods (.ok docs) foodColl clock).pulled)) ∧
        (∀ f ∈ (ImportBrandedFoods (.ok docs) foodColl clock).calls.flatten,
          ∃ r id, some r ∈ docs ∧ r.FoodNutrients.length ≠ 0 ∧
            f = MapBrandedFood r id (clock id)) ∧
        (ImportBrandedFoods (.ok docs) foodColl clock).skipped
          = countEmpty BrandedFood.FoodNutrients (docs.take
              (ImportBrandedFoods (.ok docs) foodColl clock).pulled) ∧
        ((ImportBrandedFoods (.ok docs) foodColl clock).err = none →
          (ImportBrandedFoods (.ok docs) foodColl clock).skipped
            = countEmpty BrandedFood.FoodNutrients docs)) := by
  refine ⟨fun docs foodColl clock => ?_, fun docs foodColl clock => ?_⟩
  · simp only [ImportSurveyFoods_ok]
    exact importLoop_filter _ _ _ _ docs
  · simp only [ImportBrandedFoods_ok]
    exact importLoop_filter _ _ _ _ docs

set_option maxRecDepth 8192 in
/-- C7, at sources with three qualifying records, two undecodable documents and one
record without nutrients: `skipped = 1` and the sink receives the three mapped
qualifying records with identifiers 1, 2, 3, for both import functions. -/
theorem empty_nutrient_filter_witness :
    ((ImportSurveyFoods (.ok (mixedSource surveyRecord surveyEmpty)) sinkOk
        sampleClock).skipped = 1 ∧
      (ImportSurveyFoods (.ok (mixedSource surveyRecord surveyEmpty)) sinkOk
        sampleClock).calls.flatten
        = [MapSurveyFood surveyRecord 1 sampleTime, MapSurveyFood surveyRecord 2 sampleTime,
            MapSurveyFood surveyRecord 3 sampleTime]) ∧
    ((ImportBrandedFoods (.ok (mixedSource brandedRecord brandedEmpty)) sinkOk
        sampleClock).skipped = 1 ∧
      (ImportBrandedFoods (.ok (mixedSource brandedRecord brandedEmpty)) sinkOk
        sampleClock).calls.flatten
        = [MapBrandedFood brandedRecord 1 sampleTime,
            MapBrandedFood brandedRecord 2 sampleTime,
            MapBrandedFood brandedRecord 3 sampleTime]) :=
  ⟨⟨((empty_nutrient_filter.1 (mixedSource surveyRecord surveyEmpty) sinkOk
        sampleClock).2.2.2 (by decide)).trans (by decide),
      ((empty_nutrient_filter.1 (mixedSource surveyRecord surveyEmpty) sinkOk
        sampleClock).1).trans (by decide)⟩,
    ⟨((empty_nutrient_filter.2 (mixedSource brandedRecord brandedEmpty) sinkOk
        sampleClock).2.2.2 (by decide)).trans (by decide),
      ((empty_nutrient_filter.2 (mixedSource brandedRecord brandedEmpty) sinkOk
        sampleClock).1).trans (by decide)⟩⟩

/-- What the shared loop does with undecodable documents. -/
theorem importLoop_decode_failures {α : Type} (nutrients : α → List FoodNutrient)
    (mapFood : α → Nat → Time → Food) (foodColl : Sink) (clock : Nat → Time)
    (docs : List (Option α)) :
    ((importLoop nutrients mapFood foodColl clock docs LoopState.init).err = none →
      (importLoop nutrients mapFood foodColl clock docs LoopState.init).imported
          + (importLoop nutrients mapFood foodColl clock docs LoopState.init).skipped
        = docs.length - countUndecodable docs ∧
      (importLoop nutrients mapFood foodColl clock docs LoopState.init).pulled
        = docs.length ∧
      (importLoop nutrients mapFood foodColl clock docs LoopState.init).calls.flatten
        = mapFrom mapFood clock 1 (qualifying nutrients docs)) ∧
    (importLoop nutrients mapFood foodColl clock (decodable docs) LoopState.init).outcome
      = (importLoop nutrients mapFood foodColl clock docs LoopState.init).outcome := by
  have spec := importLoop_init_spec nutrients mapFood foodColl clock docs
  refine ⟨fun h => ?_, importLoop_outcome_decodable nutrients mapFood foodColl clock docs _⟩
  obtain ⟨e1, e2, e3⟩ := spec.flatten_of_ok h
  obtain ⟨p1, p2, _⟩ := spec.ok h
  refine ⟨?_, p1, e1⟩
  rw [p2, e2, e3]
  have := length_eq_counts nutrients docs
  omega

/-- C8. A document that fails to decode is counted neither as imported nor as skipped
and does not stop the stream: in every run of either import function without error over
`T` documents of which `D` fail to decode, `imported + skipped = T - D`, all `T`
documents are pulled and every qualifying record of the source reaches the sink; and in
every run, the returned triple and the bulk writes are those of the run over the
decodable documents alone. -/
theorem decode_failures_not_counted :
    (∀ (docs : List (Option SurveyFood)) (foodColl : Sink) (clock : Nat → Time),
      ((ImportSurveyFoods (.ok docs) foodColl clock).err = none →
        (ImportSurveyFoods (.ok docs) foodColl clock).imported
            + (ImportSurveyFoods (.ok docs) foodColl clock).skipped
          = docs.length - countUndecodable docs ∧
        (ImportSurveyFoods (.ok docs) foodColl clock).pulled = docs.length ∧
        (ImportSurveyFoods (.ok docs) foodColl clock).calls.flatten
          = mapFrom MapSurveyFood clock 1 (qualifying SurveyFood.FoodNutrients docs)) ∧
      (ImportSurveyFoods (.ok (decodable docs)) foodColl clock).outcome
        = (ImportSurveyFoods (.ok docs) foodColl clock).outcome) ∧
    (∀ (docs : List (Option BrandedFood)) (foodColl : Sink) (clock : Nat → Time),
      ((ImportBrandedFoods (.ok docs) foodColl clock).err = none →
        (ImportBrandedFoods (.ok docs) foodColl clock).imported
            + (ImportBrandedFoods (.ok docs) foodColl clock).skipped
          = docs.length - countUndecodable docs ∧
        (ImportBrandedFoods (.ok docs) foodColl clock).pulled = docs.length ∧
        (ImportBrandedFoods (.ok docs) foodColl clock).calls.flatten
          = mapFrom MapBrandedFood clock 1 (qualifying BrandedFood.FoodNutrients docs)) ∧
      (ImportBrandedFoods (.ok (decodable docs)) foodColl clock).outcome
        = (ImportBrandedFoods (.ok docs) foodColl clock).outcome) := by
  refine ⟨fun docs foodColl clock => ?_, fun docs foodColl clock => ?_⟩
  · simp only [ImportSurveyFoods_ok]
    exact importLoop_decode_failures _ _ _ _ docs
  · simp only [ImportBrandedFoods_ok]
    exact importLoop_decode_failures _ _ _ _ docs

set_option maxRecDepth 8192 in
/-- C8, at sources of six documents of which two fail to decode and one has no
nutrients: `imported + skipped = 4` and `imported = 3`, although the first document
already fails to decode, for both import functions. -/
theorem decode_failures_not_counted_witness :
    ((ImportSurveyFoods (.ok (mixedSource surveyRecord surveyEmpty)) sinkOk
        sampleClock).imported
      + (ImportSurveyFoods (.ok (mixedSource surveyRecord surveyEmpty)) sinkOk
        sampleClock).skipped = 4 ∧
      (ImportSurveyFoods (.ok (mixedSource surveyRecord surveyEmpty)) sinkOk
        sampleClock).imported = 3) ∧
    ((ImportBrandedFoods (.ok (mixedSource brandedRecord brandedEmpty)) sinkOk
        sampleClock).imported
      + (ImportBrandedFoods (.ok (mixedSource brandedRecord brandedEmpty)) sinkOk
        sampleClock).skipped = 4 ∧
      (ImportBrandedFoods (.ok (mixedSource brandedRecord brandedEmpty)) sinkOk
        sampleClock).imported = 3) :=
  ⟨⟨(((decode_failures_not_counted.1 (mixedSource surveyRecord surveyEmpty) sinkOk
        sampleClock).1 (by decide)).1).trans (by decide), by decide⟩,
    ⟨(((decode_failures_not_counted.2 (mixedSource brandedRecord brandedEmpty) sinkOk
        sampleClock).1 (by decide)).1).trans (by decide), by decide⟩⟩


/-! ## Claims about the record mapper, continued -/

/-- The fields outside the nutrient code table are not written by `mapNutrient`. -/
theorem mapNutrient_frame (nf : NutritionFacts) (c : Int) (a : F64) :
    (mapNutrient nf c a).FoodName = nf.FoodName ∧
      (mapNutrient nf c a).ServingSizeHousehold = nf.ServingSizeHousehold ∧
      (mapNutrient nf c a).ServingSizeG = nf.ServingSizeG ∧
      (mapNutrient nf c a).ServingsPerContainer = nf.ServingsPerContainer ∧
      (mapNutrient nf c a).AddedSugarsG = nf.AddedSugarsG ∧
      (mapNutrient nf c a).Ingredients = nf.Ingredients := by
  by_cases h1 : c = 1008
  · subst h1; exact ⟨rfl, rfl, rfl, rfl, rfl, rfl⟩
  by_cases h2 : c = 1003
  · subst h2; exact ⟨rfl, rfl, rfl, rfl, rfl, rfl⟩
  by_cases h3 : c = 1004
  · subst h3; exact ⟨rfl, rfl, rfl, rfl, rfl, rfl⟩
  by_cases h4 : c = 1258
  · subst h4; exact ⟨rfl, rfl, rfl, rfl, rfl, rfl⟩
  by_cases h5 : c = 1257
  · subst h5; exact ⟨rfl, rfl, rfl, rfl, rfl, rfl⟩
  by_cases h6 : c = 1253
  · subst h6; exact ⟨rfl, rfl, rfl, rfl, rfl, rfl⟩
  by_cases h7 : c = 1093
  · subst h7; exact ⟨rfl, rfl, rfl, rfl, rfl, rfl⟩
  by_cases h8 : c = 1005
  · subst h8; exact ⟨rfl, rfl, rfl, rfl, rfl, rfl⟩
  by_cases h9 : c = 1079
  · subst h9; exact ⟨rfl, rfl, rfl, rfl, rfl, rfl⟩
  by_cases h10 : c = 2000
  · subst h10; exact ⟨rfl, rfl, rfl, rfl, rfl, rfl⟩
  by_cases h11 : c = 1114
  · subst h11; exact ⟨rfl, rfl, rfl, rfl, rfl, rfl⟩
  by_cases h12 : c = 1087
  · subst h12; exact ⟨rfl, rfl, rfl, rfl, rfl, rfl⟩
  by_cases h13 : c = 1089
  · subst h13; exact ⟨rfl, rfl, rfl, rfl, rfl, rfl⟩
  by_cases h14 : c = 1092
  · subst h14; exact ⟨rfl, rfl, rfl, rfl, rfl, rfl⟩
  rw [mapNutrient_of_not_mem nf c a (by
    simp only [nutrientCodes, List.mem_cons, List.mem_singleton, List.not_mem_nil,
      or_false, not_or]
    exact ⟨h1, h2, h3, h4, h5, h6, h7, h8, h9, h10, h11, h12, h13, h14⟩)]
  exact ⟨rfl, rfl, rfl, rfl, rfl, rfl⟩

/-- The fields outside the nutrient code table are not written by the nutrient loops. -/
theorem routeAll_frame (norm : F64 → F64) :
    ∀ (ns : List FoodNutrient) (nf : NutritionFacts),
      (routeAll norm nf ns).FoodName = nf.FoodName ∧
        (routeAll norm nf ns).ServingSizeHousehold = nf.ServingSizeHousehold ∧
        (routeAll norm nf ns).ServingSizeG = nf.ServingSizeG ∧
        (routeAll norm nf ns).ServingsPerContainer = nf.ServingsPerContainer ∧
        (routeAll norm nf ns).AddedSugarsG = nf.AddedSugarsG ∧
        (routeAll norm nf ns).Ingredients = nf.Ingredients
  | [], _ => ⟨rfl, rfl, rfl, rfl, rfl, rfl⟩
  | n :: rest, nf => by
    obtain ⟨a1, a2, a3, a4, a5, a6⟩ :=
      routeAll_frame norm rest (mapNutrient nf n.Nutrient.ID (norm n.Amount))
    obtain ⟨b1, b2, b3, b4, b5, b6⟩ := mapNutrient_frame nf n.Nutrient.ID (norm n.Amount)
    rw [routeAll]
    exact ⟨a1.trans b1, a2.trans b2, a3.trans b3, a4.trans b4, a5.trans b5, a6.trans b6⟩

/-- C11. For each of the 14 codes of the nutrient code table and every amount,
`mapNutrient` returns the block it was given with the field of that code set to the
amount (a present value for trans fat) and every other field unchanged. -/
theorem mapNutrient_table :
    (∀ (nf : NutritionFacts) (a : F64), mapNutrient nf 1008 a = { nf with Calories := a }) ∧
    (∀ (nf : NutritionFacts) (a : F64), mapNutrient nf 1003 a = { nf with ProteinG := a }) ∧
    (∀ (nf : NutritionFacts) (a : F64), mapNutrient nf 1004 a = { nf with TotalFatG := a }) ∧
    (∀ (nf : NutritionFacts) (a : F64), mapNutrient nf 1258 a = { nf with SaturatedFatG := a }) ∧
    (∀ (nf : NutritionFacts) (a : F64), mapNutrient nf 1257 a = { nf with TransFatG := some a }) ∧
    (∀ (nf : NutritionFacts) (a : F64), mapNutrient nf 1253 a = { nf with CholesterolMG := a }) ∧
    (∀ (nf : NutritionFacts) (a : F64), mapNutrient nf 1093 a = { nf with SodiumMG := a }) ∧
    (∀ (nf : NutritionFacts) (a : F64), mapNutrient nf 1005 a = { nf with TotalCarbohydrateG := a }) ∧
    (∀ (nf : NutritionFacts) (a : F64), mapNutrient nf 1079 a = { nf with DietaryFiberG := a }) ∧
    (∀ (nf : NutritionFacts) (a : F64), mapNutrient nf 2000 a = { nf with TotalSugarsG := a }) ∧
    (∀ (nf : NutritionFacts) (a : F64), mapNutrient nf 1114 a = { nf with VitaminDMcg := a }) ∧
    (∀ (nf : NutritionFacts) (a : F64), mapNutrient nf 1087 a = { nf with CalciumMG := a }) ∧
    (∀ (nf : NutritionFacts) (a : F64), mapNutrient nf 1089 a = { nf with IronMG := a }) ∧
    (∀ (nf : NutritionFacts) (a : F64), mapNutrient nf 1092 a = { nf with PotassiumMG := a }) :=
  ⟨fun _ _ => rfl, fun _ _ => rfl, fun _ _ => rfl, fun _ _ => rfl, fun _ _ => rfl, fun _ _ => rfl, fun _ _ => rfl, fun _ _ => rfl, fun _ _ => rfl, fun _ _ => rfl, fun _ _ => rfl, fun _ _ => rfl, fun _ _ => rfl, fun _ _ => rfl⟩

/-- C12 (as amended). The verification type tag of an output record is `"USDAsurvey"`
when the record is mapped by the survey entry point and `"USDAbrand"` when it is mapped
by the branded entry point. -/
theorem verified_type_tag :
    (∀ (usda : SurveyFood) (id : Nat) (now : Time),
      (MapSurveyFood usda id now).VerifiedType = "USDAsurvey") ∧
    (∀ (usda : BrandedFood) (id : Nat) (now : Time),
      (MapBrandedFood usda id now).VerifiedType = "USDAbrand") := by
  refine ⟨fun usda id now => rfl, fun usda id now => ?_⟩
  unfold MapBrandedFood
  split_ifs <;> rfl

/-- C12 fails as stated: the tag of a survey output record is not `"USDA-survey"` and
the tag of a branded output record is not `"USDA-brand"`; the constants of package
`models` carry no hyphen. -/
theorem verified_type_tag_counterexample :
    (MapSurveyFood surveyRecord 1 sampleTime).VerifiedType ≠ "USDA-survey" ∧
      (MapBrandedFood brandedRecord 1 sampleTime).VerifiedType ≠ "USDA-brand" ∧
      (MapSurveyFood surveyRecord 1 sampleTime).VerifiedType = "USDAsurvey" ∧
      (MapBrandedFood brandedRecord 1 sampleTime).VerifiedType = "USDAbrand" := by
  decide

/-- The portion loop stops at the first portion with sequence number 1. -/
theorem portionLoop_first (nf : NutritionFacts) (p : FoodPortion) (post : List FoodPortion)
    (hp : p.SequenceNumber = 1) :
    ∀ pre : List FoodPortion, (∀ q ∈ pre, q.SequenceNumber ≠ 1) →
      portionLoop nf (pre ++ p :: post)
        = { nf with ServingSizeG := p.GramWeight,
                    ServingSizeHousehold := p.PortionDescription }
  | [], _ => by rw [List.nil_append, portionLoop, if_pos hp]
  | q :: pre, h => by
    rw [List.cons_append, portionLoop, if_neg (h q (List.mem_cons_self _ _))]
    exact portionLoop_first nf p post hp pre (fun r hr => h r (List.mem_cons_of_mem _ hr))

/-- Without a portion with sequence number 1 the portion loop changes nothing. -/
theorem portionLoop_none (nf : NutritionFacts) :
    ∀ ps : List FoodPortion, (∀ q ∈ ps, q.SequenceNumber ≠ 1) → portionLoop nf ps = nf
  | [], _ => rfl
  | q :: ps, h => by
    rw [portionLoop, if_neg (h q (List.mem_cons_self _ _))]
    exact portionLoop_none nf ps (fun r hr => h r (List.mem_cons_of_mem _ hr))

/-- C13. The serving size in grams and the household serving description of a survey
output record are the gram weight and the description of the first portion, in list
order, whose sequence number is 1; when no portion has sequence number 1 (as for an
empty portions list) they are 0 and the empty string. -/
theorem survey_primary_portion (usda : SurveyFood) (id : Nat) (now : Time) :
    ∃ nf, (MapSurveyFood usda id now).NutritionFacts = some nf ∧
      (∀ (pre post : List FoodPortion) (p : FoodPortion),
        usda.FoodPortions = pre ++ p :: post →
        (∀ q ∈ pre, q.SequenceNumber ≠ 1) → p.SequenceNumber = 1 →
        nf.ServingSizeG = p.GramWeight ∧ nf.ServingSizeHousehold = p.PortionDescription) ∧
      ((∀ q ∈ usda.FoodPortions, q.SequenceNumber ≠ 1) →
        nf.ServingSizeG = F64.zero ∧ nf.ServingSizeHousehold = "") := by
  refine ⟨_, MapSurveyFood_NutritionFacts usda id now, ?_, ?_⟩
  · intro pre post p hlist hpre hp
    unfold mapSurveyNutritionFacts
    simp only []
    rw [surveyNutrientLoop_eq, hlist, portionLoop_first _ p post hp pre hpre]
    obtain ⟨_, a2, a3, _⟩ := routeAll_frame (fun a => a) usda.FoodNutrients
      { ({ ({ FoodName := usda.Description, Ingredients := [] } : NutritionFacts) with
            ServingSizeG := p.GramWeight,
            ServingSizeHousehold := p.PortionDescription } : NutritionFacts) with
        ServingsPerContainer := 1 }
    exact ⟨a3, a2⟩
  · intro hnone
    unfold mapSurveyNutritionFacts
    simp only []
    rw [surveyNutrientLoop_eq, portionLoop_none _ _ hnone]
    obtain ⟨_, a2, a3, _⟩ := routeAll_frame (fun a => a) usda.FoodNutrients
      { ({ FoodName := usda.Description, Ingredients := [] } : NutritionFacts) with
        ServingsPerContainer := 1 }
    exact ⟨a3, a2⟩

set_option maxRecDepth 8192 in
/-- C13, at a record whose portions have the sequence numbers 2, 1, 1 (the first
portion with number 1 is taken) and at a record without portions (0 and ""). -/
theorem survey_primary_portion_witness :
    (∃ nf, (MapSurveyFood
        (sampleSurvey [sampleNutrient 1008 (F64.ofNat 61)]
          [⟨1, F64.ofNat 15, "1 tbsp", 2⟩, ⟨2, F64.ofNat 244, "1 cup", 1⟩,
            ⟨3, F64.ofNat 30, "1 fl oz", 1⟩]) 1 sampleTime).NutritionFacts = some nf ∧
      nf.ServingSizeG = F64.ofNat 244 ∧ nf.ServingSizeHousehold = "1 cup") ∧
    (∃ nf, (MapSurveyFood surveyRecord 1 sampleTime).NutritionFacts = some nf ∧
      nf.ServingSizeG = F64.zero ∧ nf.ServingSizeHousehold = "") := by
  obtain ⟨nf1, e1, h1, _⟩ := survey_primary_portion
    (sampleSurvey [sampleNutrient 1008 (F64.ofNat 61)]
      [⟨1, F64.ofNat 15, "1 tbsp", 2⟩, ⟨2, F64.ofNat 244, "1 cup", 1⟩,
        ⟨3, F64.ofNat 30, "1 fl oz", 1⟩]) 1 sampleTime
  obtain ⟨nf2, e2, _, h2⟩ := survey_primary_portion surveyRecord 1 sampleTime
  exact ⟨⟨nf1, e1, h1 [⟨1, F64.ofNat 15, "1 tbsp", 2⟩] [⟨3, F64.ofNat 30, "1 fl oz", 1⟩]
      ⟨2, F64.ofNat 244, "1 cup", 1⟩ rfl (by decide) rfl⟩,
    ⟨nf2, e2, h2 (by decide)⟩⟩

/-- C14 (as amended). The ingredients list of the output block is empty for every
survey record and for every branded record whose raw ingredients string is empty; for
every branded record whose raw ingredients string is not empty it is the list with that
string as its only element. -/
theorem ingredients_list :
    (∀ (usda : SurveyFood) (id : Nat) (now : Time),
      ∃ nf, (MapSurveyFood usda id now).NutritionFacts = some nf ∧ nf.Ingredients = []) ∧
    (∀ (usda : BrandedFood) (id : Nat) (now : Time),
      ∃ nf, (MapBrandedFood usda id now).NutritionFacts = some nf ∧
        (usda.Ingredients ≠ "" → nf.Ingredients = [usda.Ingredients]) ∧
        (usda.Ingredients = "" → nf.Ingredients = [])) := by
  refine ⟨fun usda id now => ⟨_, MapSurveyFood_NutritionFacts usda id now, ?_⟩,
    fun usda id now => ⟨_, MapBrandedFood_NutritionFacts usda id now, ?_, ?_⟩⟩
  · unfold mapSurveyNutritionFacts
    simp only []
    rw [surveyNutrientLoop_eq, (routeAll_frame _ _ _).2.2.2.2.2]
    obtain ⟨g, h, e⟩ := portionLoop_frame
      ({ FoodName := usda.Description, Ingredients := [] } : NutritionFacts)
      usda.FoodPortions
    rw [e]
  · intro hne
    unfold mapBrandedNutritionFacts
    simp only []
    rw [brandedNutrientLoop_eq, (routeAll_frame _ _ _).2.2.2.2.2, if_pos hne]
  · intro he
    unfold mapBrandedNutritionFacts
    simp only []
    rw [brandedNutrientLoop_eq, (routeAll_frame _ _ _).2.2.2.2.2, if_neg (not_not.mpr he)]

set_option maxRecDepth 8192 in
/-- C14 (as amended), at a branded record with the ingredients string "OATS" and at a
branded record with an empty ingredients string. -/
theorem ingredients_list_witness :
    (∃ nf, (MapBrandedFood brandedRecord 1 sampleTime).NutritionFacts = some nf ∧
      nf.Ingredients = ["OATS"]) ∧
    (∃ nf, (MapBrandedFood { brandedRecord with Ingredients := "" } 1
        sampleTime).NutritionFacts = some nf ∧ nf.Ingredients = []) := by
  obtain ⟨nf1, e1, h1, _⟩ := ingredients_list.2 brandedRecord 1 sampleTime
  obtain ⟨nf2, e2, _, h2⟩ :=
    ingredients_list.2 { brandedRecord with Ingredients := "" } 1 sampleTime
  exact ⟨⟨nf1, e1, h1 (by decide)⟩, ⟨nf2, e2, h2 rfl⟩⟩

set_option maxRecDepth 8192 in
/-- C14 fails as stated: for a branded record whose raw ingredients string is empty the
ingredients list of the output block is empty, not a single-element list. -/
theorem ingredients_list_counterexample :
    ∃ nf, (MapBrandedFood { brandedRecord with Ingredients := "" } 1
        sampleTime).NutritionFacts = some nf ∧
      nf.Ingredients = [] ∧ nf.Ingredients ≠ [""] ∧ nf.Ingredients.length ≠ 1 :=
  ⟨_, rfl, by decide, by decide, by decide⟩


/-- A successful `getnum` has consumed one or two digits. -/
theorem getnum_some (cs rest : List Char) (n : Nat) (h : getnum cs = some (n, rest)) :
    ∃ ds, cs = ds ++ rest ∧ (ds.length = 1 ∨ ds.length = 2) ∧
      ∀ c ∈ ds, isDigit c = true := by
  cases cs with
  | nil => simp [getnum] at h
  | cons c tl =>
    unfold getnum at h
    simp only [] at h
    by_cases hc : isDigit c = true
    · rw [if_pos hc] at h
      cases tl with
      | nil =>
        simp only [Option.some.injEq, Prod.mk.injEq] at h
        refine ⟨[c], ?_, Or.inl rfl, ?_⟩
        · rw [← h.2]; rfl
        · intro x hx; rw [List.mem_singleton.mp hx]; exact hc
      | cons d tl2 =>
        simp only [] at h
        by_cases hd : isDigit d = true
        · rw [if_pos hd] at h
          simp only [Option.some.injEq, Prod.mk.injEq] at h
          refine ⟨[c, d], ?_, Or.inr rfl, ?_⟩
          · rw [← h.2]; rfl
          · intro x hx
            rcases List.mem_cons.mp hx with h1 | h1
            · rw [h1]; exact hc
            · rw [List.mem_singleton.mp h1]; exact hd
        · rw [if_neg hd] at h
          simp only [Option.some.injEq, Prod.mk.injEq] at h
          refine ⟨[c], ?_, Or.inl rfl, ?_⟩
          · rw [← h.2]; rfl
          · intro x hx; rw [List.mem_singleton.mp hx]; exact hc
    · rw [if_neg hc] at h
      exact Option.noConfusion h

/-- A successful `skipSlash` has consumed a slash. -/
theorem skipSlash_some (cs rest : List Char) (h : skipSlash cs = some rest) :
    cs = '/' :: rest := by
  cases cs with
  | nil => simp [skipSlash] at h
  | cons c tl =>
    rw [skipSlash] at h
    by_cases hc : c = '/'
    · rw [if_pos hc] at h
      rw [hc, Option.some.inj h]
    · rw [if_neg hc] at h
      exact Option.noConfusion h

/-- A successful `getYear` has consumed exactly four digits. -/
theorem getYear_some (cs rest : List Char) (n : Nat) (h : getYear cs = some (n, rest)) :
    ∃ ds, cs = ds ++ rest ∧ ds.length = 4 ∧ ∀ c ∈ ds, isDigit c = true := by
  match cs, h with
  | a :: b :: c :: d :: tl, h =>
    rw [getYear] at h
    by_cases hd : (isDigit a && isDigit b && isDigit c && isDigit d) = true
    · rw [if_pos hd] at h
      simp only [Option.some.injEq, Prod.mk.injEq] at h
      simp only [Bool.and_eq_true] at hd
      refine ⟨[a, b, c, d], ?_, rfl, ?_⟩
      · rw [← h.2]; rfl
      · intro x hx
        simp only [List.mem_cons, List.mem_singleton, List.not_mem_nil, or_false] at hx
        rcases hx with h1 | h1 | h1 | h1 <;> rw [h1]
        · exact hd.1.1.1
        · exact hd.1.1.2
        · exact hd.1.2
        · exact hd.2
    · rw [if_neg hd] at h
      exact Option.noConfusion h
  | [], h => simp [getYear] at h
  | [_], h => simp [getYear] at h
  | [_, _], h => simp [getYear] at h
  | [_, _, _], h => simp [getYear] at h

/-- A string that `time.Parse` accepts for the layout "1/2/2006" has the shape
month/day/4-digit-year. -/
theorem timeParse_some (s : String) (t : Time) (h : timeParse s = some t) :
    MatchesLayout s := by
  unfold timeParse at h
  cases h1 : getnum s.toList with
  | none => rw [h1] at h; exact Option.noConfusion h
  | some r1 =>
    obtain ⟨month, v1⟩ := r1
    rw [h1] at h
    simp only [] at h
    cases h2 : skipSlash v1 with
    | none => rw [h2] at h; exact Option.noConfusion h
    | some v2 =>
      rw [h2] at h
      simp only [] at h
      cases h3 : getnum v2 with
      | none => rw [h3] at h; exact Option.noConfusion h
      | some r3 =>
        obtain ⟨day, v3⟩ := r3
        rw [h3] at h
        simp only [] at h
        cases h4 : skipSlash v3 with
        | none => rw [h4] at h; exact Option.noConfusion h
        | some v4 =>
          rw [h4] at h
          simp only [] at h
          cases h5 : getYear v4 with
          | none => rw [h5] at h; exact Option.noConfusion h
          | some r5 =>
            obtain ⟨year, v5⟩ := r5
            rw [h5] at h
            simp only [] at h
            by_cases hm : month = 0 ∨ 12 < month
            · rw [if_pos hm] at h; exact Option.noConfusion h
            · rw [if_neg hm] at h
              by_cases hv : v5 ≠ []
              · rw [if_pos hv] at h; exact Option.noConfusion h
              · have hnil : v5 = [] := not_not.mp hv
                obtain ⟨m, em, lm, dm⟩ := getnum_some _ _ _ h1
                obtain ⟨d, ed, ld, dd⟩ := getnum_some _ _ _ h3
                obtain ⟨y, ey, ly, dy⟩ := getYear_some _ _ _ h5
                refine ⟨m, d, y, ?_, lm, dm, ld, dd, ly, dy⟩
                rw [em, skipSlash_some _ _ h2, ed, skipSlash_some _ _ h4, ey, hnil,
                  List.append_nil]

/-- C15. `parseDate` returns October 31, 2024 for "10/31/2024", and returns nil for the
empty string and for every string that does not have the shape
month/day/4-digit-year. -/
theorem parseDate_layout :
    parseDate "10/31/2024" = some ⟨2024, 10, 31, 0⟩ ∧
      parseDate "" = none ∧
      ∀ s : String, ¬ MatchesLayout s → parseDate s = none := by
  refine ⟨by decide, by decide, fun s hs => ?_⟩
  unfold parseDate
  split
  · rfl
  · cases h : timeParse s with
    | none => rfl
    | some t => exact absurd (timeParse_some s t h) hs

/-- C15, at the strings "1/2/24" (two-digit year) and "2024-10-31", which do not have
the shape month/day/4-digit-year. -/
theorem parseDate_layout_witness :
    parseDate "1/2/24" = none ∧ parseDate "2024-10-31" = none := by
  refine ⟨parseDate_layout.2.2 "1/2/24" ?_, parseDate_layout.2.2 "2024-10-31" ?_⟩
  · rintro ⟨m, d, y, e, _, _, _, _, hy, _⟩
    have hl := congrArg List.length e
    simp only [List.length_append, List.length_cons] at hl
    have : "1/2/24".toList.length = 6 := by decide
    omega
  · rintro ⟨m, d, y, e, hm, dm, _, _, _, _⟩
    have e' : ['2', '0', '2', '4', '-', '1', '0', '-', '3', '1'] = m ++ '/' :: (d ++ '/' :: y) := e
    rcases hm with hm | hm
    · match m, hm with
      | [a], _ =>
        simp only [List.singleton_append, List.cons.injEq] at e'
        exact absurd e'.2.1 (by decide)
    · match m, hm with
      | [a, b], _ =>
        simp only [List.cons_append, List.nil_append, List.cons.injEq] at e'
        exact absurd e'.2.2.1 (by decide)


/-- C18. The record mapper is total: for every source record, identifier and clock
reading, `MapSurveyFood` and `MapBrandedFood` return an output record that carries the
identifier and a Nutrition Facts block. A record without nutrients and portions has
default nutrients and a serving size of 0; an empty or unparseable publication date
gives a nil verification date; a branded record with serving size zero gets the
multiplicand 1.0. -/
theorem mapper_never_raises :
    (∀ (usda : SurveyFood) (id : Nat) (now : Time),
      (MapSurveyFood usda id now).ID = id ∧
      (∃ nf, (MapSurveyFood usda id now).NutritionFacts = some nf ∧
        (usda.FoodNutrients = [] → nutrientsDefault nf) ∧
        (usda.FoodPortions = [] →
          nf.ServingSizeG = F64.zero ∧ nf.ServingSizeHousehold = "")) ∧
      (¬ MatchesLayout usda.PublicationDate →
        (MapSurveyFood usda id now).VerifiedDate = none)) ∧
    (∀ (usda : BrandedFood) (id : Nat) (now : Time),
      (MapBrandedFood usda id now).ID = id ∧
      (∃ nf, (MapBrandedFood usda id now).NutritionFacts = some nf ∧
        (usda.FoodNutrients = [] → nutrientsDefault nf)) ∧
      (¬ MatchesLayout usda.PublicationDate →
        (MapBrandedFood usda id now).VerifiedDate = none) ∧
      (F64.isZero usda.ServingSize = true →
        (MapBrandedFood usda id now).ServingSizeMultiplicand = F64.one)) := by
  have hdate : ∀ s : String, ¬ MatchesLayout s → parseDate s = none := by
    intro s hs
    unfold parseDate
    split
    · rfl
    · cases h : timeParse s with
      | none => rfl
      | some t => exact absurd (timeParse_some s t h) hs
  refine ⟨fun usda id now => ⟨rfl, ⟨_, MapSurveyFood_NutritionFacts usda id now, ?_, ?_⟩, ?_⟩,
    fun usda id now =>
      ⟨MapBrandedFood_ID usda id now, ⟨_, MapBrandedFood_NutritionFacts usda id now, ?_⟩,
        ?_, ?_⟩⟩
  · intro hn
    unfold mapSurveyNutritionFacts
    simp only []
    rw [hn, surveyNutrientLoop]
    obtain ⟨g, k, e⟩ := portionLoop_frame
      ({ FoodName := usda.Description, Ingredients := [] } : NutritionFacts)
      usda.FoodPortions
    rw [e]
    exact ⟨rfl, rfl, rfl, rfl, rfl, rfl, rfl, rfl, rfl, rfl, rfl, rfl, rfl, rfl⟩
  · intro hp
    unfold mapSurveyNutritionFacts
    simp only []
    rw [surveyNutrientLoop_eq, hp, portionLoop]
    obtain ⟨_, a2, a3, _⟩ := routeAll_frame (fun a => a) usda.FoodNutrients
      { ({ FoodName := usda.Description, Ingredients := [] } : NutritionFacts) with
        ServingsPerContainer := 1 }
    exact ⟨a3, a2⟩
  · intro hs
    show parseDate usda.PublicationDate = none
    exact hdate _ hs
  · intro hn
    unfold mapBrandedNutritionFacts
    simp only []
    rw [hn, brandedNutrientLoop]
    split_ifs <;> exact ⟨rfl, rfl, rfl, rfl, rfl, rfl, rfl, rfl, rfl, rfl, rfl, rfl, rfl, rfl⟩
  · intro hs
    have h := hdate _ hs
    unfold MapBrandedFood
    simp only []
    split_ifs <;> exact h
  · intro hz
    have hgt : F64.gtZero usda.ServingSize = false := by
      cases hs : usda.ServingSize with
      | nan => rfl
      | inf s => rw [hs] at hz; simp [F64.isZero] at hz
      | fin s m e =>
        rw [hs] at hz
        have hm : m = 0 := by simpa [F64.isZero] using hz
        subst hm
        simp [F64.gtZero]
    unfold MapBrandedFood
    simp only [hgt, Bool.false_eq_true, if_false]
    split_ifs <;> rfl

set_option maxRecDepth 8192 in
/-- C18, at a survey record without nutrients, portions and publication date and at a
branded record without nutrients, with an unparseable publication date and with serving
size zero. -/
theorem mapper_never_raises_witness :
    ((MapSurveyFood { surveyEmpty with PublicationDate := "" } 7 sampleTime).ID = 7 ∧
      (MapSurveyFood { surveyEmpty with PublicationDate := "" } 7
        sampleTime).VerifiedDate = none) ∧
    ((MapBrandedFood
        { sampleBranded F64.zero [] with PublicationDate := "n/a" } 7 sampleTime).ID = 7 ∧
      (MapBrandedFood
        { sampleBranded F64.zero [] with PublicationDate := "n/a" } 7
        sampleTime).VerifiedDate = none ∧
      (MapBrandedFood
        { sampleBranded F64.zero [] with PublicationDate := "n/a" } 7
        sampleTime).ServingSizeMultiplicand = F64.one) := by
  have hshort : ∀ s : String, s.toList.length < 8 → ¬ MatchesLayout s := by
    rintro s hlen ⟨m, d, y, e, hm, _, hd, _, hy, _⟩
    have hl := congrArg List.length e
    simp only [List.length_append, List.length_cons] at hl
    omega
  obtain ⟨s1, _, s3⟩ :=
    mapper_never_raises.1 { surveyEmpty with PublicationDate := "" } 7 sampleTime
  obtain ⟨b1, _, b3, b4⟩ := mapper_never_raises.2
    { sampleBranded F64.zero [] with PublicationDate := "n/a" } 7 sampleTime
  exact ⟨⟨s1, s3 (hshort _ (by decide))⟩, ⟨b1, b3 (hshort _ (by decide)), b4 (by decide)⟩⟩

set_option maxRecDepth 8192 in
/-- With a zero serving size the conversion factor is an infinity. -/
theorem F64.div_hundred_zero (s : F64) (hs : F64.isZero s = true) :
    ∃ neg, F64.div F64.hundred s = F64.inf neg := by
  cases s with
  | nan => simp [F64.isZero] at hs
  | inf t => simp [F64.isZero] at hs
  | fin t m e =>
    have hm : m = 0 := by simpa [F64.isZero] using hs
    subst hm
    have h100 : F64.hundred = F64.fin false (100 * 2 ^ 46) (-46) := by decide
    refine ⟨xor false t, ?_⟩
    rw [h100]
    simp [F64.div]

/-- Every product with an infinity is an infinity or NaN. -/
theorem F64.mul_inf_not_finite (a : F64) (neg : Bool) :
    F64.isFinite (F64.mul a (F64.inf neg)) = false := by
  cases a with
  | nan => rfl
  | inf s => rfl
  | fin s m e =>
    simp only [F64.mul]
    split_ifs <;> rfl

/-- C19. For a branded record whose serving size is zero, the field selected by a table
code holds an infinity or NaN after the last pair with that code has been routed,
whatever the raw amount is (0 included). -/
theorem zero_serving_not_finite (usda : BrandedFood) (id : Nat) (now : Time)
    (pre post : List FoodNutrient) (n : FoodNutrient)
    (hs : F64.isZero usda.ServingSize = true)
    (hlist : usda.FoodNutrients = pre ++ n :: post)
    (hc : n.Nutrient.ID ∈ nutrientCodes)
    (hlast : ∀ m ∈ post, m.Nutrient.ID ≠ n.Nutrient.ID) :
    ∃ v, (MapBrandedFood usda id now).field n.Nutrient.ID = some v ∧
      F64.isFinite v = false := by
  obtain ⟨neg, hneg⟩ := F64.div_hundred_zero usda.ServingSize hs
  refine ⟨F64.mul n.Amount (F64.div F64.hundred usda.ServingSize), ?_, ?_⟩
  · unfold Food.field
    rw [MapBrandedFood_NutritionFacts]
    show nutrientField (mapBrandedNutritionFacts usda) n.Nutrient.ID = _
    unfold mapBrandedNutritionFacts
    simp only []
    rw [brandedNutrientLoop_eq, hlist]
    exact nutrientField_routeAll_last
      (fun a => F64.mul a (F64.div F64.hundred usda.ServingSize)) _ pre post n hc hlast
  · rw [hneg]
    exact F64.mul_inf_not_finite _ _

set_option maxRecDepth 8192 in
/-- C19, at serving size 0 with the pairs `(1008, 0)` and `(1003, 10)`: calories hold
NaN and protein holds `+Inf`. -/
theorem zero_serving_not_finite_witness :
    (∃ v, (MapBrandedFood
        (sampleBranded F64.zero
          [sampleNutrient 1008 F64.zero, sampleNutrient 1003 (F64.ofNat 10)])
        1 sampleTime).field 1008 = some v ∧ F64.isFinite v = false) ∧
    (∃ v, (MapBrandedFood
        (sampleBranded F64.zero
          [sampleNutrient 1008 F64.zero, sampleNutrient 1003 (F64.ofNat 10)])
        1 sampleTime).field 1003 = some v ∧ F64.isFinite v = false) ∧
    (MapBrandedFood
      (sampleBranded F64.zero
        [sampleNutrient 1008 F64.zero, sampleNutrient 1003 (F64.ofNat 10)])
      1 sampleTime).field 1008 = some F64.nan ∧
    (MapBrandedFood
      (sampleBranded F64.zero
        [sampleNutrient 1008 F64.zero, sampleNutrient 1003 (F64.ofNat 10)])
      1 sampleTime).field 1003 = some (F64.inf false) :=
  ⟨zero_serving_not_finite
      (sampleBranded F64.zero
        [sampleNutrient 1008 F64.zero, sampleNutrient 1003 (F64.ofNat 10)])
      1 sampleTime [] [sampleNutrient 1003 (F64.ofNat 10)] (sampleNutrient 1008 F64.zero)
      (by decide) rfl (by decide) (by decide),
    zero_serving_not_finite
      (sampleBranded F64.zero
        [sampleNutrient 1008 F64.zero, sampleNutrient 1003 (F64.ofNat 10)])
      1 sampleTime [sampleNutrient 1008 F64.zero] [] (sampleNutrient 1003 (F64.ofNat 10))
      (by decide) rfl (by decide) (by simp),
    by decide, by decide⟩


/-! ## Claims about the import pipeline, continued -/

/-- Every size in `batchSizes n` is at least 1 and at most `batchSize`. -/
theorem mem_batchSizes (n x : Nat) (h : x ∈ batchSizes n) : 0 < x ∧ x ≤ batchSize := by
  unfold batchSizes at h
  rcases List.mem_append.mp h with h1 | h1
  · have := (List.mem_replicate.mp h1).2
    rw [this]; exact ⟨by decide, Nat.le_refl _⟩
  · by_cases hr : n % batchSize = 0
    · rw [if_pos hr] at h1; simp at h1
    · rw [if_neg hr] at h1
      have hx : x = n % batchSize := List.mem_singleton.mp h1
      have hlt : n % batchSize < batchSize := Nat.mod_lt _ (by decide)
      omega

/-- When `n` is a multiple of `batchSize`, every size in `batchSizes n` is `batchSize`. -/
theorem mem_batchSizes_of_multiple (n x : Nat) (hn : n % batchSize = 0)
    (h : x ∈ batchSizes n) : x = batchSize := by
  unfold batchSizes at h
  rw [if_pos hn, List.append_nil] at h
  exact (List.mem_replicate.mp h).2

/-- A run either writes full batches only, or has pulled every document. -/
theorem importLoop_full_or_exhausted {α : Type} (nutrients : α → List FoodNutrient)
    (mapFood : α → Nat → Time → Food) (foodColl : Sink) (clock : Nat → Time) :
    ∀ (docs : List (Option α)) (st : LoopState),
      (∀ b ∈ st.calls, b.length = batchSize) → st.batch.length < batchSize →
      (∀ b ∈ (importLoop nutrients mapFood foodColl clock docs st).calls,
          b.length = batchSize) ∨
        (importLoop nutrients mapFood foodColl clock docs st).pulled
          = st.pulled + docs.length := by
  intro docs
  induction docs with
  | nil =>
    intro st _ _
    right
    rw [importLoop]
    unfold drain
    split
    · split <;> rfl
    · rfl
  | cons d rest ih =>
    intro st hfull hsmall
    have cont : ∀ st1 : LoopState, st1.pulled = st.pulled + 1 →
        (∀ b ∈ st1.calls, b.length = batchSize) → st1.batch.length < batchSize →
        (∀ b ∈ (importLoop nutrients mapFood foodColl clock rest st1).calls,
            b.length = batchSize) ∨
          (importLoop nutrients mapFood foodColl clock rest st1).pulled
            = st.pulled + (d :: rest).length := by
      intro st1 hp h1 h2
      rcases ih st1 h1 h2 with h | h
      · exact Or.inl h
      · right
        rw [h, hp, List.length_cons]
        omega
    cases d with
    | none =>
      rw [importLoop]
      exact cont _ rfl hfull hsmall
    | some r =>
      rw [importLoop]
      by_cases he : (nutrients r).length = 0
      · rw [if_pos he]
        exact cont _ rfl hfull hsmall
      · rw [if_neg he]
        simp only []
        by_cases hge : (st.batch ++ [mapFood r st.nextID (clock st.nextID)]).length ≥ batchSize
        · rw [if_pos hge]
          have hexact : (st.batch ++ [mapFood r st.nextID (clock st.nextID)]).length
              = batchSize := by
            simp only [List.length_append, List.length_cons, List.length_nil] at hge ⊢
            omega
          have hfull2 : ∀ b ∈ st.calls ++ [st.batch ++ [mapFood r st.nextID (clock st.nextID)]],
              b.length = batchSize := by
            intro b hb
            rcases List.mem_append.mp hb with h1 | h1
            · exact hfull b h1
            · rw [List.mem_singleton.mp h1]; exact hexact
          cases hsink : foodColl st.calls.length
              (st.batch ++ [mapFood r st.nextID (clock st.nextID)]) with
          | none =>
            simp only []
            exact cont _ rfl hfull2 (by show ([] : List Food).length < batchSize; decide)
          | some e =>
            simp only []
            exact Or.inl hfull2
        · rw [if_neg hge]
          exact cont _ rfl hfull (Nat.lt_of_not_le hge)

/-- The sizes of the bulk writes of the shared loop. -/
theorem importLoop_batch_bounds {α : Type} (nutrients : α → List FoodNutrient)
    (mapFood : α → Nat → Time → Food) (foodColl : Sink) (clock : Nat → Time)
    (docs : List (Option α)) :
    (∀ b ∈ (importLoop nutrients mapFood foodColl clock docs LoopState.init).calls,
      0 < b.length ∧ b.length ≤ 1000) ∧
    ((qualifying nutrients docs).length % 1000 = 0 →
      ∀ b ∈ (importLoop nutrients mapFood foodColl clock docs LoopState.init).calls,
        b.length = 1000) := by
  have spec := importLoop_init_spec nutrients mapFood foodColl clock docs
  constructor
  · intro b hb
    have hmem : b.length ∈ batchSizes
        (importLoop nutrients mapFood foodColl clock docs
          LoopState.init).calls.flatten.length := by
      rw [← spec.sizes]
      exact List.mem_map_of_mem _ hb
    exact mem_batchSizes _ _ hmem
  · intro hN b hb
    rcases importLoop_full_or_exhausted nutrients mapFood foodColl clock docs LoopState.init
      (fun b hb => by simp [LoopState.init] at hb) (by decide) with h | h
    · exact h b hb
    · have hp : (importLoop nutrients mapFood foodColl clock docs LoopState.init).pulled
          = docs.length := by
        rw [h]; simp [LoopState.init]
      have hj := spec.joined
      rw [hp, List.take_length] at hj
      have hlen : (importLoop nutrients mapFood foodColl clock docs
          LoopState.init).calls.flatten.length = (qualifying nutrients docs).length := by
        rw [hj, mapFrom_length]
      have hmem : b.length ∈ batchSizes (qualifying nutrients docs).length := by
        rw [← hlen, ← spec.sizes]
        exact List.mem_map_of_mem _ hb
      exact mem_batchSizes_of_multiple _ _ hN hmem

/-- C17. In every run of either import function, whatever the source and the sink do,
every batch handed to the sink holds at least 1 and at most 1000 records. When the
number of qualifying records is a multiple of 1000 (0 included), every batch handed to
the sink holds exactly 1000 records, so none comes from the final insert, whose batch is
never full; the final insert of an empty batch makes no bulk write and returns no error. -/
theorem batches_nonempty_bounded :
    (∀ (docs : List (Option SurveyFood)) (foodColl : Sink) (clock : Nat → Time),
      (∀ b ∈ (ImportSurveyFoods (.ok docs) foodColl clock).calls,
        0 < b.length ∧ b.length ≤ 1000) ∧
      ((qualifying SurveyFood.FoodNutrients docs).length % 1000 = 0 →
        ∀ b ∈ (ImportSurveyFoods (.ok docs) foodColl clock).calls, b.length = 1000)) ∧
    (∀ (docs : List (Option BrandedFood)) (foodColl : Sink) (clock : Nat → Time),
      (∀ b ∈ (ImportBrandedFoods (.ok docs) foodColl clock).calls,
        0 < b.length ∧ b.length ≤ 1000) ∧
      ((qualifying BrandedFood.FoodNutrients docs).length % 1000 = 0 →
        ∀ b ∈ (ImportBrandedFoods (.ok docs) foodColl clock).calls, b.length = 1000)) ∧
    (∀ (foodColl : Sink) (st : LoopState), st.batch = [] →
      (drain foodColl st).calls = st.calls ∧ (drain foodColl st).err = none) := by
  refine ⟨fun docs foodColl clock => ?_, fun docs foodColl clock => ?_,
    fun foodColl st hb => ?_⟩
  · simp only [ImportSurveyFoods_ok]
    exact importLoop_batch_bounds _ _ _ _ docs
  · simp only [ImportBrandedFoods_ok]
    exact importLoop_batch_bounds _ _ _ _ docs
  · unfold drain
    rw [hb]
    exact ⟨rfl, rfl⟩

set_option maxRecDepth 8192 in
/-- C17, at sources with 2000 qualifying records (all bulk writes hold 1000 records, the
final insert makes none) and at sources without qualifying records (no bulk write at
all), for both import functions. -/
theorem batches_nonempty_bounded_witness :
    ((ImportSurveyFoods (.ok (sampleSource surveyRecord surveyEmpty 2000)) sinkOk
        sampleClock).calls.all (fun b => decide (b.length = 1000)) = true ∧
      (ImportSurveyFoods (.ok (sampleSource surveyRecord surveyEmpty 2000)) sinkOk
        sampleClock).calls.map List.length = [1000, 1000] ∧
      (ImportSurveyFoods (.ok (sampleSource surveyRecord surveyEmpty 0)) sinkOk
        sampleClock).calls = []) ∧
    ((ImportBrandedFoods (.ok (sampleSource brandedRecord brandedEmpty 2000)) sinkOk
        sampleClock).calls.all (fun b => decide (b.length = 1000)) = true ∧
      (ImportBrandedFoods (.ok (sampleSource brandedRecord brandedEmpty 2000)) sinkOk
        sampleClock).calls.map List.length = [1000, 1000] ∧
      (ImportBrandedFoods (.ok (sampleSource brandedRecord brandedEmpty 0)) sinkOk
        sampleClock).calls = []) := by
  have qs := qualifying_sampleSource SurveyFood.FoodNutrients surveyRecord surveyEmpty
    (by decide) (by decide) 2000
  have qb := qualifying_sampleSource BrandedFood.FoodNutrients brandedRecord brandedEmpty
    (by decide) (by decide) 2000
  have hs := (batches_nonempty_bounded.1 (sampleSource surveyRecord surveyEmpty 2000) sinkOk
    sampleClock).2 (by rw [qs])
  have hb := (batches_nonempty_bounded.2.1 (sampleSource brandedRecord brandedEmpty 2000)
    sinkOk sampleClock).2 (by rw [qb])
  have ss := (importLoop_of_sinkOk SurveyFood.FoodNutrients MapSurveyFood sinkOk sampleClock
    (sampleSource surveyRecord surveyEmpty 2000) (fun _ _ => rfl)).2.1
  have sb := (importLoop_of_sinkOk BrandedFood.FoodNutrients MapBrandedFood sinkOk
    sampleClock (sampleSource brandedRecord brandedEmpty 2000) (fun _ _ => rfl)).2.1
  rw [← ImportSurveyFoods_ok, qs] at ss
  rw [← ImportBrandedFoods_ok, qb] at sb
  refine ⟨⟨?_, ss.trans (by decide), by decide⟩, ⟨?_, sb.trans (by decide), by decide⟩⟩
  · exact List.all_eq_true.mpr (fun b hb' => decide_eq_true (hs b hb'))
  · exact List.all_eq_true.mpr (fun b hb' => decide_eq_true (hb b hb'))


/-- Lists with the same identifiers have the same length. -/
theorem length_eq_of_ids {xs ys : List Food} (h : xs.map Food.ID = ys.map Food.ID) :
    xs.length = ys.length := by
  have := congrArg List.length h
  simpa using this

/-- Batch lists with the same identifiers have the same number of batches. -/
theorem calls_length_eq_of_ids {xs ys : List (List Food)}
    (h : xs.map (List.map Food.ID) = ys.map (List.map Food.ID)) :
    xs.length = ys.length := by
  have := congrArg List.length h
  simpa using this

/-- Batch lists with the same identifiers have the same batch sizes. -/
theorem sizes_eq_of_ids {xs ys : List (List Food)}
    (h : xs.map (List.map Food.ID) = ys.map (List.map Food.ID)) :
    xs.map List.length = ys.map List.length := by
  have := congrArg (List.map List.length) h
  simpa [List.map_map, Function.comp_def] using this

/-- The final insert of two similar states gives similar runs. -/
theorem drain_sim (sinkA sinkB : Sink)
    (hsink : ∀ k b c, sinkA k b = none ↔ sinkB k c = none)
    (s t : LoopState) (sim : StateSim s t) :
    RunSim (drain sinkA s) (drain sinkB t) := by
  have hbl : s.batch.length = t.batch.length := length_eq_of_ids sim.batch
  have hcl : s.calls.length = t.calls.length := calls_length_eq_of_ids sim.calls
  have hcalls : (s.calls ++ [s.batch]).map (List.map Food.ID)
      = (t.calls ++ [t.batch]).map (List.map Food.ID) := by
    simp only [List.map_append, List.map_cons, List.map_nil, sim.calls, sim.batch]
  unfold drain
  by_cases hb : s.batch.length > 0
  · rw [if_pos hb, if_pos (hbl ▸ hb)]
    cases hA : sinkA s.calls.length s.batch with
    | none =>
      have hB : sinkB t.calls.length t.batch = none := by
        rw [← hcl]; exact (hsink _ _ _).mp hA
      rw [hB]
      exact ⟨by show s.imported + s.batch.length = t.imported + t.batch.length
                rw [sim.imported, hbl],
        sim.skipped, Iff.rfl, hcalls, sim.pulled⟩
    | some e =>
      cases hB : sinkB t.calls.length t.batch with
      | none =>
        have : sinkA s.calls.length s.batch = none := by
          rw [hcl]; exact (hsink _ _ _).mpr hB
        rw [hA] at this
        exact Option.noConfusion this
      | some e' =>
        exact ⟨sim.imported, sim.skipped,
          ⟨fun h => Option.noConfusion h, fun h => Option.noConfusion h⟩, hcalls, sim.pulled⟩
  · rw [if_neg hb, if_neg (hbl ▸ hb)]
    exact ⟨sim.imported, sim.skipped, Iff.rfl, sim.calls, sim.pulled⟩

/-- Two runs of the shared loop, over sources whose documents have the same kinds
position by position, with mappers that store the identifier they are given and with
sinks that succeed and fail at the same bulk writes, are similar. -/
theorem importLoop_sim {α β : Type} (nutA : α → List FoodNutrient)
    (nutB : β → List FoodNutrient) (mapA : α → Nat → Time → Food)
    (mapB : β → Nat → Time → Food)
    (hidA : ∀ r id now, (mapA r id now).ID = id)
    (hidB : ∀ r id now, (mapB r id now).ID = id)
    (sinkA sinkB : Sink) (hsink : ∀ k b c, sinkA k b = none ↔ sinkB k c = none)
    (clockA clockB : Nat → Time) :
    ∀ (docsA : List (Option α)) (docsB : List (Option β)) (s t : LoopState),
      docsA.map (docKind nutA) = docsB.map (docKind nutB) → StateSim s t →
      RunSim (importLoop nutA mapA sinkA clockA docsA s)
        (importLoop nutB mapB sinkB clockB docsB t) := by
  intro docsA
  induction docsA with
  | nil =>
    intro docsB s t hk sim
    cases docsB with
    | nil => exact drain_sim sinkA sinkB hsink s t sim
    | cons y ys => simp at hk
  | cons x xs ih =>
    intro docsB s t hk sim
    cases docsB with
    | nil => simp at hk
    | cons y ys =>
      simp only [List.map_cons, List.cons.injEq] at hk
      obtain ⟨hxy, hrest⟩ := hk
      cases x with
      | none =>
        cases y with
        | none =>
          rw [importLoop, importLoop]
          exact ih ys _ _ hrest
            ⟨sim.imported, sim.skipped, sim.nextID, sim.batch, sim.calls,
              by show s.pulled + 1 = t.pulled + 1
                 rw [sim.pulled]⟩
        | some rb =>
          simp only [docKind] at hxy
          split at hxy <;> exact DocKind.noConfusion hxy
      | some ra =>
        cases y with
        | none =>
          simp only [docKind] at hxy
          split at hxy <;> exact DocKind.noConfusion hxy
        | some rb =>
          simp only [docKind] at hxy
          rw [importLoop, importLoop]
          by_cases hea : (nutA ra).length = 0
          · have heb : (nutB rb).length = 0 := by
              by_contra hne
              rw [if_pos hea, if_neg hne] at hxy
              exact DocKind.noConfusion hxy
            rw [if_pos hea, if_pos heb]
            exact ih ys _ _ hrest
              ⟨sim.imported,
                by show s.skipped + 1 = t.skipped + 1
                   rw [sim.skipped],
                sim.nextID, sim.batch, sim.calls,
                by show s.pulled + 1 = t.pulled + 1
                   rw [sim.pulled]⟩
          · have heb : ¬ (nutB rb).length = 0 := by
              intro he
              rw [if_neg hea, if_pos he] at hxy
              exact DocKind.noConfusion hxy
            rw [if_neg hea, if_neg heb]
            simp only []
            have hbatch : (s.batch ++ [mapA ra s.nextID (clockA s.nextID)]).map Food.ID
                = (t.batch ++ [mapB rb t.nextID (clockB t.nextID)]).map Food.ID := by
              simp only [List.map_append, List.map_cons, List.map_nil, sim.batch, hidA, hidB,
                sim.nextID]
            have hbl := length_eq_of_ids hbatch
            have hcl : s.calls.length = t.calls.length := calls_length_eq_of_ids sim.calls
            have hcalls :
                (s.calls ++ [s.batch ++ [mapA ra s.nextID (clockA s.nextID)]]).map
                    (List.map Food.ID)
                  = (t.calls ++ [t.batch ++ [mapB rb t.nextID (clockB t.nextID)]]).map
                    (List.map Food.ID) := by
              rw [List.map_append, List.map_append, sim.calls]
              simp only [List.map_cons, List.map_nil, hbatch]
            have hp : s.pulled + 1 = t.pulled + 1 := by rw [sim.pulled]
            have hn : s.nextID + 1 = t.nextID + 1 := by rw [sim.nextID]
            by_cases hfull :
                (s.batch ++ [mapA ra s.nextID (clockA s.nextID)]).length ≥ batchSize
            · rw [if_pos hfull, if_pos (hbl ▸ hfull)]
              cases hA : sinkA s.calls.length
                  (s.batch ++ [mapA ra s.nextID (clockA s.nextID)]) with
              | none =>
                have hB : sinkB t.calls.length
                    (t.batch ++ [mapB rb t.nextID (clockB t.nextID)]) = none := by
                  rw [← hcl]; exact (hsink _ _ _).mp hA
                rw [hB]
                simp only []
                exact ih ys _ _ hrest
                  ⟨by show s.imported + _ = t.imported + _
                      rw [sim.imported, hbl],
                    sim.skipped, hn, rfl, hcalls, hp⟩
              | some e =>
                cases hB : sinkB t.calls.length
                    (t.batch ++ [mapB rb t.nextID (clockB t.nextID)]) with
                | none =>
                  have : sinkA s.calls.length
                      (s.batch ++ [mapA ra s.nextID (clockA s.nextID)]) = none := by
                    rw [hcl]; exact (hsink _ _ _).mpr hB
                  rw [hA] at this
                  exact Option.noConfusion this
                | some e' =>
                  simp only []
                  exact ⟨sim.imported, sim.skipped,
                    ⟨fun h => Option.noConfusion h, fun h => Option.noConfusion h⟩,
                    hcalls, hp⟩
            · rw [if_neg hfull, if_neg (hbl ▸ hfull)]
              exact ih ys _ _ hrest
                ⟨sim.imported, sim.skipped, hn, hbatch, sim.calls, hp⟩

/-- C20. `ImportSurveyFoods` and `ImportBrandedFoods` are the same pipeline up to the
mapper: over two sources whose documents have the same kinds position by position
(undecodable, empty nutrient list, non-empty nutrient list), with sinks that succeed and
fail at the same bulk writes, they return the same imported count, the same skipped
count and the same error status, pull the same number of documents, make bulk writes of
the same sizes and assign the same identifiers at the same positions. -/
theorem survey_branded_same_pipeline
    (docsS : List (Option SurveyFood)) (docsB : List (Option BrandedFood))
    (sinkS sinkB : Sink) (clockS clockB : Nat → Time)
    (hkinds : docsS.map (docKind SurveyFood.FoodNutrients)
      = docsB.map (docKind BrandedFood.FoodNutrients))
    (hsink : ∀ k b c, sinkS k b = none ↔ sinkB k c = none) :
    (ImportSurveyFoods (.ok docsS) sinkS clockS).imported
        = (ImportBrandedFoods (.ok docsB) sinkB clockB).imported ∧
      (ImportSurveyFoods (.ok docsS) sinkS clockS).skipped
        = (ImportBrandedFoods (.ok docsB) sinkB clockB).skipped ∧
      ((ImportSurveyFoods (.ok docsS) sinkS clockS).err = none ↔
        (ImportBrandedFoods (.ok docsB) sinkB clockB).err = none) ∧
      (ImportSurveyFoods (.ok docsS) sinkS clockS).pulled
        = (ImportBrandedFoods (.ok docsB) sinkB clockB).pulled ∧
      (ImportSurveyFoods (.ok docsS) sinkS clockS).calls.map List.length
        = (ImportBrandedFoods (.ok docsB) sinkB clockB).calls.map List.length ∧
      (ImportSurveyFoods (.ok docsS) sinkS clockS).calls.map (List.map Food.ID)
        = (ImportBrandedFoods (.ok docsB) sinkB clockB).calls.map (List.map Food.ID) := by
  rw [ImportSurveyFoods_ok, ImportBrandedFoods_ok]
  have sim := importLoop_sim SurveyFood.FoodNutrients BrandedFood.FoodNutrients
    MapSurveyFood MapBrandedFood MapSurveyFood_ID MapBrandedFood_ID sinkS sinkB hsink
    clockS clockB docsS docsB LoopState.init LoopState.init hkinds
    ⟨rfl, rfl, rfl, rfl, rfl, rfl⟩
  exact ⟨sim.imported, sim.skipped, sim.err, sim.pulled, sizes_eq_of_ids sim.calls,
    sim.calls⟩

set_option maxRecDepth 8192 in
/-- C20, at the survey and the branded source with three qualifying records, two
undecodable documents and a record without nutrients, once with a sink that accepts
every bulk write and once with a sink that rejects every bulk write. -/
theorem survey_branded_same_pipeline_witness :
    ((ImportSurveyFoods (.ok (mixedSource surveyRecord surveyEmpty)) sinkOk
        sampleClock).imported
        = (ImportBrandedFoods (.ok (mixedSource brandedRecord brandedEmpty)) sinkOk
          sampleClock).imported ∧
      (ImportSurveyFoods (.ok (mixedSource surveyRecord surveyEmpty)) sinkOk
        sampleClock).calls.map (List.map Food.ID)
        = (ImportBrandedFoods (.ok (mixedSource brandedRecord brandedEmpty)) sinkOk
          sampleClock).calls.map (List.map Food.ID) ∧
      (ImportBrandedFoods (.ok (mixedSource brandedRecord brandedEmpty)) sinkOk
          sampleClock).calls.map (List.map Food.ID) = [[1, 2, 3]]) ∧
    ((ImportSurveyFoods (.ok (mixedSource surveyRecord surveyEmpty)) sinkFail
        sampleClock).imported
        = (ImportBrandedFoods (.ok (mixedSource brandedRecord brandedEmpty)) sinkFail
          sampleClock).imported ∧
      ((ImportSurveyFoods (.ok (mixedSource surveyRecord surveyEmpty)) sinkFail
        sampleClock).err = none ↔
        (ImportBrandedFoods (.ok (mixedSource brandedRecord brandedEmpty)) sinkFail
          sampleClock).err = none) ∧
      (ImportBrandedFoods (.ok (mixedSource brandedRecord brandedEmpty)) sinkFail
          sampleClock).err ≠ none) := by
  have h1 := survey_branded_same_pipeline (mixedSource surveyRecord surveyEmpty)
    (mixedSource brandedRecord brandedEmpty) sinkOk sinkOk sampleClock sampleClock
    (by decide) (fun _ _ _ => Iff.rfl)
  have h2 := survey_branded_same_pipeline (mixedSource surveyRecord surveyEmpty)
    (mixedSource brandedRecord brandedEmpty) sinkFail sinkFail sampleClock sampleClock
    (by decide) (fun _ _ _ => Iff.rfl)
  exact ⟨⟨h1.1, h1.2.2.2.2.2, by decide⟩, h2.1, h2.2.2.1, by decide⟩


/-! ## float64: the rounding error of a product and of a quotient -/

/-- With enough fuel, `log2Fuel` is the base-2 logarithm. -/
theorem F64.log2Fuel_eq : ∀ (fuel n : Nat), n ≤ fuel → F64.log2Fuel fuel n = Nat.log 2 n
  | 0, n, h => by
    have hn : n = 0 := Nat.le_zero.mp h
    subst hn
    rw [F64.log2Fuel, Nat.log_of_lt (by decide)]
  | fuel + 1, n, h => by
    rw [F64.log2Fuel]
    by_cases h2 : n < 2
    · rw [if_pos h2, Nat.log_of_lt h2]
    · rw [if_neg h2, F64.log2Fuel_eq fuel (n / 2) (by omega),
        Nat.log_of_one_lt_of_le (by decide) (Nat.le_of_not_lt h2)]

/-- The function `log2` is the base-2 logarithm. -/
theorem F64.log2_eq (n : Nat) : F64.log2 n = Nat.log 2 n :=
  F64.log2Fuel_eq n n (Nat.le_refl n)

/-- A positive number is below two to the power of its logarithm plus one. -/
theorem F64.lt_pow_log2 (n : Nat) : n < 2 ^ (F64.log2 n + 1) := by
  rw [F64.log2_eq]
  exact Nat.lt_pow_succ_log_self (by decide) n

/-- A number that is at least `2^j` has a logarithm of at least `j`. -/
theorem F64.le_log2 (n j : Nat) (h : 2 ^ j ≤ n) : j ≤ F64.log2 n := by
  rw [F64.log2_eq]
  exact Nat.le_log_of_pow_le (by decide) h

/-- Rounding the last `k` bits to nearest, ties to even, moves a number by at most half
a unit, and by less than that when the number is odd and at least two bits are
dropped. -/
theorem F64.round_nat (M k : Nat) (hk : 1 ≤ k) (up : Bool)
    (hup : up = (decide (M % 2 ^ k > 2 ^ (k - 1)) ||
      (decide (M % 2 ^ k = 2 ^ (k - 1)) && decide (M / 2 ^ k % 2 = 1)))) :
    ((if up then M / 2 ^ k + 1 else M / 2 ^ k) * 2 ^ k ≤ M + 2 ^ (k - 1) ∧
      M ≤ (if up then M / 2 ^ k + 1 else M / 2 ^ k) * 2 ^ k + 2 ^ (k - 1)) ∧
    (M % 2 = 1 → 2 ≤ k →
      (if up then M / 2 ^ k + 1 else M / 2 ^ k) * 2 ^ k + 1 ≤ M + 2 ^ (k - 1) ∧
      M + 1 ≤ (if up then M / 2 ^ k + 1 else M / 2 ^ k) * 2 ^ k + 2 ^ (k - 1)) := by
  have hP : 2 ^ k = 2 * 2 ^ (k - 1) := by
    conv_lhs => rw [show k = (k - 1) + 1 by omega]
    rw [Nat.pow_succ]; omega
  have hM : M = M / 2 ^ k * 2 ^ k + M % 2 ^ k := by
    have := Nat.div_add_mod M (2 ^ k)
    rw [Nat.mul_comm] at this
    exact this.symm
  have hr : M % 2 ^ k < 2 ^ k := Nat.mod_lt _ (Nat.pow_pos (by decide))
  have hH : 0 < 2 ^ (k - 1) := Nat.pow_pos (by decide)
  have hsucc : (M / 2 ^ k + 1) * 2 ^ k = M / 2 ^ k * 2 ^ k + 2 ^ k := Nat.succ_mul _ _
  generalize hq : M / 2 ^ k = q at *
  generalize hrr : M % 2 ^ k = r at *
  generalize hPP : 2 ^ k = P at *
  generalize hHH : 2 ^ (k - 1) = H at *
  generalize ht : q * P = t at *
  constructor
  · cases up with
    | true =>
      simp only [if_true]
      have : r > H ∨ r = H := by
        have h := hup.symm
        simp only [Bool.or_eq_true, Bool.and_eq_true, decide_eq_true_eq] at h
        rcases h with h | h
        · exact Or.inl h
        · exact Or.inr h.1
      rw [hsucc]
      omega
    | false =>
      simp only [Bool.false_eq_true, if_false]
      have : ¬ r > H := by
        intro hgt
        have h := hup.symm
        simp [hgt] at h
      rw [ht]
      omega
  · intro hodd hk2
    have hH2 : H = 2 * 2 ^ (k - 2) := by
      rw [← hHH]
      conv_lhs => rw [show k - 1 = (k - 2) + 1 by omega]
      rw [Nat.pow_succ]; omega
    have ht2 : t = 4 * (q * 2 ^ (k - 2)) := by
      rw [← ht, hP, hH2]
      ring
    generalize 2 ^ (k - 2) = H2 at *
    generalize q * H2 = t2 at *
    cases up with
    | true =>
      simp only [if_true]
      have : r > H ∨ r = H := by
        have h := hup.symm
        simp only [Bool.or_eq_true, Bool.and_eq_true, decide_eq_true_eq] at h
        rcases h with h | h
        · exact Or.inl h
        · exact Or.inr h.1
      rw [hsucc]
      omega
    | false =>
      simp only [Bool.false_eq_true, if_false]
      have : ¬ r > H := by
        intro hgt
        have h := hup.symm
        simp [hgt] at h
      rw [ht]
      omega


/-- What a finite result of `round` is: the rounded number itself when it fits, or the
number with its last `k` bits rounded to nearest, ties to even. -/
theorem F64.round_fin (neg : Bool) (M : Nat) (E : Int) (n : Bool) (m : Nat) (e : Int)
    (h : F64.round neg M E = F64.fin n m e) :
    n = neg ∧ ((M = 0 ∧ m = 0) ∨
      (M ≠ 0 ∧ F64.log2 M ≤ 52 ∧ (m : ℚ) * 2 ^ e = (M : ℚ) * 2 ^ E) ∨
      (M ≠ 0 ∧ ∃ k q1 : Nat, 1 ≤ k ∧ (F64.log2 M : Int) - 52 ≤ k ∧ E + k ≤ e ∧
        (m : ℚ) * 2 ^ e = (q1 : ℚ) * 2 ^ (E + k) ∧
        q1 * 2 ^ k ≤ M + 2 ^ (k - 1) ∧ M ≤ q1 * 2 ^ k + 2 ^ (k - 1) ∧
        (M % 2 = 1 → 2 ≤ k →
          q1 * 2 ^ k + 1 ≤ M + 2 ^ (k - 1) ∧ M + 1 ≤ q1 * 2 ^ k + 2 ^ (k - 1)))) := by
  have two_ne : (2 : ℚ) ≠ 0 := by norm_num
  unfold F64.round at h
  by_cases hM : M = 0
  · rw [if_pos hM] at h
    injection h with h1 h2 h3
    exact ⟨h1.symm, Or.inl ⟨hM, h2.symm⟩⟩
  · rw [if_neg hM] at h
    simp only [] at h
    have hmax : E + (F64.log2 M : Int) - 52 ≤ (E + (F64.log2 M : Int) - 52) ⊔ F64.minExp :=
      le_max_left _ _
    generalize he1 : (E + (F64.log2 M : Int) - 52) ⊔ F64.minExp = e1 at h hmax
    by_cases hs : e1 - E ≤ 0
    · rw [if_pos hs] at h
      by_cases hov : e1 > F64.maxExp
      · rw [if_pos hov] at h
        exact F64.noConfusion h
      · rw [if_neg hov] at h
        injection h with h1 h2 h3
        refine ⟨h1.symm, Or.inr (Or.inl ⟨hM, by omega, ?_⟩)⟩
        have hj : (((-(e1 - E)).toNat : Nat) : Int) = E - e1 := by
          rw [Int.toNat_of_nonneg (by omega)]; omega
        rw [← h2, ← h3, Nat.cast_mul, Nat.cast_pow, Nat.cast_ofNat, mul_assoc,
          ← zpow_natCast, ← zpow_add₀ two_ne, hj]
        congr 2
        omega
    · rw [if_neg hs] at h
      have hk : (((e1 - E).toNat : Nat) : Int) = e1 - E :=
        Int.toNat_of_nonneg (by omega)
      generalize hkk : (e1 - E).toNat = k at h hk
      have hk1 : 1 ≤ k := by omega
      generalize hup : (decide (M % 2 ^ k > 2 ^ (k - 1)) ||
        (decide (M % 2 ^ k = 2 ^ (k - 1)) && decide (M / 2 ^ k % 2 = 1))) = up at h
      obtain ⟨⟨r1, r2⟩, r3⟩ := F64.round_nat M k hk1 up hup.symm
      have hup' : (up = true) = (up = true) := rfl
      generalize hq1 : (if up = true then M / 2 ^ k + 1 else M / 2 ^ k) = q1 at h r1 r2 r3
      by_cases h53 : q1 = 2 ^ 53
      · simp only [h53, if_true] at h
        by_cases hov : e1 + 1 > F64.maxExp
        · rw [if_pos hov] at h
          exact F64.noConfusion h
        · rw [if_neg hov] at h
          injection h with h1 h2 h3
          refine ⟨h1.symm, Or.inr (Or.inr ⟨hM, k, q1, hk1, by omega, by omega, ?_, r1, r2, r3⟩)⟩
          rw [← h2, ← h3, h53, show E + (k : Int) = e1 by omega, zpow_add_one₀ two_ne]
          push_cast
          ring
      · simp only [h53, if_false] at h
        by_cases hov : e1 > F64.maxExp
        · rw [if_pos hov] at h
          exact F64.noConfusion h
        · rw [if_neg hov] at h
          injection h with h1 h2 h3
          refine ⟨h1.symm, Or.inr (Or.inr ⟨hM, k, q1, hk1, by omega, by omega, ?_, r1, r2, r3⟩)⟩
          rw [← h2, ← h3, show E + (k : Int) = e1 by omega]


/-- A bound on the last `k` bits carries over to the scaled values. -/
theorem F64.scaled_bound (m q1 k : Nat) (e E : Int) (T : ℚ) (hk : 1 ≤ k)
    (hval : (m : ℚ) * 2 ^ e = (q1 : ℚ) * 2 ^ (E + k)) (hle : E + k ≤ e)
    (hT : |(q1 : ℚ) * 2 ^ k - T| ≤ 2 ^ (k - 1)) :
    |(m : ℚ) * 2 ^ e - T * 2 ^ E| ≤ 2 ^ (e - 1) := by
  have two_ne : (2 : ℚ) ≠ 0 := by norm_num
  have hpos : (0 : ℚ) < 2 ^ E := zpow_pos (by norm_num) E
  have e1 : (m : ℚ) * 2 ^ e - T * 2 ^ E = 2 ^ E * ((q1 : ℚ) * 2 ^ k - T) := by
    rw [hval, zpow_add₀ two_ne, zpow_natCast]
    ring
  rw [e1, abs_mul, abs_of_pos hpos]
  have e2 : (2 : ℚ) ^ E * 2 ^ (k - 1) = 2 ^ (E + k - 1) := by
    rw [← zpow_natCast, ← zpow_add₀ two_ne]
    congr 1
    omega
  calc (2 : ℚ) ^ E * |(q1 : ℚ) * 2 ^ k - T|
      ≤ 2 ^ E * 2 ^ (k - 1) := mul_le_mul_of_nonneg_left hT (le_of_lt hpos)
    _ = 2 ^ (E + k - 1) := e2
    _ ≤ 2 ^ (e - 1) := zpow_le_zpow_right₀ (by norm_num) (by omega)

/-- A finite result of `round` lies within half a unit in the last place of the rounded
number. -/
theorem F64.round_error (neg : Bool) (M : Nat) (E : Int) (n : Bool) (m : Nat) (e : Int)
    (h : F64.round neg M E = F64.fin n m e) :
    |(m : ℚ) * 2 ^ e - (M : ℚ) * 2 ^ E| ≤ 2 ^ (e - 1) := by
  have hpos : (0 : ℚ) ≤ 2 ^ (e - 1) := le_of_lt (zpow_pos (by norm_num) _)
  obtain ⟨_, h0 | hex | hr⟩ := F64.round_fin neg M E n m e h
  · rw [h0.1, h0.2]
    simpa using hpos
  · rw [hex.2.2, sub_self, abs_zero]
    exact hpos
  · obtain ⟨_, k, q1, hk, _, hle, hval, r1, r2, _⟩ := hr
    refine F64.scaled_bound m q1 k e E M hk hval hle ?_
    have c1 : (q1 : ℚ) * 2 ^ k ≤ M + 2 ^ (k - 1) := by exact_mod_cast r1
    have c2 : (M : ℚ) ≤ q1 * 2 ^ k + 2 ^ (k - 1) := by exact_mod_cast r2
    rw [abs_le]
    constructor <;> linarith

/-- A finite result of `round` of an odd number with more than 64 bits lies within half
a unit in the last place of every number that is less than 1 away from it. -/
theorem F64.round_error_sticky (neg : Bool) (M : Nat) (E : Int) (n : Bool) (m : Nat)
    (e : Int) (h : F64.round neg M E = F64.fin n m e) (hodd : M % 2 = 1)
    (hlog : 64 ≤ F64.log2 M) (T : ℚ) (hT : |T - (M : ℚ)| < 1) :
    |(m : ℚ) * 2 ^ e - T * 2 ^ E| ≤ 2 ^ (e - 1) := by
  obtain ⟨_, h0 | hex | hr⟩ := F64.round_fin neg M E n m e h
  · rw [h0.1] at hodd
    exact absurd hodd (by decide)
  · have := hex.2.1
    omega
  · obtain ⟨_, k, q1, hk, hlk, hle, hval, _, _, r3⟩ := hr
    obtain ⟨s1, s2⟩ := r3 hodd (by omega)
    refine F64.scaled_bound m q1 k e E T hk hval hle ?_
    have c1 : (q1 : ℚ) * 2 ^ k + 1 ≤ M + 2 ^ (k - 1) := by exact_mod_cast s1
    have c2 : (M : ℚ) + 1 ≤ q1 * 2 ^ k + 2 ^ (k - 1) := by exact_mod_cast s2
    obtain ⟨t1, t2⟩ := abs_lt.mp hT
    rw [abs_le]
    constructor <;> linarith

/-- The sign factor of an exclusive or is the product of the sign factors. -/
theorem F64.sign_xor (a b : Bool) :
    ((if xor a b then -1 else 1 : ℚ)) = (if a then -1 else 1) * (if b then -1 else 1) := by
  cases a <;> cases b <;> simp

/-- Half a unit in the last place of a normal number is at most `2^-53` of it. -/
theorem F64.half_ulp_le (n : Bool) (m : Nat) (e : Int) (hm : 2 ^ 52 ≤ m) :
    (2 : ℚ) ^ (e - 1) ≤ 2 ^ (-53 : Int) * |F64.toRat (F64.fin n m e)| := by
  have two_ne : (2 : ℚ) ≠ 0 := by norm_num
  have hpos : (0 : ℚ) < 2 ^ e := zpow_pos (by norm_num) e
  have habs : |F64.toRat (F64.fin n m e)| = (m : ℚ) * 2 ^ e := by
    unfold F64.toRat
    cases n
    · simp only [Bool.false_eq_true, if_false, one_mul]
      exact abs_of_nonneg (mul_nonneg (Nat.cast_nonneg m) (le_of_lt hpos))
    · simp only [if_true, neg_mul, one_mul, abs_neg]
      exact abs_of_nonneg (mul_nonneg (Nat.cast_nonneg m) (le_of_lt hpos))
  rw [habs]
  have hm' : (2 : ℚ) ^ (52 : Nat) ≤ (m : ℚ) := by exact_mod_cast hm
  have e1 : (2 : ℚ) ^ (e - 1) = 2 ^ (-53 : Int) * (2 ^ (52 : Nat) * 2 ^ e) := by
    rw [← zpow_natCast, ← zpow_add₀ two_ne, ← zpow_add₀ two_ne]
    congr 1
    omega
  rw [e1]
  have hu : (0 : ℚ) ≤ 2 ^ (-53 : Int) := le_of_lt (zpow_pos (by norm_num) _)
  exact mul_le_mul_of_nonneg_left (mul_le_mul_of_nonneg_right hm' (le_of_lt hpos)) hu


/-- A normal float64 product is within a relative error of `2^-53` of the exact
product. -/
theorem F64.mul_error (x y : F64) (hn : F64.isNormal (F64.mul x y) = true) :
    |F64.toRat (F64.mul x y) - F64.toRat x * F64.toRat y|
      ≤ 2 ^ (-53 : Int) * |F64.toRat (F64.mul x y)| := by
  cases x with
  | nan => simp [F64.mul, F64.isNormal] at hn
  | inf a =>
    cases y with
    | nan => simp [F64.mul, F64.isNormal] at hn
    | inf b => simp [F64.mul, F64.isNormal] at hn
    | fin b m2 e2 =>
      simp only [F64.mul] at hn
      split_ifs at hn <;> simp [F64.isNormal] at hn
  | fin a m1 e1 =>
    cases y with
    | nan => simp [F64.mul, F64.isNormal] at hn
    | inf b =>
      simp only [F64.mul] at hn
      split_ifs at hn <;> simp [F64.isNormal] at hn
    | fin b m2 e2 =>
      have hmul : F64.mul (F64.fin a m1 e1) (F64.fin b m2 e2)
          = F64.round (xor a b) (m1 * m2) (e1 + e2) := rfl
      rw [hmul] at hn ⊢
      cases hr : F64.round (xor a b) (m1 * m2) (e1 + e2) with
      | nan => rw [hr] at hn; simp [F64.isNormal] at hn
      | inf s => rw [hr] at hn; simp [F64.isNormal] at hn
      | fin n m e =>
        rw [hr] at hn
        have hm : 2 ^ 52 ≤ m := by simpa [F64.isNormal] using hn
        have hsign : n = xor a b := (F64.round_fin _ _ _ _ _ _ hr).1
        have herr := F64.round_error _ _ _ _ _ _ hr
        have two_ne : (2 : ℚ) ≠ 0 := by norm_num
        have hdiff : F64.toRat (F64.fin n m e)
              - F64.toRat (F64.fin a m1 e1) * F64.toRat (F64.fin b m2 e2)
            = (if xor a b then -1 else 1 : ℚ)
              * ((m : ℚ) * 2 ^ e - ((m1 * m2 : Nat) : ℚ) * 2 ^ (e1 + e2)) := by
          simp only [F64.toRat, hsign, F64.sign_xor, zpow_add₀ two_ne, Nat.cast_mul]
          ring
        have hs1 : |(if xor a b then -1 else 1 : ℚ)| = 1 := by
          cases xor a b <;> simp
        rw [hdiff, abs_mul, hs1, one_mul]
        exact le_trans herr (F64.half_ulp_le n m e hm)

/-- A normal float64 quotient is within a relative error of `2^-53` of the exact
quotient, and its divisor is not zero. -/
theorem F64.div_error (x y : F64) (hn : F64.isNormal (F64.div x y) = true) :
    F64.toRat y ≠ 0 ∧
      |F64.toRat (F64.div x y) - F64.toRat x / F64.toRat y|
        ≤ 2 ^ (-53 : Int) * |F64.toRat (F64.div x y)| := by
  cases x with
  | nan => simp [F64.div, F64.isNormal] at hn
  | inf a =>
    cases y with
    | nan => simp [F64.div, F64.isNormal] at hn
    | inf b => simp [F64.div, F64.isNormal] at hn
    | fin b m2 e2 => simp [F64.div, F64.isNormal] at hn
  | fin a m1 e1 =>
    cases y with
    | nan => simp [F64.div, F64.isNormal] at hn
    | inf b => simp [F64.div, F64.isNormal, F64.minExp] at hn
    | fin b m2 e2 =>
      by_cases hm2 : m2 = 0
      · simp only [F64.div, hm2, if_true] at hn
        split_ifs at hn <;> simp [F64.isNormal] at hn
      · have two_ne : (2 : ℚ) ≠ 0 := by norm_num
        have hm2q : (m2 : ℚ) ≠ 0 := Nat.cast_ne_zero.mpr hm2
        have hm2pos : (0 : ℚ) < m2 := Nat.cast_pos.mpr (Nat.pos_of_ne_zero hm2)
        have hy : F64.toRat (F64.fin b m2 e2) ≠ 0 := by
          unfold F64.toRat
          have : (2 : ℚ) ^ e2 ≠ 0 := zpow_ne_zero _ two_ne
          cases b <;> simp [hm2q, this]
        refine ⟨hy, ?_⟩
        have hdiv : F64.div (F64.fin a m1 e1) (F64.fin b m2 e2)
            = F64.round (xor a b)
                (2 * (m1 * 2 ^ (F64.log2 m2 + 64) / m2)
                  + (if m1 * 2 ^ (F64.log2 m2 + 64) % m2 = 0 then 0 else 1))
                (e1 - e2 - ((F64.log2 m2 + 64 : Nat) : Int) - 1) := by
          simp only [F64.div, hm2, if_false]
        rw [hdiv] at hn ⊢
        generalize hK : F64.log2 m2 + 64 = K at hn ⊢
        generalize hq : m1 * 2 ^ K / m2 = q at hn ⊢
        generalize hst : (if m1 * 2 ^ K % m2 = 0 then 0 else 1 : Nat) = sticky at hn ⊢
        cases hr : F64.round (xor a b) (2 * q + sticky) (e1 - e2 - (K : Int) - 1) with
        | nan => rw [hr] at hn; simp [F64.isNormal] at hn
        | inf s => rw [hr] at hn; simp [F64.isNormal] at hn
        | fin n m e =>
          rw [hr] at hn
          have hm : 2 ^ 52 ≤ m := by simpa [F64.isNormal] using hn
          have hsign : n = xor a b := (F64.round_fin _ _ _ _ _ _ hr).1
          -- the exact quotient, scaled to the exponent of the rounded number
          have hdm : m1 * 2 ^ K = q * m2 + m1 * 2 ^ K % m2 := by
            rw [← hq, Nat.mul_comm (m1 * 2 ^ K / m2) m2]
            exact (Nat.div_add_mod _ _).symm
          have hrlt : m1 * 2 ^ K % m2 < m2 := Nat.mod_lt _ (Nat.pos_of_ne_zero hm2)
          generalize hrem : m1 * 2 ^ K % m2 = r at hst hdm hrlt
          have hdmq : (m1 : ℚ) * 2 ^ K = q * m2 + r := by exact_mod_cast hdm
          have hrq : (r : ℚ) < m2 := by exact_mod_cast hrlt
          have hT : (2 * (m1 : ℚ) * 2 ^ K / m2) = 2 * q + 2 * r / m2 := by
            field_simp
            linarith
          have hscale : ((m1 : ℚ) * 2 ^ e1) / ((m2 : ℚ) * 2 ^ e2)
              = (2 * (m1 : ℚ) * 2 ^ K / m2) * 2 ^ (e1 - e2 - (K : Int) - 1) := by
            have h2 : (2 : ℚ) ^ e2 ≠ 0 := zpow_ne_zero _ two_ne
            have e3 : (2 : ℚ) ^ (e1 - e2 - (K : Int) - 1)
                = 2 ^ e1 / (2 ^ e2 * 2 ^ K * 2) := by
              rw [zpow_sub₀ two_ne, zpow_sub₀ two_ne, zpow_sub₀ two_ne, zpow_natCast, zpow_one]
              field_simp
            rw [e3]
            field_simp
            ring
          have herrT : |(m : ℚ) * 2 ^ e
              - (2 * (m1 : ℚ) * 2 ^ K / m2) * 2 ^ (e1 - e2 - (K : Int) - 1)|
              ≤ 2 ^ (e - 1) := by
            by_cases hr0 : r = 0
            · have hs0 : sticky = 0 := by rw [← hst, if_pos hr0]
              have := F64.round_error _ _ _ _ _ _ hr
              rw [hs0] at this
              rw [hT, hr0]
              simpa using this
            · have hs1 : sticky = 1 := by rw [← hst, if_neg hr0]
              rw [hs1] at hr
              have hm1 : m1 ≠ 0 := by
                intro h0
                rw [h0] at hdm
                simp only [Nat.zero_mul] at hdm
                have : r = 0 := by
                  rcases Nat.eq_zero_or_pos q with hq0 | hq0
                  · rw [hq0] at hdm; omega
                  · have : m2 ≤ q * m2 := Nat.le_mul_of_pos_left m2 hq0
                    omega
                exact hr0 this
              have hq63 : 2 ^ 63 ≤ q := by
                rw [← hq]
                apply (Nat.le_div_iff_mul_le (Nat.pos_of_ne_zero hm2)).mpr
                have hlt := F64.lt_pow_log2 m2
                have hKe : 2 ^ K = 2 ^ (F64.log2 m2 + 1) * 2 ^ 63 := by
                  rw [← hK, ← Nat.pow_add]
                have h1 : 2 ^ 63 * m2 ≤ 2 ^ 63 * 2 ^ (F64.log2 m2 + 1) :=
                  Nat.mul_le_mul_left _ (Nat.le_of_lt hlt)
                have h2 : 1 * 2 ^ K ≤ m1 * 2 ^ K :=
                  Nat.mul_le_mul_right _ (Nat.pos_of_ne_zero hm1)
                rw [hKe] at h2 ⊢
                rw [Nat.mul_comm (2 ^ (F64.log2 m2 + 1)) (2 ^ 63)] at h2 ⊢
                omega
              have hlog : 64 ≤ F64.log2 (2 * q + 1) :=
                F64.le_log2 _ _ (by omega)
              refine F64.round_error_sticky _ _ _ _ _ _ hr (by omega) hlog _ ?_
              rw [hT]
              have hrpos : (0 : ℚ) < r := Nat.cast_pos.mpr (Nat.pos_of_ne_zero hr0)
              have hfr1 : 0 < 2 * (r : ℚ) / m2 := by positivity
              have hfr2 : 2 * (r : ℚ) / m2 < 2 := by
                rw [div_lt_iff₀ hm2pos]
                linarith
              rw [abs_lt]
              push_cast
              constructor <;> linarith
          have hdiff : F64.toRat (F64.fin n m e)
                - F64.toRat (F64.fin a m1 e1) / F64.toRat (F64.fin b m2 e2)
              = (if xor a b then -1 else 1 : ℚ)
                * ((m : ℚ) * 2 ^ e
                  - (2 * (m1 : ℚ) * 2 ^ K / m2) * 2 ^ (e1 - e2 - (K : Int) - 1)) := by
            rw [← hscale]
            simp only [F64.toRat, hsign, F64.sign_xor]
            have h2 : (2 : ℚ) ^ e2 ≠ 0 := zpow_ne_zero _ two_ne
            cases a <;> cases b <;> simp <;> field_simp <;> ring
          have hs1 : |(if xor a b then -1 else 1 : ℚ)| = 1 := by
            cases xor a b <;> simp
          rw [hdiff, abs_mul, hs1, one_mul]
          exact le_trans herrT (F64.half_ulp_le n m e hm)


/-- A relative error bound names a factor `1 - t` with `|t|` at most the bound. -/
theorem F64.exists_factor (x y u : ℚ) (hu : 0 ≤ u) (h : |x - y| ≤ u * |x|) :
    ∃ t : ℚ, |t| ≤ u ∧ y = x * (1 - t) := by
  by_cases hx : x = 0
  · refine ⟨0, by simpa using hu, ?_⟩
    rw [hx, abs_zero, mul_zero, zero_sub, abs_neg] at h
    have hy : y = 0 := abs_eq_zero.mp (le_antisymm h (abs_nonneg y))
    rw [hx, hy, zero_mul]
  · refine ⟨(x - y) / x, ?_, ?_⟩
    · rw [abs_div, div_le_iff₀ (abs_pos.mpr hx)]
      exact h
    · field_simp

/-- One more factor `1 - t` widens the distance of a product from 1 by the factor
`1 + u`. -/
theorem F64.factor_step (p t d u : ℚ) (hp : |1 - p| ≤ d) (ht : |t| ≤ u) :
    |1 - p * (1 - t)| ≤ (1 + d) * (1 + u) - 1 := by
  have hd : 0 ≤ d := le_trans (abs_nonneg _) hp
  have hu : 0 ≤ u := le_trans (abs_nonneg _) ht
  have hpabs : |p| ≤ 1 + d := by
    have h1 : |p| ≤ |1| + |p - 1| := by
      have := abs_add (1 : ℚ) (p - 1)
      simpa using this
    rw [abs_one, abs_sub_comm] at h1
    linarith
  have e : 1 - p * (1 - t) = (1 - p) + p * t := by ring
  have h2 : |p * t| ≤ (1 + d) * u := by
    rw [abs_mul]
    exact mul_le_mul hpabs ht (abs_nonneg _) (by linarith)
  calc |1 - p * (1 - t)| = |(1 - p) + p * t| := by rw [e]
    _ ≤ |1 - p| + |p * t| := abs_add _ _
    _ ≤ d + (1 + d) * u := add_le_add hp h2
    _ = (1 + d) * (1 + u) - 1 := by ring

/-- Four roundings of relative error `2^-53` each, around a factor and its inverse,
return a number within a relative error of `2^-50`. -/
theorem F64.roundtrip_bound (A S C F V G W : ℚ) (hS : S ≠ 0) (hC : C ≠ 0)
    (h1 : |F - C / S| ≤ 2 ^ (-53 : Int) * |F|)
    (h2 : |V - A * F| ≤ 2 ^ (-53 : Int) * |V|)
    (h3 : |G - S / C| ≤ 2 ^ (-53 : Int) * |G|)
    (h4 : |W - V * G| ≤ 2 ^ (-53 : Int) * |W|) :
    |W - A| ≤ 2 ^ (-50 : Int) * |A| := by
  have hu : (0 : ℚ) ≤ 2 ^ (-53 : Int) := le_of_lt (zpow_pos (by norm_num) _)
  obtain ⟨t1, b1, e1⟩ := F64.exists_factor _ _ _ hu h1
  obtain ⟨t2, b2, e2⟩ := F64.exists_factor _ _ _ hu h2
  obtain ⟨t3, b3, e3⟩ := F64.exists_factor _ _ _ hu h3
  obtain ⟨t4, b4, e4⟩ := F64.exists_factor _ _ _ hu h4
  have hA : A = W * ((1 - t4) * (1 - t2) * (1 - t1) * (1 - t3)) := by
    have hone : (C / S) * (S / C) = 1 := by field_simp
    calc A = A * ((C / S) * (S / C)) := by rw [hone, mul_one]
      _ = (A * F) * G * ((1 - t1) * (1 - t3)) := by rw [e1, e3]; ring
      _ = (V * G) * ((1 - t2) * (1 - t1) * (1 - t3)) := by rw [e2]; ring
      _ = W * ((1 - t4) * (1 - t2) * (1 - t1) * (1 - t3)) := by rw [e4]; ring
  have key : ∀ c : ℚ, |1 - (1 - t4) * (1 - t2) * (1 - t1) * (1 - t3)| ≤ c →
      c ≤ 2 ^ (-50 : Int) * (1 - c) → |W - A| ≤ 2 ^ (-50 : Int) * |A| := by
    intro c s4 hcnum
    generalize (1 - t4) * (1 - t2) * (1 - t1) * (1 - t3) = P at hA s4
    have hc0 : 0 ≤ c := le_trans (abs_nonneg _) s4
    have hWA : |W - A| ≤ c * |W| := by
      have e : W - A = W * (1 - P) := by rw [hA]; ring
      rw [e, abs_mul, mul_comm]
      exact mul_le_mul_of_nonneg_right s4 (abs_nonneg _)
    have hW : (1 - c) * |W| ≤ |A| := by
      have h := abs_sub_abs_le_abs_sub W A
      linarith
    have h50 : (0 : ℚ) ≤ 2 ^ (-50 : Int) := le_of_lt (zpow_pos (by norm_num) _)
    calc |W - A| ≤ c * |W| := hWA
      _ ≤ 2 ^ (-50 : Int) * (1 - c) * |W| :=
          mul_le_mul_of_nonneg_right hcnum (abs_nonneg _)
      _ = 2 ^ (-50 : Int) * ((1 - c) * |W|) := by ring
      _ ≤ 2 ^ (-50 : Int) * |A| := mul_le_mul_of_nonneg_left hW h50
  have s0 : |1 - (1 : ℚ)| ≤ 0 := by simp
  have s1 := F64.factor_step 1 t4 0 _ s0 b4
  rw [one_mul] at s1
  have s2 := F64.factor_step _ t2 _ _ s1 b2
  have s3 := F64.factor_step _ t1 _ _ s2 b1
  have s4 := F64.factor_step _ t3 _ _ s3 b3
  exact key _ s4 (by norm_num)


set_option maxRecDepth 8192 in
/-- The float64 constant `100.0` has the value 100. -/
theorem F64.toRat_hundred : F64.toRat F64.hundred = 100 := by
  have h100 : F64.hundred = F64.fin false (100 * 2 ^ 46) (-46) := by decide
  rw [h100]
  norm_num [F64.toRat]

/-- Multiplying the normalised amount by the multiplicand: the float64 value
`(a * (100 / s)) * (s / 100)` is within a relative error of `2^-50` of `a` when the two
quotients and the two products are normal numbers. -/
theorem F64.roundtrip_error (a s : F64)
    (hf : F64.isNormal (F64.div F64.hundred s) = true)
    (hv : F64.isNormal (F64.mul a (F64.div F64.hundred s)) = true)
    (hg : F64.isNormal (F64.div s F64.hundred) = true)
    (hw : F64.isNormal
      (F64.mul (F64.mul a (F64.div F64.hundred s)) (F64.div s F64.hundred)) = true) :
    |F64.toRat (F64.mul (F64.mul a (F64.div F64.hundred s)) (F64.div s F64.hundred))
        - F64.toRat a| ≤ 2 ^ (-50 : Int) * |F64.toRat a| := by
  obtain ⟨hS, h1⟩ := F64.div_error F64.hundred s hf
  obtain ⟨hC, h3⟩ := F64.div_error s F64.hundred hg
  have h2 := F64.mul_error a (F64.div F64.hundred s) hv
  have h4 := F64.mul_error (F64.mul a (F64.div F64.hundred s)) (F64.div s F64.hundred) hw
  exact F64.roundtrip_bound (F64.toRat a) (F64.toRat s) (F64.toRat F64.hundred) _ _ _ _
    hS hC h1 h2 h3 h4

/-- C16 (as amended). For a branded record with serving size `s > 0` and the last pair
of a table code with raw amount `a`, the stored per-100g value is `a * (100 / s)` and
the multiplicand is `s / 100`, both in float64. Their float64 product recovers `a`
within a relative error of `2^-50` when the two quotients and the two products are
normal numbers, and it is 0 when `a` is 0 and the two quotients are finite. -/
theorem multiplicand_recovers_amount (usda : BrandedFood) (id : Nat) (now : Time)
    (pre post : List FoodNutrient) (n : FoodNutrient)
    (hs : F64.gtZero usda.ServingSize = true)
    (hlist : usda.FoodNutrients = pre ++ n :: post)
    (hc : n.Nutrient.ID ∈ nutrientCodes)
    (hlast : ∀ m ∈ post, m.Nutrient.ID ≠ n.Nutrient.ID) :
    ∃ v, (MapBrandedFood usda id now).field n.Nutrient.ID = some v ∧
      v = F64.mul n.Amount (F64.div F64.hundred usda.ServingSize) ∧
      (MapBrandedFood usda id now).ServingSizeMultiplicand
        = F64.div usda.ServingSize F64.hundred ∧
      (F64.isNormal (F64.div F64.hundred usda.ServingSize) = true →
        F64.isNormal v = true →
        F64.isNormal (MapBrandedFood usda id now).ServingSizeMultiplicand = true →
        F64.isNormal (F64.mul v (MapBrandedFood usda id now).ServingSizeMultiplicand)
          = true →
        |F64.toRat (F64.mul v (MapBrandedFood usda id now).ServingSizeMultiplicand)
            - F64.toRat n.Amount| ≤ 2 ^ (-50 : Int) * |F64.toRat n.Amount|) ∧
      (F64.isZero n.Amount = true →
        F64.isFinite (F64.div F64.hundred usda.ServingSize) = true →
        F64.isFinite (MapBrandedFood usda id now).ServingSizeMultiplicand = true →
        F64.isZero (F64.mul v (MapBrandedFood usda id now).ServingSizeMultiplicand)
          = true) := by
  have hmult : (MapBrandedFood usda id now).ServingSizeMultiplicand
      = F64.div usda.ServingSize F64.hundred := by
    unfold MapBrandedFood
    simp only [hs, if_true]
    split_ifs <;> rfl
  have hfield : (MapBrandedFood usda id now).field n.Nutrient.ID
      = some (F64.mul n.Amount (F64.div F64.hundred usda.ServingSize)) := by
    unfold Food.field
    rw [MapBrandedFood_NutritionFacts]
    show nutrientField (mapBrandedNutritionFacts usda) n.Nutrient.ID = _
    unfold mapBrandedNutritionFacts
    simp only []
    rw [brandedNutrientLoop_eq, hlist]
    exact nutrientField_routeAll_last
      (fun a => F64.mul a (F64.div F64.hundred usda.ServingSize)) _ pre post n hc hlast
  refine ⟨_, hfield, rfl, hmult, ?_, ?_⟩
  · rw [hmult]
    intro hf hv hg hw
    exact F64.roundtrip_error n.Amount usda.ServingSize hf hv hg hw
  · rw [hmult]
    intro hz hf hg
    exact F64.isZero_mul_of_isFinite _ _ (F64.isZero_mul_of_isFinite _ _ hz hf) hg

set_option maxRecDepth 8192 in
/-- C16 (as amended), at serving size 28 and raw amount 10: the product of the stored
value and the multiplicand is within `2^-50` of 10 (relative to 10). -/
theorem multiplicand_recovers_amount_witness :
    F64.gtZero (F64.ofNat 28) = true ∧
      ∃ v, (MapBrandedFood (sampleBranded (F64.ofNat 28) [sampleNutrient 1008 (F64.ofNat 10)])
          1 sampleTime).field 1008 = some v ∧
        |F64.toRat (F64.mul v
            (MapBrandedFood (sampleBranded (F64.ofNat 28) [sampleNutrient 1008 (F64.ofNat 10)])
              1 sampleTime).ServingSizeMultiplicand)
          - F64.toRat (F64.ofNat 10)| ≤ 2 ^ (-50 : Int) * |F64.toRat (F64.ofNat 10)| := by
  obtain ⟨v, h1, h2, _, h4, _⟩ := multiplicand_recovers_amount
    (sampleBranded (F64.ofNat 28) [sampleNutrient 1008 (F64.ofNat 10)]) 1 sampleTime
    [] [] (sampleNutrient 1008 (F64.ofNat 10)) (by decide) rfl (by decide) (by simp)
  refine ⟨by decide, v, h1, h4 (by decide) ?_ (by decide) ?_⟩
  · rw [h2]; decide
  · rw [h2]; decide

set_option maxRecDepth 8192 in
/-- C16 fails as stated: at serving size 28 and raw amount 10 the stored value times the
multiplicand is `10.000000000000002` (one unit in the last place above 10), not 10. -/
theorem multiplicand_roundtrip_counterexample :
    F64.gtZero (F64.ofNat 28) = true ∧
      (MapBrandedFood (sampleBranded (F64.ofNat 28) [sampleNutrient 1008 (F64.ofNat 10)])
        1 sampleTime).field 1008
        = some (F64.mul (F64.ofNat 10) (F64.div F64.hundred (F64.ofNat 28))) ∧
      (MapBrandedFood (sampleBranded (F64.ofNat 28) [sampleNutrient 1008 (F64.ofNat 10)])
        1 sampleTime).ServingSizeMultiplicand = F64.div (F64.ofNat 28) F64.hundred ∧
      F64.ofNat 10 = F64.fin false 5629499534213120 (-49) ∧
      F64.mul (F64.mul (F64.ofNat 10) (F64.div F64.hundred (F64.ofNat 28)))
          (F64.div (F64.ofNat 28) F64.hundred)
        = F64.fin false 5629499534213121 (-49) ∧
      F64.mul (F64.mul (F64.ofNat 10) (F64.div F64.hundred (F64.ofNat 28)))
          (F64.div (F64.ofNat 28) F64.hundred)
        ≠ F64.ofNat 10 := by
  decide


/-! ## Repeated nutrient codes -/

/-- The fields of the table codes hold their defaults in a block whose nutrient fields
are all defaults. -/
theorem nutrientField_of_default (nf : NutritionFacts) (h : nutrientsDefault nf) (c : Int)
    (hc : c ∈ nutrientCodes) : nutrientField nf c = defaultField c := by
  obtain ⟨h1, h2, h3, h4, h5, h6, h7, h8, h9, h10, h11, h12, h13, h14⟩ := h
  simp only [nutrientCodes, List.mem_cons, List.mem_singleton, List.not_mem_nil, or_false] at hc
  rcases hc with hc | hc | hc | hc | hc | hc | hc | hc | hc | hc | hc | hc | hc | hc <;>
    subst hc
  · exact congrArg some h1
  · exact congrArg some h2
  · exact congrArg some h3
  · exact congrArg some h4
  · exact h5
  · exact congrArg some h6
  · exact congrArg some h7
  · exact congrArg some h8
  · exact congrArg some h9
  · exact congrArg some h10
  · exact congrArg some h11
  · exact congrArg some h12
  · exact congrArg some h13
  · exact congrArg some h14

/-- The survey mapper starts its nutrient loop with default nutrient fields. -/
theorem survey_initial_default (usda : SurveyFood) :
    nutrientsDefault
      { portionLoop ({ FoodName := usda.Description, Ingredients := [] } : NutritionFacts)
          usda.FoodPortions with ServingsPerContainer := 1 } := by
  obtain ⟨g, k, e⟩ := portionLoop_frame
    ({ FoodName := usda.Description, Ingredients := [] } : NutritionFacts) usda.FoodPortions
  rw [e]
  exact ⟨rfl, rfl, rfl, rfl, rfl, rfl, rfl, rfl, rfl, rfl, rfl, rfl, rfl, rfl⟩

/-- C21. Last write wins, for both mappers and every nutrient list: the field of a table
code `c` holds the normalised amount of the last pair with code `c` (the amount itself
for a survey record, `amount * (100 / servingSize)` in float64 for a branded record),
and it holds the default (0, nil for trans fat) when no pair has code `c`. -/
theorem last_write_wins :
    (∀ (usda : SurveyFood) (id : Nat) (now : Time) (c : Int), c ∈ nutrientCodes →
      (∀ (pre post : List FoodNutrient) (n : FoodNutrient),
        usda.FoodNutrients = pre ++ n :: post → n.Nutrient.ID = c →
        (∀ m ∈ post, m.Nutrient.ID ≠ c) →
        (MapSurveyFood usda id now).field c = some n.Amount) ∧
      ((∀ n ∈ usda.FoodNutrients, n.Nutrient.ID ≠ c) →
        (MapSurveyFood usda id now).field c = defaultField c)) ∧
    (∀ (usda : BrandedFood) (id : Nat) (now : Time) (c : Int), c ∈ nutrientCodes →
      (∀ (pre post : List FoodNutrient) (n : FoodNutrient),
        usda.FoodNutrients = pre ++ n :: post → n.Nutrient.ID = c →
        (∀ m ∈ post, m.Nutrient.ID ≠ c) →
        (MapBrandedFood usda id now).field c
          = some (F64.mul n.Amount (F64.div F64.hundred usda.ServingSize))) ∧
      ((∀ n ∈ usda.FoodNutrients, n.Nutrient.ID ≠ c) →
        (MapBrandedFood usda id now).field c = defaultField c)) := by
  refine ⟨fun usda id now c hc => ⟨?_, ?_⟩, fun usda id now c hc => ⟨?_, ?_⟩⟩
  · intro pre post n hlist hn hlast
    unfold Food.field
    rw [MapSurveyFood_NutritionFacts]
    show nutrientField (mapSurveyNutritionFacts usda) c = _
    unfold mapSurveyNutritionFacts
    simp only []
    rw [surveyNutrientLoop_eq, hlist, ← hn]
    exact nutrientField_routeAll_last (fun a => a) _ pre post n (hn ▸ hc)
      (fun m hm => hn ▸ hlast m hm)
  · intro hno
    unfold Food.field
    rw [MapSurveyFood_NutritionFacts]
    show nutrientField (mapSurveyNutritionFacts usda) c = _
    unfold mapSurveyNutritionFacts
    simp only []
    rw [surveyNutrientLoop_eq, nutrientField_routeAll_of_not_mem _ c hc _ _ hno]
    exact nutrientField_of_default _ (survey_initial_default usda) c hc
  · intro pre post n hlist hn hlast
    unfold Food.field
    rw [MapBrandedFood_NutritionFacts]
    show nutrientField (mapBrandedNutritionFacts usda) c = _
    unfold mapBrandedNutritionFacts
    simp only []
    rw [brandedNutrientLoop_eq, hlist, ← hn]
    exact nutrientField_routeAll_last
      (fun a => F64.mul a (F64.div F64.hundred usda.ServingSize)) _ pre post n (hn ▸ hc)
      (fun m hm => hn ▸ hlast m hm)
  · intro hno
    unfold Food.field
    rw [MapBrandedFood_NutritionFacts]
    show nutrientField (mapBrandedNutritionFacts usda) c = _
    unfold mapBrandedNutritionFacts
    simp only []
    rw [brandedNutrientLoop_eq, nutrientField_routeAll_of_not_mem _ c hc _ _ hno]
    apply nutrientField_of_default _ _ c hc
    split_ifs <;> exact ⟨rfl, rfl, rfl, rfl, rfl, rfl, rfl, rfl, rfl, rfl, rfl, rfl, rfl, rfl⟩

set_option maxRecDepth 8192 in
/-- C21, at records that list the protein code 1003 three times (amounts 3, 8, 5) and
never list the sodium code 1093 or the trans-fat code 1257: protein holds the last
amount (5 for the survey record, `5 * (100 / 50) = 10` for the branded record with
serving size 50), sodium holds 0 and trans fat is nil. -/
theorem last_write_wins_witness :
    ((MapSurveyFood
        (sampleSurvey
          [sampleNutrient 1003 (F64.ofNat 3), sampleNutrient 1003 (F64.ofNat 8),
            sampleNutrient 1008 (F64.ofNat 61), sampleNutrient 1003 (F64.ofNat 5)] [])
        1 sampleTime).field 1003 = some (F64.ofNat 5) ∧
      (MapSurveyFood
        (sampleSurvey
          [sampleNutrient 1003 (F64.ofNat 3), sampleNutrient 1003 (F64.ofNat 8),
            sampleNutrient 1008 (F64.ofNat 61), sampleNutrient 1003 (F64.ofNat 5)] [])
        1 sampleTime).field 1093 = some F64.zero ∧
      (MapSurveyFood
        (sampleSurvey
          [sampleNutrient 1003 (F64.ofNat 3), sampleNutrient 1003 (F64.ofNat 8),
            sampleNutrient 1008 (F64.ofNat 61), sampleNutrient 1003 (F64.ofNat 5)] [])
        1 sampleTime).field 1257 = none) ∧
    ((MapBrandedFood
        (sampleBranded (F64.ofNat 50)
          [sampleNutrient 1003 (F64.ofNat 3), sampleNutrient 1003 (F64.ofNat 8),
            sampleNutrient 1008 (F64.ofNat 61), sampleNutrient 1003 (F64.ofNat 5)])
        1 sampleTime).field 1003 = some (F64.ofNat 10) ∧
      (MapBrandedFood
        (sampleBranded (F64.ofNat 50)
          [sampleNutrient 1003 (F64.ofNat 3), sampleNutrient 1003 (F64.ofNat 8),
            sampleNutrient 1008 (F64.ofNat 61), sampleNutrient 1003 (F64.ofNat 5)])
        1 sampleTime).field 1093 = some F64.zero ∧
      (MapBrandedFood
        (sampleBranded (F64.ofNat 50)
          [sampleNutrient 1003 (F64.ofNat 3), sampleNutrient 1003 (F64.ofNat 8),
            sampleNutrient 1008 (F64.ofNat 61), sampleNutrient 1003 (F64.ofNat 5)])
        1 sampleTime).field 1257 = none) := by
  have hs := last_write_wins.1
    (sampleSurvey
      [sampleNutrient 1003 (F64.ofNat 3), sampleNutrient 1003 (F64.ofNat 8),
        sampleNutrient 1008 (F64.ofNat 61), sampleNutrient 1003 (F64.ofNat 5)] [])
    1 sampleTime
  have hb := last_write_wins.2
    (sampleBranded (F64.ofNat 50)
      [sampleNutrient 1003 (F64.ofNat 3), sampleNutrient 1003 (F64.ofNat 8),
        sampleNutrient 1008 (F64.ofNat 61), sampleNutrient 1003 (F64.ofNat 5)])
    1 sampleTime
  refine ⟨⟨?_, ?_, ?_⟩, ⟨?_, ?_, ?_⟩⟩
  · exact (hs 1003 (by decide)).1
      [sampleNutrient 1003 (F64.ofNat 3), sampleNutrient 1003 (F64.ofNat 8),
        sampleNutrient 1008 (F64.ofNat 61)] [] (sampleNutrient 1003 (F64.ofNat 5))
      rfl rfl (by simp)
  · exact ((hs 1093 (by decide)).2 (by decide)).trans (by decide)
  · exact ((hs 1257 (by decide)).2 (by decide)).trans (by decide)
  · exact ((hb 1003 (by decide)).1
      [sampleNutrient 1003 (F64.ofNat 3), sampleNutrient 1003 (F64.ofNat 8),
        sampleNutrient 1008 (F64.ofNat 61)] [] (sampleNutrient 1003 (F64.ofNat 5))
      rfl rfl (by simp)).trans (by decide)
  · exact ((hb 1093 (by decide)).2 (by decide)).trans (by decide)
  · exact ((hb 1257 (by decide)).2 (by decide)).trans (by decide)

end UsdaImporter
